import Mathlib

/-!
The ys-cloud control plane: build and deployment services and their adapters.

A shallow embedding of `internal/models`, `internal/repository` and
`internal/service` (build, deployment, pipeline), of the cluster adapter's
`Deploy` and `RollbackDeployment` (`pkg/k8s`), of the image builder's two build
methods (`pkg/docker`) and of the source adapter's `Clone` and `Cleanup`
(`pkg/git`).

Conventions of the embedding:

* the gorm database is an explicit value `DB` passed through every call, and
  so are the cluster, the Docker daemon and the file system;
* `time.Now()` and `os.Getpid()` are explicit arguments;
* a Go `(value, error)` pair is a `Result`, which has a third outcome `panic`
  for a nil-pointer dereference (a service field that was never set);
* a call that may loop for ever yields a `Run`, which is `hangs` in that case;
* gorm bookkeeping columns `CreatedAt`/`UpdatedAt` and preloaded association
  fields (`Build.Pipeline`, `Build.Deployments`, `Deployment.Build`, ...) are
  left out of the records: no modelled operation reads them;
* calls of the logger are left out.
-/

namespace YsCloud

/-! ## Results -/

/-- Outcome of a Go call returning `(T, error)`; `panic` is a nil dereference. -/
inductive Result (α : Type) where
  | ok (a : α)
  | error (msg : String)
  | panic
deriving DecidableEq, Repr

/-- True exactly on `Result.ok`. -/
def Result.isOk {α : Type} : Result α → Bool
  | .ok _ => true
  | _ => false

/-- True exactly on `Result.error`: the Go call returned a non-nil error. -/
def Result.isError {α : Type} : Result α → Bool
  | .error _ => true
  | _ => false

/-! ## Time and `Format("20060102-150405")` -/

/-- Broken-down wall-clock reading, as `time.Now()` yields in the local zone. -/
structure Time where
  year : Nat
  month : Nat
  day : Nat
  hour : Nat
  minute : Nat
  second : Nat
  nanosecond : Nat
deriving DecidableEq, Repr

/-- Field ranges of a `time.Time` produced by the clock. -/
def Time.valid (t : Time) : Prop :=
  t.year < 10000 ∧ 1 ≤ t.month ∧ t.month ≤ 12 ∧ 1 ≤ t.day ∧ t.day ≤ 31 ∧
  t.hour < 24 ∧ t.minute < 60 ∧ t.second < 60 ∧ t.nanosecond < 1000000000

instance (t : Time) : Decidable t.valid := by
  unfold Time.valid; infer_instance

/-- ASCII decimal digit of `d % 10`. -/
def digitChar (d : Nat) : Char := Char.ofNat (48 + d % 10)

/-- Go `time.appendInt`: decimal rendering of `x`, zero-padded to `width`. -/
def appendInt (x width : Nat) : List Char :=
  if width = 2 ∧ x < 100 then
    [digitChar (x / 10), digitChar x]
  else if width = 4 ∧ x < 10000 then
    [digitChar (x / 1000), digitChar (x / 100), digitChar (x / 10), digitChar x]
  else
    let ds := (Nat.repr x).data
    List.replicate (width - ds.length) '0' ++ ds

/-- Layout `"20060102-150405"`: year, month, day, a dash, hour, minute, second. -/
def Time.Format (t : Time) : String :=
  String.mk (appendInt t.year 4 ++ appendInt t.month 2 ++ appendInt t.day 2 ++ ['-'] ++
    appendInt t.hour 2 ++ appendInt t.minute 2 ++ appendInt t.second 2)

/-! ## Models (`internal/models/models.go`) -/

/-- The `models.Project` columns read by the pipeline service. -/
structure Project where
  ID : Nat
  Name : String
  Description : String
  GitURL : String
  GitProvider : String
  OwnerID : Nat
  DeletedAt : Option Time
deriving DecidableEq, Repr

/-- The `models.Pipeline` record. -/
structure Pipeline where
  ID : Nat
  Name : String
  Description : String
  ProjectID : Nat
  Config : String
  Status : String
  DeletedAt : Option Time
deriving DecidableEq, Repr

/-- The `models.Build` record. -/
structure Build where
  ID : Nat
  PipelineID : Nat
  CommitHash : String
  Branch : String
  Tag : String
  Status : String
  Logs : String
  ImageName : String
  ImageTag : String
  StartedAt : Option Time
  CompletedAt : Option Time
  DeletedAt : Option Time
deriving DecidableEq, Repr

/-- The `models.Deployment` record (`Replicas` is an `int32`). -/
structure Deployment where
  ID : Nat
  BuildID : Nat
  Environment : String
  Status : String
  Replicas : Int
  Namespace : String
  ServiceName : String
  IngressHost : String
  StartedAt : Option Time
  CompletedAt : Option Time
  DeletedAt : Option Time
deriving DecidableEq, Repr

/-! ## The database -/

/-- The `models.User` record: `Password` holds the bcrypt hash, and `Username`
and `Email` each carry a unique index. -/
structure User where
  ID : Nat
  Username : String
  Email : String
  Password : String
  Role : String
  Avatar : String
  DeletedAt : Option Time
deriving DecidableEq, Repr

/-- The relational store behind every repository. With `online = false` every
statement fails (gorm returns a driver error) and nothing is written. -/
structure DB where
  online : Bool
  projects : List Project
  pipelines : List Pipeline
  builds : List Build
  deployments : List Deployment
  users : List User := []
deriving DecidableEq, Repr

/-- Error text of a failed statement. -/
def dbUnavailable : String := "database unavailable"

/-- The text of `gorm.ErrRecordNotFound`. -/
def recordNotFound : String := "record not found"

/-- Error text of an insert whose primary key is already taken. -/
def duplicateKey : String := "duplicate key value violates unique constraint"

/-- Next value of a serial primary key: one above every key in the table. -/
def nextID (ids : List Nat) : Nat := ids.foldr max 0 + 1

/-! ## Repositories (`internal/repository`) -/

/-- A `*repository.ProjectRepository`: a handle on the shared `DB`. -/
structure ProjectRepository where
deriving DecidableEq, Repr

/-- A `*repository.PipelineRepository`: a handle on the shared `DB`. -/
structure PipelineRepository where
deriving DecidableEq, Repr

/-- A `*repository.BuildRepository`: a handle on the shared `DB`. -/
structure BuildRepository where
deriving DecidableEq, Repr

/-- A `*repository.DeploymentRepository`: a handle on the shared `DB`. -/
structure DeploymentRepository where
deriving DecidableEq, Repr

/-- Method `db.First(&project, id)`: the live row with that key. -/
def ProjectRepository.GetByID (_r : ProjectRepository) (db : DB) (id : Nat) : Result Project :=
  if db.online then
    match db.projects.find? (fun p => p.ID == id && p.DeletedAt.isNone) with
    | some p => .ok p
    | none => .error recordNotFound
  else .error dbUnavailable

/-- Method `db.Create(pipeline)`: insert, drawing the key from the serial when it is zero. -/
def PipelineRepository.Create (_r : PipelineRepository) (db : DB) (pipeline : Pipeline) :
    Result Pipeline × DB :=
  if db.online then
    let row := if pipeline.ID = 0 then
        { pipeline with ID := nextID (db.pipelines.map (fun p => p.ID)) } else pipeline
    if db.pipelines.any (fun p => p.ID == row.ID) then (.error duplicateKey, db)
    else (.ok row, { db with pipelines := db.pipelines ++ [row] })
  else (.error dbUnavailable, db)

/-- Method `db.First(&pipeline, id)`: the live row with that key. -/
def PipelineRepository.GetByID (_r : PipelineRepository) (db : DB) (id : Nat) : Result Pipeline :=
  if db.online then
    match db.pipelines.find? (fun p => p.ID == id && p.DeletedAt.isNone) with
    | some p => .ok p
    | none => .error recordNotFound
  else .error dbUnavailable

/-- Method `db.Create(build)`: insert, drawing the key from the serial when it is zero. -/
def BuildRepository.Create (_r : BuildRepository) (db : DB) (build : Build) : Result Build × DB :=
  if db.online then
    let row := if build.ID = 0 then
        { build with ID := nextID (db.builds.map (fun b => b.ID)) } else build
    if db.builds.any (fun b => b.ID == row.ID) then (.error duplicateKey, db)
    else (.ok row, { db with builds := db.builds ++ [row] })
  else (.error dbUnavailable, db)

/-- Method `db.First(&build, id)`: the live row with that key. -/
def BuildRepository.GetByID (_r : BuildRepository) (db : DB) (id : Nat) : Result Build :=
  if db.online then
    match db.builds.find? (fun b => b.ID == id && b.DeletedAt.isNone) with
    | some b => .ok b
    | none => .error recordNotFound
  else .error dbUnavailable

/-- Query `db.Save(build)`: write every column of the row with the record's key; a
record whose key matches no live row is inserted. The preloaded associations
(`Pipeline`, `Deployments`) ride along as inserts that do nothing to the columns
of a row that already exists, so no other table changes. -/
def BuildRepository.Update (_r : BuildRepository) (db : DB) (build : Build) : Result Unit × DB :=
  if db.online then
    if db.builds.any (fun b => b.ID == build.ID && b.DeletedAt.isNone) then
      let rows := db.builds.map
        fun b => if b.ID == build.ID && b.DeletedAt.isNone then build else b
      (.ok (), { db with builds := rows })
    else if db.builds.any (fun b => b.ID == build.ID) then (.error duplicateKey, db)
    else (.ok (), { db with builds := db.builds ++ [build] })
  else (.error dbUnavailable, db)

/-- Method `Model(&Build{}).Where("id = ?", id).Update("status", status)`: sets the
column on the live rows with that key; matching no row is not an error. -/
def BuildRepository.UpdateStatus (_r : BuildRepository) (db : DB) (id : Nat) (status : String) :
    Result Unit × DB :=
  if db.online then
    let rows := db.builds.map
      fun b => if b.ID == id && b.DeletedAt.isNone then { b with Status := status } else b
    (.ok (), { db with builds := rows })
  else (.error dbUnavailable, db)

/-- Method `Model(&Build{}).Where("id = ?", id).Update("logs", logs)`. -/
def BuildRepository.UpdateLogs (_r : BuildRepository) (db : DB) (id : Nat) (logs : String) :
    Result Unit × DB :=
  if db.online then
    let rows := db.builds.map
      fun b => if b.ID == id && b.DeletedAt.isNone then { b with Logs := logs } else b
    (.ok (), { db with builds := rows })
  else (.error dbUnavailable, db)

/-- Method `db.Where("status IN ?", ["pending", "running"]).Find(&builds)`. -/
def BuildRepository.GetRunningBuilds (_r : BuildRepository) (db : DB) : Result (List Build) :=
  if db.online then
    .ok (db.builds.filter
      (fun b => (b.Status == "pending" || b.Status == "running") && b.DeletedAt.isNone))
  else .error dbUnavailable

/-- Method `db.Create(deployment)`: insert, drawing the key from the serial when it is zero. -/
def DeploymentRepository.Create (_r : DeploymentRepository) (db : DB) (deployment : Deployment) :
    Result Deployment × DB :=
  if db.online then
    let row := if deployment.ID = 0 then
        { deployment with ID := nextID (db.deployments.map (fun d => d.ID)) } else deployment
    if db.deployments.any (fun d => d.ID == row.ID) then (.error duplicateKey, db)
    else (.ok row, { db with deployments := db.deployments ++ [row] })
  else (.error dbUnavailable, db)

/-- Method `db.First(&deployment, id)`: the live row with that key. -/
def DeploymentRepository.GetByID (_r : DeploymentRepository) (db : DB) (id : Nat) :
    Result Deployment :=
  if db.online then
    match db.deployments.find? (fun d => d.ID == id && d.DeletedAt.isNone) with
    | some d => .ok d
    | none => .error recordNotFound
  else .error dbUnavailable

/-- Query `db.Save(deployment)`: write every column of the row with the record's key;
a record whose key matches no live row is inserted. The preloaded `Build`
association rides along as an insert that does nothing to a row that already
exists, so no other table changes. -/
def DeploymentRepository.Update (_r : DeploymentRepository) (db : DB) (deployment : Deployment) :
    Result Unit × DB :=
  if db.online then
    if db.deployments.any (fun d => d.ID == deployment.ID && d.DeletedAt.isNone) then
      let rows := db.deployments.map
        fun d => if d.ID == deployment.ID && d.DeletedAt.isNone then deployment else d
      (.ok (), { db with deployments := rows })
    else if db.deployments.any (fun d => d.ID == deployment.ID) then (.error duplicateKey, db)
    else (.ok (), { db with deployments := db.deployments ++ [deployment] })
  else (.error dbUnavailable, db)

/-- Method `Model(&Deployment{}).Where("id = ?", id).Update("status", status)`. -/
def DeploymentRepository.UpdateStatus (_r : DeploymentRepository) (db : DB) (id : Nat)
    (status : String) : Result Unit × DB :=
  if db.online then
    let rows := db.deployments.map
      fun d => if d.ID == id && d.DeletedAt.isNone then { d with Status := status } else d
    (.ok (), { db with deployments := rows })
  else (.error dbUnavailable, db)

/-! ## Services (`internal/service`) -/

/-- The `service.PipelineService` struct; an unset field is `none` (nil). -/
structure PipelineService where
  pipelineRepo : Option PipelineRepository
  projectRepo : Option ProjectRepository
deriving DecidableEq, Repr

/-- The `service.BuildService` struct; an unset field is `none` (nil). Its
`gitService`, `dockerService` and `k8sService` fields are read by no method. -/
structure BuildService where
  buildRepo : Option BuildRepository
  pipelineRepo : Option PipelineRepository
deriving DecidableEq, Repr

/-- Constructor `NewPipelineService`. -/
def NewPipelineService (pipelineRepo : Option PipelineRepository)
    (projectRepo : Option ProjectRepository) : PipelineService :=
  { pipelineRepo := pipelineRepo, projectRepo := projectRepo }

/-- Constructor `NewBuildService`. -/
def NewBuildService (buildRepo : Option BuildRepository)
    (pipelineRepo : Option PipelineRepository) : BuildService :=
  { buildRepo := buildRepo, pipelineRepo := pipelineRepo }

/-- Method `PipelineService.Create`: checks the project, inserts a pipeline with
status `"inactive"`, and reads it back. -/
def PipelineService.Create (s : PipelineService) (name description config : String)
    (projectID : Nat) (db : DB) : Result Pipeline × DB :=
  match s.projectRepo with
  | none => (.panic, db)
  | some projectRepo =>
    match projectRepo.GetByID db projectID with
    | .panic => (.panic, db)
    | .error _ => (.error "project not found", db)
    | .ok _ =>
      let pipeline : Pipeline :=
        { ID := 0, Name := name, Description := description, ProjectID := projectID,
          Config := config, Status := "inactive", DeletedAt := none }
      match s.pipelineRepo with
      | none => (.panic, db)
      | some pipelineRepo =>
        match pipelineRepo.Create db pipeline with
        | (.ok row, db1) => (pipelineRepo.GetByID db1 row.ID, db1)
        | (.error e, db1) => (.error e, db1)
        | (.panic, db1) => (.panic, db1)

/-- Method `BuildService.Create`: checks the pipeline exists, inserts a `"pending"`
build tagged with the formatted clock reading, and reads it back. -/
def BuildService.Create (s : BuildService) (pipelineID : Nat) (commitHash branch tag : String)
    (now : Time) (db : DB) : Result Build × DB :=
  match s.pipelineRepo with
  | none => (.panic, db)
  | some pipelineRepo =>
    match pipelineRepo.GetByID db pipelineID with
    | .panic => (.panic, db)
    | .error _ => (.error "pipeline not found", db)
    | .ok _ =>
      let build : Build :=
        { ID := 0, PipelineID := pipelineID, CommitHash := commitHash, Branch := branch,
          Tag := tag, Status := "pending", Logs := "", ImageName := "",
          ImageTag := now.Format, StartedAt := none, CompletedAt := none, DeletedAt := none }
      match s.buildRepo with
      | none => (.panic, db)
      | some buildRepo =>
        match buildRepo.Create db build with
        | (.ok row, db1) => (buildRepo.GetByID db1 row.ID, db1)
        | (.error e, db1) => (.error e, db1)
        | (.panic, db1) => (.panic, db1)

/-- Method `BuildService.UpdateStatus`: forwards to the repository. -/
def BuildService.UpdateStatus (s : BuildService) (id : Nat) (status : String) (db : DB) :
    Result Unit × DB :=
  match s.buildRepo with
  | none => (.panic, db)
  | some buildRepo => buildRepo.UpdateStatus db id status

/-- Method `BuildService.UpdateLogs`: forwards to the repository. -/
def BuildService.UpdateLogs (s : BuildService) (id : Nat) (logs : String) (db : DB) :
    Result Unit × DB :=
  match s.buildRepo with
  | none => (.panic, db)
  | some buildRepo => buildRepo.UpdateLogs db id logs

/-- Method `BuildService.StartBuild`: loads the build, sets status `"running"` and
`StartedAt`, and saves it. -/
def BuildService.StartBuild (s : BuildService) (id : Nat) (now : Time) (db : DB) :
    Result Unit × DB :=
  match s.buildRepo with
  | none => (.panic, db)
  | some buildRepo =>
    match buildRepo.GetByID db id with
    | .panic => (.panic, db)
    | .error e => (.error e, db)
    | .ok build =>
      buildRepo.Update db { build with Status := "running", StartedAt := some now }

/-- Method `BuildService.CompleteBuild`: loads the build, overwrites status, logs,
image name and `CompletedAt`, and saves it. -/
def BuildService.CompleteBuild (s : BuildService) (id : Nat) (status logs imageName : String)
    (now : Time) (db : DB) : Result Unit × DB :=
  match s.buildRepo with
  | none => (.panic, db)
  | some buildRepo =>
    match buildRepo.GetByID db id with
    | .panic => (.panic, db)
    | .error e => (.error e, db)
    | .ok build =>
      buildRepo.Update db
        { build with Status := status, CompletedAt := some now, Logs := logs,
                     ImageName := imageName }

/-- Method `BuildService.CancelBuild`: sets the status column to `"cancelled"`. -/
def BuildService.CancelBuild (s : BuildService) (id : Nat) (db : DB) : Result Unit × DB :=
  match s.buildRepo with
  | none => (.panic, db)
  | some buildRepo => buildRepo.UpdateStatus db id "cancelled"

/-! ## The cluster adapter (`pkg/k8s/service.go`) -/

/-- A `corev1.EnvVar` with a literal value. -/
structure EnvVar where
  Name : String
  Value : String
deriving DecidableEq, Repr

/-- A `corev1.ResourceList` over the two resources the adapter names: cpu in
millicores and memory in bytes; `none` is an absent key. -/
structure ResourceList where
  cpu : Option Nat := none
  memory : Option Nat := none
deriving DecidableEq, Repr

/-- A `corev1.ResourceRequirements`. -/
structure ResourceRequirements where
  Requests : ResourceList := {}
  Limits : ResourceList := {}
deriving DecidableEq, Repr

/-- A `corev1.ContainerPort`; `Port` is its `ContainerPort` field. -/
structure ContainerPort where
  Port : Int
  Protocol : String
deriving DecidableEq, Repr

/-- A `corev1.Probe` with an HTTP GET handler. -/
structure Probe where
  Path : String
  Port : Int
  InitialDelaySeconds : Int
  PeriodSeconds : Int
deriving DecidableEq, Repr

/-- One container of a workload's pod template. `Env = none` is the nil slice. -/
structure Container where
  Name : String
  Image : String
  Ports : List ContainerPort := []
  Env : Option (List EnvVar) := none
  Resources : ResourceRequirements := {}
  LivenessProbe : Option Probe := none
  ReadinessProbe : Option Probe := none
deriving DecidableEq, Repr

/-- The fields of an `appsv1.Deployment` object that the adapter sets or reads.
A map that is `none` is the nil map. -/
structure Workload where
  Namespace : String
  Name : String
  Replicas : Int
  Containers : List Container
  TemplateAnnotations : Option (List (String × String))
  Labels : Option (List (String × String)) := none
  Annotations : Option (List (String × String)) := none
  Selector : List (String × String) := []
  TemplateLabels : Option (List (String × String)) := none
  RestartPolicy : String := ""
deriving DecidableEq, Repr

/-- A request received by the cluster's API server. -/
inductive ApiRequest where
  | get (ns name : String)
  | update (ns name : String)
  | create (ns name : String)
deriving DecidableEq, Repr

/-- An earlier revision of a workload's pod template, as the cluster keeps it
in its revision history. -/
structure Revision where
  Namespace : String
  Name : String
  Containers : List Container
deriving DecidableEq, Repr

/-- The cluster behind the clientset: its workloads and the requests it has
received so far, oldest first. With `reachable = false` every request fails.
The revision `history` (superseded pod templates, oldest first) is written by
the cluster's own controller; no adapter call reads or writes it. -/
structure Cluster where
  reachable : Bool
  workloads : List Workload
  requests : List ApiRequest
  history : List Revision := []
deriving DecidableEq, Repr

/-- Map assignment `m[key] = value` on an association list. -/
def setKey (m : List (String × String)) (key value : String) : List (String × String) :=
  if m.any (fun kv => kv.1 == key) then
    m.map (fun kv => if kv.1 == key then (key, value) else kv)
  else m ++ [(key, value)]

/-- Method `clientset.AppsV1().Deployments(ns).Get(ctx, name, ...)`. -/
def Cluster.Get (c : Cluster) (ns name : String) : Result Workload × Cluster :=
  let c1 := { c with requests := c.requests ++ [ApiRequest.get ns name] }
  if c.reachable then
    match c.workloads.find? (fun w => w.Namespace == ns && w.Name == name) with
    | some w => (.ok w, c1)
    | none => (.error "not found", c1)
  else (.error "cluster unreachable", c1)

/-- Method `clientset.AppsV1().Deployments(ns).Update(ctx, deployment, ...)`. -/
def Cluster.Update (c : Cluster) (ns : String) (w : Workload) : Result Workload × Cluster :=
  let c1 := { c with requests := c.requests ++ [ApiRequest.update ns w.Name] }
  if c.reachable then
    if c.workloads.any (fun x => x.Namespace == ns && x.Name == w.Name) then
      let rows := c.workloads.map
        fun x => if x.Namespace == ns && x.Name == w.Name then w else x
      (.ok w, { c1 with workloads := rows })
    else (.error "not found", c1)
  else (.error "cluster unreachable", c1)

/-- The value of a key in a label map. -/
def labelValue (m : Option (List (String × String))) (key : String) : Option String :=
  ((m.getD []).find? (fun kv => kv.1 == key)).map (fun kv => kv.2)

/-- Whether a pod template's labels satisfy a selector: every selector entry is
a label of the template with the same value. -/
def selectorMatches (selector : List (String × String))
    (labels : Option (List (String × String))) : Bool :=
  selector.all (fun kv => labelValue labels kv.1 == some kv.2)

/-- The API server's validation of a new Deployment, as far as it is modelled:
the selector is not empty and the pod template's labels satisfy it (the server
answers "selector does not match template labels" otherwise). The server
checks more than this (name syntax, port range, an existing namespace); the
general theorems on `Deploy` speak of the outcome of its Create request and
assume no Create to succeed, so they hold whichever further objects the
server refuses. -/
def Workload.admissible (w : Workload) : Bool :=
  !w.Selector.isEmpty && selectorMatches w.Selector w.TemplateLabels

/-- Method `clientset.AppsV1().Deployments(ns).Create(ctx, deployment, ...)`:
the API server validates the object and then refuses a second object under a
(namespace, name) in use. -/
def Cluster.Create (c : Cluster) (ns : String) (w : Workload) : Result Workload × Cluster :=
  let c1 := { c with requests := c.requests ++ [ApiRequest.create ns w.Name] }
  if c.reachable then
    if !w.admissible then
      (.error "invalid: selector does not match template labels", c1)
    else if c.workloads.any (fun x => x.Namespace == ns && x.Name == w.Name) then
      (.error "already exists", c1)
    else (.ok w, { c1 with workloads := c.workloads ++ [w] })
  else (.error "cluster unreachable", c1)

namespace k8s

/-- The `k8s.K8sService` of `pkg/k8s`: a handle on the clientset. -/
structure K8sService where
deriving DecidableEq, Repr

/-- The `k8s.DeploymentOptions` struct; a nil slice, pointer or map is `none`. -/
structure DeploymentOptions where
  Name : String
  Namespace : String
  Image : String
  Tag : String
  Replicas : Int
  Port : Int
  EnvVars : Option (List EnvVar)
  Resources : Option ResourceRequirements
  Labels : Option (List (String × String))
  Annotations : Option (List (String × String))
deriving DecidableEq, Repr

/-- Function `getDefaultResourceRequirements`: requests `100m` cpu and `128Mi`
memory, limits `500m` cpu and `512Mi` memory. -/
def getDefaultResourceRequirements : ResourceRequirements :=
  { Requests := { cpu := some 100, memory := some (128 * 1024 * 1024) },
    Limits := { cpu := some 500, memory := some (512 * 1024 * 1024) } }

/-- Function `getOrDefaultLabels`: the two default labels for a nil map,
otherwise the map with `app` and `version` added where they are missing. -/
def getOrDefaultLabels (labels : Option (List (String × String))) (name : String) :
    List (String × String) :=
  match labels with
  | none => [("app", name), ("version", "v1")]
  | some m =>
    let m1 := if m.any (fun kv => kv.1 == "app") then m else m ++ [("app", name)]
    if m1.any (fun kv => kv.1 == "version") then m1 else m1 ++ [("version", "v1")]

/-- The `appsv1.Deployment` object that `Deploy` builds from validated options. -/
def deploymentObject (opts : DeploymentOptions) : Workload :=
  let replicas := if opts.Replicas ≤ 0 then 1 else opts.Replicas
  let port := if opts.Port ≤ 0 then 8080 else opts.Port
  let resources := match opts.Resources with
    | none => getDefaultResourceRequirements
    | some r => r
  let labels := getOrDefaultLabels opts.Labels opts.Name
  let container : Container :=
    { Name := opts.Name, Image := opts.Image ++ ":" ++ opts.Tag,
      Ports := [{ Port := port, Protocol := "TCP" }],
      Env := opts.EnvVars, Resources := resources,
      LivenessProbe := some { Path := "/health", Port := port, InitialDelaySeconds := 30,
                              PeriodSeconds := 10 },
      ReadinessProbe := some { Path := "/health", Port := port, InitialDelaySeconds := 5,
                               PeriodSeconds := 5 } }
  { Namespace := opts.Namespace, Name := opts.Name, Replicas := replicas,
    Containers := [container], TemplateAnnotations := none, Labels := some labels,
    Annotations := opts.Annotations, Selector := [("app", opts.Name)],
    TemplateLabels := some labels, RestartPolicy := "Always" }

/-- Method `K8sService.Deploy`: validates the four required fields, fills in
the defaults, builds the object and asks the cluster to create it. -/
def K8sService.Deploy (_s : K8sService) (opts : DeploymentOptions) (c : Cluster) :
    Result Unit × Cluster :=
  if opts.Name = "" then (.error "deployment name is required", c)
  else if opts.Namespace = "" then (.error "namespace is required", c)
  else if opts.Image = "" then (.error "image is required", c)
  else if opts.Tag = "" then (.error "tag is required", c)
  else
    match c.Create opts.Namespace (deploymentObject opts) with
    | (.panic, c1) => (.panic, c1)
    | (.error e, c1) => (.error ("failed to create deployment: " ++ e), c1)
    | (.ok _, c1) => (.ok (), c1)

/-- Method `K8sService.RollbackDeployment`: validates its arguments, fetches the
workload, stamps the restart annotation with the current Unix time and updates
the workload. -/
def K8sService.RollbackDeployment (_s : K8sService) (ns deploymentName : String)
    (nowUnix : Nat) (c : Cluster) : Result Unit × Cluster :=
  if ns = "" then (.error "namespace is required", c)
  else if deploymentName = "" then (.error "deployment name is required", c)
  else
    match c.Get ns deploymentName with
    | (.panic, c1) => (.panic, c1)
    | (.error e, c1) => (.error ("failed to get deployment for rollback: " ++ e), c1)
    | (.ok deployment, c1) =>
      let annotations := deployment.TemplateAnnotations.getD []
      let restarted := setKey annotations "kubectl.kubernetes.io/restartedAt" (toString nowUnix)
      let stamped : Workload := { deployment with TemplateAnnotations := some restarted }
      match c1.Update ns stamped with
      | (.panic, c2) => (.panic, c2)
      | (.error e, c2) => (.error ("failed to rollback deployment: " ++ e), c2)
      | (.ok _, c2) => (.ok (), c2)

end k8s

/-- The `service.K8sService` wrapper: its one field is the embedded
`*k8s.K8sService`. -/
structure K8sService where
  embedded : k8s.K8sService
deriving DecidableEq, Repr

/-! ## Deployment service (`internal/service/deployment.go`) -/

/-- The `service.DeploymentService` struct; an unset field is `none` (nil). -/
structure DeploymentService where
  deploymentRepo : Option DeploymentRepository
  buildRepo : Option BuildRepository
  k8sService : Option K8sService
deriving DecidableEq, Repr

/-- Constructor `NewDeploymentService`: it leaves `buildRepo` unset. -/
def NewDeploymentService (deploymentRepo : Option DeploymentRepository)
    (k8sService : Option K8sService) : DeploymentService :=
  { deploymentRepo := deploymentRepo, buildRepo := none, k8sService := k8sService }

/-- The database together with the cluster. -/
structure World where
  db : DB
  cluster : Cluster
deriving DecidableEq, Repr

/-- Method `DeploymentService.Create`: checks the build exists and has status
`"success"`, inserts a `"pending"` deployment and reads it back. -/
def DeploymentService.Create (s : DeploymentService) (buildID : Nat) (environment : String)
    (replicas : Int) (ns serviceName ingressHost : String) (db : DB) : Result Deployment × DB :=
  match s.buildRepo with
  | none => (.panic, db)
  | some buildRepo =>
    match buildRepo.GetByID db buildID with
    | .panic => (.panic, db)
    | .error _ => (.error "build not found", db)
    | .ok build =>
      if build.Status != "success" then (.error "build was not successful", db)
      else
        let deployment : Deployment :=
          { ID := 0, BuildID := buildID, Environment := environment, Status := "pending",
            Replicas := replicas, Namespace := ns, ServiceName := serviceName,
            IngressHost := ingressHost, StartedAt := none, CompletedAt := none,
            DeletedAt := none }
        match s.deploymentRepo with
        | none => (.panic, db)
        | some deploymentRepo =>
          match deploymentRepo.Create db deployment with
          | (.ok row, db1) => (deploymentRepo.GetByID db1 row.ID, db1)
          | (.error e, db1) => (.error e, db1)
          | (.panic, db1) => (.panic, db1)

/-- Method `DeploymentService.UpdateStatus`: forwards to the repository. -/
def DeploymentService.UpdateStatus (s : DeploymentService) (id : Nat) (status : String)
    (db : DB) : Result Unit × DB :=
  match s.deploymentRepo with
  | none => (.panic, db)
  | some deploymentRepo => deploymentRepo.UpdateStatus db id status

/-- Method `DeploymentService.StartDeployment`: loads the deployment, sets status
`"running"` and `StartedAt`, and saves it. -/
def DeploymentService.StartDeployment (s : DeploymentService) (id : Nat) (now : Time) (db : DB) :
    Result Unit × DB :=
  match s.deploymentRepo with
  | none => (.panic, db)
  | some deploymentRepo =>
    match deploymentRepo.GetByID db id with
    | .panic => (.panic, db)
    | .error e => (.error e, db)
    | .ok deployment =>
      deploymentRepo.Update db { deployment with Status := "running", StartedAt := some now }

/-- Method `DeploymentService.CompleteDeployment`: loads the deployment, overwrites
status and `CompletedAt`, and saves it. -/
def DeploymentService.CompleteDeployment (s : DeploymentService) (id : Nat) (status : String)
    (now : Time) (db : DB) : Result Unit × DB :=
  match s.deploymentRepo with
  | none => (.panic, db)
  | some deploymentRepo =>
    match deploymentRepo.GetByID db id with
    | .panic => (.panic, db)
    | .error e => (.error e, db)
    | .ok deployment =>
      deploymentRepo.Update db { deployment with Status := status, CompletedAt := some now }

/-- Method `DeploymentService.CancelDeployment`: sets the status column to `"cancelled"`. -/
def DeploymentService.CancelDeployment (s : DeploymentService) (id : Nat) (db : DB) :
    Result Unit × DB :=
  match s.deploymentRepo with
  | none => (.panic, db)
  | some deploymentRepo => deploymentRepo.UpdateStatus db id "cancelled"

/-- Method `DeploymentService.Rollback`: loads the deployment and calls the cluster
adapter's `RollbackDeployment` with its namespace and service name. -/
def DeploymentService.Rollback (s : DeploymentService) (id : Nat) (nowUnix : Nat) (w : World) :
    Result Unit × World :=
  match s.deploymentRepo with
  | none => (.panic, w)
  | some deploymentRepo =>
    match deploymentRepo.GetByID w.db id with
    | .panic => (.panic, w)
    | .error e => (.error e, w)
    | .ok deployment =>
      match s.k8sService with
      | none => (.panic, w)
      | some k8sService =>
        let r := k8sService.embedded.RollbackDeployment deployment.Namespace
          deployment.ServiceName nowUnix w.cluster
        (r.1, { w with cluster := r.2 })

/-! ## Spec vocabulary and sample data -/

/-- The terminal Build and Deployment statuses: `success`, `failed`, `cancelled`. -/
def isTerminal (status : String) : Bool :=
  status == "success" || status == "failed" || status == "cancelled"

/-- The seven states of the specified Build state machine. -/
def buildStates : List String :=
  ["pending", "cloning", "building", "pushing", "success", "failed", "cancelled"]

/-- The edges of the specified Build state machine. -/
def buildEdge (src dst : String) : Bool :=
  (src == "pending" && dst == "cloning") || (src == "cloning" && dst == "building") ||
  (src == "building" && dst == "pushing") || (src == "pushing" && dst == "success") ||
  ((src == "cloning" || src == "building" || src == "pushing") && dst == "failed") ||
  ((src == "pending" || src == "cloning" || src == "building" || src == "pushing") &&
    dst == "cancelled")

/-- The live builds of a pipeline that are in a non-terminal status. -/
def activeBuilds (db : DB) (pipelineID : Nat) : List Build :=
  db.builds.filter (fun b => b.PipelineID == pipelineID && !isTerminal b.Status)

/-- The deployments of a (build, environment) pair that are in a non-terminal status. -/
def activeDeployments (db : DB) (buildID : Nat) (environment : String) : List Deployment :=
  db.deployments.filter
    (fun d => d.BuildID == buildID && d.Environment == environment && !isTerminal d.Status)

/-- The record `BuildService.Create` inserts, with the key the store gave it. -/
def pendingBuild (id pipelineID : Nat) (commitHash branch tag : String) (now : Time) : Build :=
  { ID := id, PipelineID := pipelineID, CommitHash := commitHash, Branch := branch,
    Tag := tag, Status := "pending", Logs := "", ImageName := "", ImageTag := now.Format,
    StartedAt := none, CompletedAt := none, DeletedAt := none }

/-- The record `DeploymentService.Create` inserts, with the key the store gave it. -/
def pendingDeployment (id buildID : Nat) (environment : String) (replicas : Int)
    (ns serviceName ingressHost : String) : Deployment :=
  { ID := id, BuildID := buildID, Environment := environment, Status := "pending",
    Replicas := replicas, Namespace := ns, ServiceName := serviceName,
    IngressHost := ingressHost, StartedAt := none, CompletedAt := none, DeletedAt := none }

/-- A clock reading: 17 May 2024, 10:30:07. -/
def sampleTime : Time :=
  { year := 2024, month := 5, day := 17, hour := 10, minute := 30, second := 7,
    nanosecond := 0 }

/-- The same second as `sampleTime`, half a second later. -/
def sampleTimeLater : Time := { sampleTime with nanosecond := 500000000 }

/-- A build service with both repositories set, as `main.go` constructs it. -/
def sampleBuildService : BuildService := NewBuildService (some {}) (some {})

/-- A pipeline service with both repositories set. -/
def samplePipelineService : PipelineService := NewPipelineService (some {}) (some {})

/-- A deployment service from the constructor whose build repository was then set. -/
def sampleDeploymentService : DeploymentService :=
  { NewDeploymentService (some {}) (some { embedded := {} }) with buildRepo := some {} }

/-- A project row. -/
def sampleProject : Project :=
  { ID := 1, Name := "shop", Description := "", GitURL := "https://git.example/shop.git",
    GitProvider := "github", OwnerID := 1, DeletedAt := none }

/-- A pipeline row in the status new pipelines get. -/
def samplePipeline : Pipeline :=
  { ID := 1, Name := "web", Description := "", ProjectID := 1, Config := "",
    Status := "inactive", DeletedAt := none }

/-- A build row of pipeline 1 with key 1 in the given status. -/
def sampleBuild (status : String) : Build :=
  { pendingBuild 1 1 "c0ffee" "main" "" sampleTime with Status := status }

/-- A deployment row of build 1 in environment `prod` with key 1 in the given status. -/
def sampleDeployment (status : String) : Deployment :=
  { pendingDeployment 1 1 "prod" 3 "ns1" "svc1" "" with Status := status }

/-- A store with one project and one pipeline and no builds. -/
def sampleDB : DB :=
  { online := true, projects := [sampleProject], pipelines := [samplePipeline],
    builds := [], deployments := [] }

/-- A store whose single build is in the given status. -/
def dbWithBuild (status : String) : DB := { sampleDB with builds := [sampleBuild status] }

/-- A store with a successful build and one deployment of it in the given status. -/
def dbWithDeployment (status : String) : DB :=
  { sampleDB with builds := [sampleBuild "success"], deployments := [sampleDeployment status] }

/-- A reachable cluster running the workload `svc1` in namespace `ns1`. -/
def sampleCluster : Cluster :=
  { reachable := true,
    workloads := [{ Namespace := "ns1", Name := "svc1", Replicas := 3,
                    Containers := [{ Name := "svc1", Image := "shop:20240517-103007" }],
                    TemplateAnnotations := none }],
    requests := [] }

/-! ## Operations as data -/

/-- The stored status of the live build with the given key, if there is one. -/
def buildStatus (db : DB) (id : Nat) : Option String :=
  (db.builds.find? (fun b => b.ID == id && b.DeletedAt.isNone)).map (fun b => b.Status)

/-- A call of one of the status-writing `BuildService` methods. -/
inductive BuildOp where
  | create (pipelineID : Nat) (commitHash branch tag : String)
  | startBuild (id : Nat)
  | completeBuild (id : Nat) (status logs imageName : String)
  | cancelBuild (id : Nat)
  | updateStatus (id : Nat) (status : String)
deriving DecidableEq, Repr

/-- The store after running the call at clock reading `now`. -/
def BuildOp.run (s : BuildService) (now : Time) (db : DB) : BuildOp → DB
  | .create pipelineID commitHash branch tag =>
      (s.Create pipelineID commitHash branch tag now db).2
  | .startBuild id => (s.StartBuild id now db).2
  | .completeBuild id status logs imageName =>
      (s.CompleteBuild id status logs imageName now db).2
  | .cancelBuild id => (s.CancelBuild id db).2
  | .updateStatus id status => (s.UpdateStatus id status db).2

/-- The key a call addresses and the status text it writes there, read off the
method bodies: `StartBuild` writes `"running"`, `CancelBuild` writes
`"cancelled"`, `CompleteBuild` and `UpdateStatus` write their argument;
`Create` addresses no existing build. -/
def BuildOp.writes : BuildOp → Option (Nat × String)
  | .create _ _ _ _ => none
  | .startBuild id => some (id, "running")
  | .completeBuild id status _ _ => some (id, status)
  | .cancelBuild id => some (id, "cancelled")
  | .updateStatus id status => some (id, status)

/-- The status a build with key `id` and status `st` is expected to hold after
the call: the written text when the call addresses `id`, else `st`. -/
def BuildOp.statusAfter (op : BuildOp) (id : Nat) (st : String) : String :=
  match op.writes with
  | some (target, written) => if id = target then written else st
  | none => st

/-! ## Deployment operations as data -/

/-- The stored status of the live deployment with the given key, if there is one. -/
def deploymentStatus (db : DB) (id : Nat) : Option String :=
  (db.deployments.find? (fun d => d.ID == id && d.DeletedAt.isNone)).map (fun d => d.Status)

/-- The states of the specified Deployment state machine, rollback included. -/
def deploymentStates : List String :=
  ["pending", "applying", "success", "failed", "cancelled", "rollback_requested",
   "rolling_back"]

/-- The edges of the specified Deployment state machine: `pending → applying →
success`, `applying → failed`, `pending|applying → cancelled`. -/
def deploymentEdge (src dst : String) : Bool :=
  (src == "pending" && dst == "applying") || (src == "applying" && dst == "success") ||
  (src == "applying" && dst == "failed") ||
  ((src == "pending" || src == "applying") && dst == "cancelled")

/-- A call of one of the status-writing `DeploymentService` methods. -/
inductive DeploymentOp where
  | startDeployment (id : Nat)
  | completeDeployment (id : Nat) (status : String)
  | cancelDeployment (id : Nat)
  | updateStatus (id : Nat) (status : String)
deriving DecidableEq, Repr

/-- The store after running the call at clock reading `now`. -/
def DeploymentOp.run (s : DeploymentService) (now : Time) (db : DB) : DeploymentOp → DB
  | .startDeployment id => (s.StartDeployment id now db).2
  | .completeDeployment id status => (s.CompleteDeployment id status now db).2
  | .cancelDeployment id => (s.CancelDeployment id db).2
  | .updateStatus id status => (s.UpdateStatus id status db).2

/-- The key a call addresses and the status text it writes there, read off the
method bodies: `StartDeployment` writes `"running"`, `CancelDeployment` writes
`"cancelled"`, `CompleteDeployment` and `UpdateStatus` write their argument. -/
def DeploymentOp.writes : DeploymentOp → Nat × String
  | .startDeployment id => (id, "running")
  | .completeDeployment id status => (id, status)
  | .cancelDeployment id => (id, "cancelled")
  | .updateStatus id status => (id, status)

/-- The status a deployment with key `id` and status `st` is expected to hold
after the call: the written text when the call addresses `id`, else `st`. -/
def DeploymentOp.statusAfter (op : DeploymentOp) (id : Nat) (st : String) : String :=
  if id = op.writes.1 then op.writes.2 else st

/-- A cluster whose API server cannot be reached. -/
def unreachableCluster : Cluster := { sampleCluster with reachable := false }

/-! ## Logs and execution operations -/

/-- The stored log of the live build with the given key, if there is one. -/
def buildLogs (db : DB) (id : Nat) : Option String :=
  (db.builds.find? (fun b => b.ID == id && b.DeletedAt.isNone)).map (fun b => b.Logs)

/-- Whether the text `old` is a prefix of the text `new`. -/
def logPrefix (old new : String) : Bool := old.data.isPrefixOf new.data

/-- A store whose single build is running and has already logged two lines. -/
def dbWithLogs : DB :=
  { sampleDB with builds := [{ sampleBuild "running" with Logs := "clone ok\nbuild step 1\n" }] }

/-- A call of one of the execution methods of the build and deployment services. -/
inductive ExecOp where
  | buildCreate (pipelineID : Nat) (commitHash branch tag : String)
  | startBuild (id : Nat)
  | completeBuild (id : Nat) (status logs imageName : String)
  | cancelBuild (id : Nat)
  | buildUpdateStatus (id : Nat) (status : String)
  | updateLogs (id : Nat) (logs : String)
  | deploymentCreate (buildID : Nat) (environment : String) (replicas : Int)
      (ns serviceName ingressHost : String)
  | startDeployment (id : Nat)
  | completeDeployment (id : Nat) (status : String)
  | cancelDeployment (id : Nat)
  | rollback (id : Nat)
deriving DecidableEq, Repr

/-- The database and cluster after running the call at clock reading `now`
(Unix time `nowUnix`). -/
def ExecOp.run (bs : BuildService) (ds : DeploymentService) (now : Time) (nowUnix : Nat)
    (w : World) : ExecOp → World
  | .buildCreate pipelineID commitHash branch tag =>
      { w with db := (bs.Create pipelineID commitHash branch tag now w.db).2 }
  | .startBuild id => { w with db := (bs.StartBuild id now w.db).2 }
  | .completeBuild id status logs imageName =>
      { w with db := (bs.CompleteBuild id status logs imageName now w.db).2 }
  | .cancelBuild id => { w with db := (bs.CancelBuild id w.db).2 }
  | .buildUpdateStatus id status => { w with db := (bs.UpdateStatus id status w.db).2 }
  | .updateLogs id logs => { w with db := (bs.UpdateLogs id logs w.db).2 }
  | .deploymentCreate buildID environment replicas ns serviceName ingressHost =>
      { w with db := (ds.Create buildID environment replicas ns serviceName ingressHost w.db).2 }
  | .startDeployment id => { w with db := (ds.StartDeployment id now w.db).2 }
  | .completeDeployment id status => { w with db := (ds.CompleteDeployment id status now w.db).2 }
  | .cancelDeployment id => { w with db := (ds.CancelDeployment id w.db).2 }
  | .rollback id => (ds.Rollback id nowUnix w).2

/-! ## Cluster observations and samples -/

/-- The containers of the workload with the given namespace and name. -/
def Cluster.containers (c : Cluster) (ns name : String) : Option (List Container) :=
  (c.workloads.find? (fun w => w.Namespace == ns && w.Name == name)).map
    (fun w => w.Containers)

/-- The container images of the workload with the given namespace and name. -/
def Cluster.images (c : Cluster) (ns name : String) : Option (List String) :=
  (c.containers ns name).map (fun cs => cs.map (fun k => k.Image))

/-- The container images of the workload's previous revision: the newest
entry of the revision history under that namespace and name. -/
def Cluster.previousImages (c : Cluster) (ns name : String) : Option (List String) :=
  ((c.history.filter (fun r => r.Namespace == ns && r.Name == name)).getLast?).map
    (fun r => r.Containers.map (fun k => k.Image))

/-- The value of a key in a pod template's annotations. -/
def Cluster.annotationValue (c : Cluster) (ns name key : String) : Option String :=
  match c.workloads.find? (fun w => w.Namespace == ns && w.Name == name) with
  | some w => ((w.TemplateAnnotations.getD []).find? (fun kv => kv.1 == key)).map (fun kv => kv.2)
  | none => none

/-- Whether a workload exists under the given namespace and name. -/
def Cluster.has (c : Cluster) (ns name : String) : Bool :=
  c.workloads.any (fun w => w.Namespace == ns && w.Name == name)

/-- The sample cluster after a roll-forward: `svc1` runs the image of 17 May,
and its revision history holds the image of 16 May. -/
def rolledForwardCluster : Cluster :=
  { sampleCluster with
      history := [{ Namespace := "ns1", Name := "svc1",
                    Containers := [{ Name := "svc1", Image := "shop:20240516-091500" }] }] }

/-- A reachable cluster with no workloads. -/
def emptyCluster : Cluster := { reachable := true, workloads := [], requests := [] }

/-- Options for deploying `svc1` into `ns1` with three replicas. -/
def sampleOptions : k8s.DeploymentOptions :=
  { Name := "svc1", Namespace := "ns1", Image := "shop", Tag := "20240517-103007",
    Replicas := 3, Port := 0, EnvVars := none, Resources := none, Labels := none,
    Annotations := none }

/-- The sample options with a changed spec: five replicas and a newer tag. -/
def changedOptions : k8s.DeploymentOptions :=
  { sampleOptions with Replicas := 5, Tag := "20240518-080000" }

/-- The options `Deploy` accepts: the four required fields are non-empty. -/
def k8s.DeploymentOptions.accepted (opts : k8s.DeploymentOptions) : Prop :=
  opts.Name ≠ "" ∧ opts.Namespace ≠ "" ∧ opts.Image ≠ "" ∧ opts.Tag ≠ ""

instance (opts : k8s.DeploymentOptions) : Decidable opts.accepted := by
  unfold k8s.DeploymentOptions.accepted; infer_instance

/-! ## The image builder (`pkg/docker/service.go`) -/

/-- A Go call that either returns a value or never returns. -/
inductive Run (α : Type) where
  | returns (a : α)
  | hangs
deriving DecidableEq, Repr

/-- Apply a function to the value a call returns. -/
def Run.map {α β : Type} (f : α → β) : Run α → Run β
  | .returns a => .returns (f a)
  | .hangs => .hangs

namespace docker

/-- The `docker.BuildOptions` struct; a nil map is `none`. -/
structure BuildOptions where
  ContextDir : String
  Dockerfile : String
  ImageName : String
  ImageTag : String
  BuildArgs : Option (List (String × Option String))
  Labels : Option (List (String × String))
  NoCache : Bool
  Remove : Bool
deriving DecidableEq, Repr

/-- The `docker.BuildProgress` struct: one decoded message of the build stream. -/
structure BuildProgress where
  Stream : String
  Error : String
  Status : String
  Progress : String
deriving DecidableEq, Repr

/-- What one `decoder.Decode(&progress)` call yields before the end of the
stream: a decoded message; an error for a value that does not fit the struct,
after which decoding goes on with the next value; or a syntax or read error,
which the decoder then repeats on every later call. The end of the list of
events is `io.EOF`. -/
inductive DecodeEvent where
  | message (p : BuildProgress)
  | skipped
  | broken
deriving DecidableEq, Repr

/-- The `types.ImageBuildOptions` the service hands to the Docker client. -/
structure ImageBuildOptions where
  Dockerfile : String
  Tags : List String
  BuildArgs : Option (List (String × Option String))
  Labels : Option (List (String × String))
  NoCache : Bool
  Remove : Bool
  ForceRemove : Bool
deriving DecidableEq, Repr

/-- An external call made by the service. -/
inductive ExternalCall where
  | tarWithOptions (contextDir : String) (excludePatterns : List String)
  | imageBuild (options : ImageBuildOptions)
  | imagePush (image username password : String)
deriving DecidableEq, Repr

/-- The keys of one decoded message of the push stream that `PushImage` reads:
`failure` is the text of a non-null `"error"` entry as `%v` prints it, `status`
that of a non-null `"status"` entry. -/
structure PushProgress where
  failure : Option String
  status : Option String
deriving DecidableEq, Repr

/-- What one `decoder.Decode(&progress)` call of the push loop yields before
the end of the stream, as `DecodeEvent` for the build loops. -/
inductive PushEvent where
  | message (p : PushProgress)
  | skipped
  | broken
deriving DecidableEq, Repr

/-- The world outside the service during one build or push: how archiving the
context and starting the build answer, the response body as the decoder will
deliver it, the external calls made so far, oldest first, and how starting a
push answers with the body of its response. -/
structure Daemon where
  tarError : Option String
  buildError : Option String
  body : List DecodeEvent
  calls : List ExternalCall
  pushError : Option String := none
  pushBody : List PushEvent := []
deriving DecidableEq, Repr

/-- The `docker.DockerService` struct: a handle on the Docker client. -/
structure DockerService where
deriving DecidableEq, Repr

/-- The progress loop of `BuildImage` over the events still to come: the
returned error, `none` for nil. -/
def buildLoop : List DecodeEvent → Run (Option String)
  | [] => .returns none
  | .message p :: rest =>
    if p.Error ≠ "" then .returns (some ("build failed: " ++ p.Error))
    else buildLoop rest
  | .skipped :: rest => buildLoop rest
  | .broken :: _ => .hangs

/-- The progress loop of `BuildImageWithLogs` over the events still to come,
from the logs collected so far: the returned logs and error. -/
def logsLoop (logs : String) : List DecodeEvent → Run (String × Option String)
  | [] => .returns (logs, none)
  | .message p :: rest =>
    if p.Error ≠ "" then .returns (logs, some ("build failed: " ++ p.Error))
    else logsLoop (if p.Stream ≠ "" then logs ++ p.Stream else logs) rest
  | .skipped :: rest => logsLoop logs rest
  | .broken :: _ => .hangs

/-- The build options both methods assemble after validation. -/
def imageBuildOptions (opts : BuildOptions) : ImageBuildOptions :=
  { Dockerfile := if opts.Dockerfile = "" then "Dockerfile" else opts.Dockerfile,
    Tags := [opts.ImageName ++ ":" ++ opts.ImageTag],
    BuildArgs := opts.BuildArgs, Labels := opts.Labels, NoCache := opts.NoCache,
    Remove := opts.Remove, ForceRemove := true }

/-- The exclude patterns both methods pass to `archive.TarWithOptions`. -/
def excludePatterns : List String := [".git", ".gitignore", "Dockerfile.dockerignore"]

/-- Method `DockerService.BuildImage`: validates the three required fields,
archives the context, starts the build and reads the progress stream. The
returned error is `none` for nil. -/
def DockerService.BuildImage (_s : DockerService) (opts : BuildOptions) (d : Daemon) :
    Run (Option String) × Daemon :=
  if opts.ContextDir = "" then (.returns (some "context directory is required"), d)
  else if opts.ImageName = "" then (.returns (some "image name is required"), d)
  else if opts.ImageTag = "" then (.returns (some "image tag is required"), d)
  else
    let d1 := { d with calls := d.calls ++
      [ExternalCall.tarWithOptions opts.ContextDir excludePatterns] }
    match d.tarError with
    | some e => (.returns (some ("failed to create build context: " ++ e)), d1)
    | none =>
      let d2 := { d1 with calls := d1.calls ++ [ExternalCall.imageBuild (imageBuildOptions opts)] }
      match d.buildError with
      | some e => (.returns (some ("failed to start image build: " ++ e)), d2)
      | none => (buildLoop d.body, d2)

/-- Method `DockerService.BuildImageWithLogs`: as `BuildImage`, collecting the
`Stream` texts; it returns the logs and the error. -/
def DockerService.BuildImageWithLogs (_s : DockerService) (opts : BuildOptions) (d : Daemon) :
    Run (String × Option String) × Daemon :=
  if opts.ContextDir = "" then (.returns ("", some "context directory is required"), d)
  else if opts.ImageName = "" then (.returns ("", some "image name is required"), d)
  else if opts.ImageTag = "" then (.returns ("", some "image tag is required"), d)
  else
    let d1 := { d with calls := d.calls ++
      [ExternalCall.tarWithOptions opts.ContextDir excludePatterns] }
    match d.tarError with
    | some e => (.returns ("", some ("failed to create build context: " ++ e)), d1)
    | none =>
      let d2 := { d1 with calls := d1.calls ++ [ExternalCall.imageBuild (imageBuildOptions opts)] }
      match d.buildError with
      | some e => (.returns ("", some ("failed to start image build: " ++ e)), d2)
      | none => (logsLoop "" d.body, d2)

end docker

/-- Build options for the image `shop` with an empty tag. -/
def untaggedOptions : docker.BuildOptions :=
  { ContextDir := "/tmp/ys-cloud-repos/shop-4711", Dockerfile := "", ImageName := "shop",
    ImageTag := "", BuildArgs := none, Labels := none, NoCache := false, Remove := true }

/-- A daemon that would build without error and has seen no call yet. -/
def idleDaemon : docker.Daemon :=
  { tarError := none, buildError := none,
    body := [.message { Stream := "Step 1/2\n", Error := "", Status := "", Progress := "" }],
    calls := [] }

/-! ## The source adapter (`pkg/git/service.go`) -/

namespace git

/-- The file system as the service sees it: the paths that exist (files and
directories, slash-separated) and the paths the process is not able to remove. -/
structure FileSystem where
  paths : List String
  locked : List String
deriving DecidableEq, Repr

/-- Whether the path `q` is `p` itself or lies under the directory `p`. -/
def atOrUnder (p q : String) : Bool := q == p || (p.data ++ ['/']).isPrefixOf q.data

/-- Whether `q` has to stay when a tree is removed: it is, or contains, an
existing path that is not removable. -/
def FileSystem.pinned (fs : FileSystem) (q : String) : Bool :=
  fs.paths.any (fun l => fs.locked.contains l && atOrUnder q l)

/-- Whether Go's `os.RemoveAll` refuses the path because its last element is `.`. -/
def endsWithDot (path : String) : Bool :=
  path == "." || ['/', '.'].isSuffixOf path.data

/-- Go `os.RemoveAll(path)`: removes the path and everything under it that it
can, and reports an error (`some`) when something at or under the path
remains; a path that does not exist is no error, the empty path is a no-op,
and a path ending in `.` is refused. -/
def RemoveAll (path : String) (fs : FileSystem) : Option String × FileSystem :=
  if path = "" then (none, fs)
  else if endsWithDot path then (some "invalid argument", fs)
  else
    let kept := fs.paths.filter (fun q => !atOrUnder path q || fs.pinned q)
    (if kept.any (fun q => atOrUnder path q) then some "permission denied" else none,
     { fs with paths := kept })

/-- Go `filepath.Base`: the last element of the path, after trailing slashes
are dropped; `.` for the empty path and `/` for a path of slashes only. -/
def filepathBase (path : String) : String :=
  if path = "" then "."
  else
    let stripped := path.data.reverse.dropWhile (fun c => c == '/')
    let last := (stripped.takeWhile (fun c => c != '/')).reverse
    if last = [] then "/" else String.mk last

/-- Go `strings.TrimSuffix`. -/
def trimSuffix (s suffix : String) : String :=
  if suffix.data.isSuffixOf s.data then String.mk (s.data.take (s.data.length - suffix.data.length))
  else s

/-- The elements of a path between its slashes. -/
def splitPath : List Char → List (List Char)
  | [] => [[]]
  | c :: cs =>
    if c = '/' then [] :: splitPath cs
    else
      match splitPath cs with
      | [] => [[c]]
      | h :: t => (c :: h) :: t

/-- The element pass of Go `filepath.Clean`: drops empty and `.` elements and
resolves `..` against the element before it; `stack` holds the elements kept
so far, newest first. -/
def cleanElements (rooted : Bool) : List (List Char) → List (List Char) → List (List Char)
  | stack, [] => stack.reverse
  | stack, e :: rest =>
    if e = [] ∨ e = ['.'] then cleanElements rooted stack rest
    else if e = ['.', '.'] then
      match stack with
      | top :: below =>
        if top = ['.', '.'] then cleanElements rooted (e :: stack) rest
        else cleanElements rooted below rest
      | [] => if rooted then cleanElements rooted [] rest else cleanElements rooted [e] rest
    else cleanElements rooted (e :: stack) rest

/-- Go `filepath.Clean` on slash-separated paths. -/
def filepathClean (path : String) : String :=
  if path = "" then "."
  else
    let rooted := path.data.head? == some '/'
    let body := String.mk (List.intercalate ['/'] (cleanElements rooted [] (splitPath path.data)))
    if rooted then "/" ++ body else if body = "" then "." else body

/-- Go `filepath.Join` of two elements: empty leading elements are ignored,
the rest is joined with a slash and cleaned. -/
def filepathJoin (dir elem : String) : String :=
  if dir ≠ "" then filepathClean (dir ++ "/" ++ elem)
  else if elem ≠ "" then filepathClean elem
  else ""

/-- The `git.GitService` struct (its logger left out). -/
structure GitService where
  tempDir : String
deriving DecidableEq, Repr

/-- The `git.GitRepo` struct. -/
structure GitRepo where
  URL : String
  Branch : String
  Tag : String
  Commit : String
  RepoPath : String
deriving DecidableEq, Repr

/-- A repository a URL serves: its references (full names, `HEAD` included)
with the commits they point to. -/
structure RemoteRepo where
  URL : String
  Refs : List (String × String)
deriving DecidableEq, Repr

/-- The world outside the service: the local file system and the remotes. -/
structure GitWorld where
  fs : FileSystem
  remotes : List RemoteRepo
deriving DecidableEq, Repr

/-- A `*git.Repository` handed back by a clone: the references it holds. -/
structure Repository where
  Refs : List (String × String)
deriving DecidableEq, Repr

/-- The commit a reference name points to. -/
def lookupRef (refs : List (String × String)) (ref : String) : Option String :=
  (refs.find? (fun kv => kv.1 == ref)).map (fun kv => kv.2)

/-- Add a path to the file system unless it is there already. -/
def FileSystem.add (fs : FileSystem) (path : String) : FileSystem :=
  if fs.paths.contains path then fs else { fs with paths := fs.paths ++ [path] }

/-- Constructor `NewGitService`: the temp dir is `ys-cloud-repos` under the
system temp dir, and it is created. -/
def NewGitService (osTempDir : String) (fs : FileSystem) : GitService × FileSystem :=
  let tempDir := filepathJoin osTempDir "ys-cloud-repos"
  ({ tempDir := tempDir }, fs.add tempDir)

/-- Library call `git.PlainClone(path, false, options)` with a single
reference: it refuses a path that already holds a repository, fails for an
unknown URL or reference (leaving nothing behind), and otherwise creates the
working copy with its `.git` directory. -/
def PlainClone (path url ref : String) (w : GitWorld) : Result Repository × GitWorld :=
  if w.fs.paths.contains (path ++ "/.git") then (.error "repository already exists", w)
  else
    match w.remotes.find? (fun r => r.URL == url) with
    | none => (.error "repository not found", w)
    | some remote =>
      match lookupRef remote.Refs ref with
      | none => (.error "reference not found", w)
      | some commit =>
        (.ok { Refs := [("HEAD", commit), (ref, commit)] },
         { w with fs := (w.fs.add path).add (path ++ "/.git") })

/-- Method `GitService.getCommitHash`: the head for `HEAD`, else the commit the
reference resolves to. -/
def GitService.getCommitHash (_s : GitService) (repo : Repository) (ref : String) :
    Result String :=
  if ref = "HEAD" then
    match lookupRef repo.Refs "HEAD" with
    | some hash => .ok hash
    | none => .error "reference not found"
  else
    match lookupRef repo.Refs ref with
    | some hash => .ok hash
    | none => .error "reference not found"

/-- The working-copy path `Clone` computes first: the temp dir joined with the
URL's base name without `.git`, a dash and the process id. -/
def GitService.repoPath (s : GitService) (repoURL : String) (pid : Nat) : String :=
  let repoName := trimSuffix (filepathBase repoURL) ".git"
  filepathJoin s.tempDir (repoName ++ "-" ++ toString pid)

/-- Method `GitService.Clone`, run by the process `pid`: clones the tag, else
the branch, else `HEAD` into the working-copy path; on a failure it removes
that path and returns the error. The model's remotes accept any credentials. -/
def GitService.Clone (s : GitService) (repoURL branch tag _username _password : String)
    (pid : Nat) (w : GitWorld) : Result GitRepo × GitWorld :=
  let repoPath := s.repoPath repoURL pid
  let ref := if tag ≠ "" then "refs/tags/" ++ tag
    else if branch ≠ "" then "refs/heads/" ++ branch
    else "HEAD"
  match PlainClone repoPath repoURL ref w with
  | (.panic, w1) => (.panic, w1)
  | (.error e, w1) =>
    (.error ("failed to clone repository: " ++ e),
     { w1 with fs := (RemoveAll repoPath w1.fs).2 })
  | (.ok repo, w1) =>
    match s.getCommitHash repo ref with
    | .panic => (.panic, w1)
    | .error e =>
      (.error ("failed to get commit hash: " ++ e),
       { w1 with fs := (RemoveAll repoPath w1.fs).2 })
    | .ok commitHash =>
      (.ok { URL := repoURL, Branch := branch, Tag := tag, Commit := commitHash,
             RepoPath := repoPath }, w1)

/-- Method `GitService.Cleanup`: removes the tree at a non-empty path; an
error of the removal is logged and not returned. -/
def GitService.Cleanup (_s : GitService) (repoPath : String) (fs : FileSystem) : FileSystem :=
  if repoPath ≠ "" then (RemoveAll repoPath fs).2 else fs

end git

/-- The git service of a process whose system temp dir is `/tmp`. -/
def sampleGitService : git.GitService := { tempDir := "/tmp/ys-cloud-repos" }

/-- A file system holding one working copy, all of it removable. -/
def workingCopyFS : git.FileSystem :=
  { paths := ["/tmp/ys-cloud-repos", "/tmp/ys-cloud-repos/shop-4711",
              "/tmp/ys-cloud-repos/shop-4711/main.go", "/tmp/ys-cloud-repos/shop-4711/.git",
              "/tmp/ys-cloud-repos/shop-4711/.git/pack-1.idx"],
    locked := [] }

/-- The same working copy with a pack index the process is not able to remove. -/
def lockedCopyFS : git.FileSystem :=
  { workingCopyFS with locked := ["/tmp/ys-cloud-repos/shop-4711/.git/pack-1.idx"] }

/-- A world with an empty temp dir and two remotes whose URLs share the base
name `shop.git`. -/
def sampleGitWorld : git.GitWorld :=
  { fs := { paths := ["/tmp/ys-cloud-repos"], locked := [] },
    remotes := [{ URL := "https://git.example/team-a/shop.git",
                  Refs := [("HEAD", "a1b2c3"), ("refs/heads/main", "a1b2c3")] },
                { URL := "https://git.example/team-b/shop.git",
                  Refs := [("HEAD", "d4e5f6"), ("refs/heads/main", "d4e5f6")] }] }

/-- The first clone of the scenario: team A's `shop.git`, by process 4711. -/
def firstClone : Result git.GitRepo × git.GitWorld :=
  sampleGitService.Clone "https://git.example/team-a/shop.git" "main" "" "ci" "secret" 4711
    sampleGitWorld

/-- The world after the first clone's working copy has been cleaned up. -/
def worldAfterCleanup : git.GitWorld :=
  { firstClone.2 with
      fs := sampleGitService.Cleanup "/tmp/ys-cloud-repos/shop-4711" firstClone.2.fs }

/-! ## Observations on the object `Deploy` builds -/

/-- Whether each request a resource list names is no greater than the limit of
the same resource, where both are named. -/
def ResourceRequirements.consistent (r : ResourceRequirements) : Bool :=
  (match r.Requests.cpu, r.Limits.cpu with
   | some q, some l => decide (q ≤ l)
   | _, _ => true) &&
  (match r.Requests.memory, r.Limits.memory with
   | some q, some l => decide (q ≤ l)
   | _, _ => true)

/-- The sample options with caller-supplied labels that already name an `app`. -/
def relabelledOptions : k8s.DeploymentOptions :=
  { sampleOptions with Labels := some [("app", "legacy-shop"), ("team", "payments")] }

/-! ## Updating a workload (`K8sService.UpdateDeployment`) -/

/-- The index of the first container with the given name: the search loop of
`UpdateDeployment`, `none` for its `-1`. -/
def k8s.containerIndex (name : String) : List Container → Option Nat
  | [] => none
  | k :: rest =>
    if k.Name = name then some 0 else (k8s.containerIndex name rest).map (fun i => i + 1)

/-- Assignment to the fields of the container at an index. -/
def k8s.modifyAt (f : Container → Container) : Nat → List Container → List Container
  | _, [] => []
  | 0, k :: rest => f k :: rest
  | i + 1, k :: rest => k :: k8s.modifyAt f i rest

/-- The three assignments `UpdateDeployment` makes to the container it found:
the image always, the environment and the resources when the option is set. -/
def k8s.updatedContainer (opts : k8s.DeploymentOptions) (k : Container) : Container :=
  { k with Image := opts.Image ++ ":" ++ opts.Tag,
           Env := match opts.EnvVars with
             | some env => some env
             | none => k.Env,
           Resources := match opts.Resources with
             | some r => r
             | none => k.Resources }

/-- Method `K8sService.UpdateDeployment`: validates the four required fields,
fetches the workload, rewrites the first container named `opts.Name` and
updates the workload; it fails before the update when no container has that
name. -/
def k8s.K8sService.UpdateDeployment (_s : k8s.K8sService) (opts : k8s.DeploymentOptions)
    (c : Cluster) : Result Unit × Cluster :=
  if opts.Name = "" then (.error "deployment name is required", c)
  else if opts.Namespace = "" then (.error "namespace is required", c)
  else if opts.Image = "" then (.error "image is required", c)
  else if opts.Tag = "" then (.error "tag is required", c)
  else
    match c.Get opts.Namespace opts.Name with
    | (.panic, c1) => (.panic, c1)
    | (.error e, c1) => (.error ("failed to get deployment: " ++ e), c1)
    | (.ok deployment, c1) =>
      match k8s.containerIndex opts.Name deployment.Containers with
      | none => (.error ("container " ++ opts.Name ++ " not found in deployment"), c1)
      | some containerIndex =>
        let containers :=
          k8s.modifyAt (k8s.updatedContainer opts) containerIndex deployment.Containers
        let updated : Workload := { deployment with Containers := containers }
        match c1.Update opts.Namespace updated with
        | (.panic, c2) => (.panic, c2)
        | (.error e, c2) => (.error ("failed to update deployment: " ++ e), c2)
        | (.ok _, c2) => (.ok (), c2)

/-- The workload stored under a namespace and name. -/
def Cluster.workload (c : Cluster) (ns name : String) : Option Workload :=
  c.workloads.find? (fun w => w.Namespace == ns && w.Name == name)

/-- A cluster whose workload `svc1` runs a sidecar `proxy` before and a second
container named `svc1` after its main container. -/
def sidecarCluster : Cluster :=
  { reachable := true,
    workloads := [{ Namespace := "ns1", Name := "svc1", Replicas := 3,
                    Containers := [{ Name := "proxy", Image := "envoy:1.30" },
                                   { Name := "svc1", Image := "shop:20240517-103007" },
                                   { Name := "svc1", Image := "shop:canary" }],
                    TemplateAnnotations := none,
                    Labels := some [("app", "svc1")], Selector := [("app", "svc1")],
                    TemplateLabels := some [("app", "svc1")] }],
    requests := [] }

/-- A cluster whose workload `svc1` has no container of that name. -/
def renamedCluster : Cluster :=
  { reachable := true,
    workloads := [{ Namespace := "ns1", Name := "svc1", Replicas := 3,
                    Containers := [{ Name := "web", Image := "shop:20240517-103007" }],
                    TemplateAnnotations := none }],
    requests := [] }

/-- The workload `svc1` of `sidecarCluster`. -/
def sidecarWorkload : Workload :=
  { Namespace := "ns1", Name := "svc1", Replicas := 3,
    Containers := [{ Name := "proxy", Image := "envoy:1.30" },
                   { Name := "svc1", Image := "shop:20240517-103007" },
                   { Name := "svc1", Image := "shop:canary" }],
    TemplateAnnotations := none,
    Labels := some [("app", "svc1")], Selector := [("app", "svc1")],
    TemplateLabels := some [("app", "svc1")] }

/-! ## HTTP handlers (`internal/handler`) -/

/-- What a handler writes with `c.JSON`: the status code, the string entries of
the body and, where the body carries one, the user record. -/
structure Response where
  status : Nat
  body : List (String × String)
  user : Option User := none
deriving DecidableEq, Repr

/-- Go `strconv.ParseUint(s, 10, 32)`: a non-empty run of decimal digits whose
value fits 32 bits; anything else is an error (`none`). -/
def parseUint32 (s : String) : Option Nat :=
  if s.data = [] then none
  else if s.data.all (fun ch => ch.isDigit) then
    let n := s.data.foldl (fun acc ch => acc * 10 + (ch.toNat - 48)) 0
    if n < 2 ^ 32 then some n else none
  else none

/-- The `handler.BuildHandler` struct, reduced to the field `CancelBuild` reads. -/
structure BuildHandler where
  buildService : Option BuildService
deriving DecidableEq, Repr

/-- Method `BuildHandler.CancelBuild`: parses the `id` path parameter, cancels
the build and answers 200 unless the service returned an error. -/
def BuildHandler.CancelBuild (h : BuildHandler) (idParam : String) (db : DB) :
    Result Response × DB :=
  match parseUint32 idParam with
  | none => (.ok { status := 400, body := [("error", "Invalid build ID")] }, db)
  | some id =>
    match h.buildService with
    | none => (.panic, db)
    | some buildService =>
      match buildService.CancelBuild id db with
      | (.panic, db1) => (.panic, db1)
      | (.error e, db1) => (.ok { status := 400, body := [("error", e)] }, db1)
      | (.ok _, db1) =>
        (.ok { status := 200, body := [("message", "Build cancelled successfully")] }, db1)

/-- Modelled from the spec: `repository.UserRepository` is not among the
sources; it is a handle on the shared `DB` like the other repositories. -/
structure UserRepository where
deriving DecidableEq, Repr

/-- Modelled from the spec: `UserRepository.GetByID`, absent from the sources,
reads the live row with that key, as the other repositories do with
`db.First`. -/
def UserRepository.GetByID (_r : UserRepository) (db : DB) (id : Nat) : Result User :=
  if db.online then
    match db.users.find? (fun u => u.ID == id && u.DeletedAt.isNone) with
    | some u => .ok u
    | none => .error recordNotFound
  else .error dbUnavailable

/-- Modelled from the spec: `UserRepository.Update`, absent from the sources,
saves every field of the record it is given, as the other repositories'
`Update` does with `db.Save`; the unique indexes of `models.User` refuse a
user name or an email that another row holds. -/
def UserRepository.Update (_r : UserRepository) (db : DB) (user : User) : Result Unit × DB :=
  if db.online then
    if db.users.any (fun u => u.ID != user.ID &&
        (u.Username == user.Username || u.Email == user.Email)) then
      (.error duplicateKey, db)
    else if db.users.any (fun u => u.ID == user.ID && u.DeletedAt.isNone) then
      let rows := db.users.map
        fun u => if u.ID == user.ID && u.DeletedAt.isNone then user else u
      (.ok (), { db with users := rows })
    else if db.users.any (fun u => u.ID == user.ID) then (.error duplicateKey, db)
    else (.ok (), { db with users := db.users ++ [user] })
  else (.error dbUnavailable, db)

/-- The `service.UserService` struct; an unset field is `none` (nil). -/
structure UserService where
  userRepo : Option UserRepository
deriving DecidableEq, Repr

/-- Constructor `NewUserService`. -/
def NewUserService (userRepo : Option UserRepository) : UserService :=
  { userRepo := userRepo }

/-- Method `UserService.GetByID`: loads the user and clears `Password` in the
record it returns. -/
def UserService.GetByID (s : UserService) (db : DB) (id : Nat) : Result User :=
  match s.userRepo with
  | none => .panic
  | some userRepo =>
    match userRepo.GetByID db id with
    | .panic => .panic
    | .error e => .error e
    | .ok user => .ok { user with Password := "" }

/-- Method `UserService.Update`: forwards the record to the repository. -/
def UserService.Update (s : UserService) (db : DB) (user : User) : Result Unit × DB :=
  match s.userRepo with
  | none => (.panic, db)
  | some userRepo => userRepo.Update db user

/-- The `handler.UserHandler` struct. -/
structure UserHandler where
  userService : Option UserService
deriving DecidableEq, Repr

/-- The `handler.UpdateProfileRequest` struct. -/
structure UpdateProfileRequest where
  Email : String
  Avatar : String
deriving DecidableEq, Repr

/-- Method `UserHandler.UpdateProfile`. The arguments are what the gin context
holds: the value stored under `user_id` (`none` when there is none) and the
outcome of `ShouldBindJSON`, an error text or the bound request. The handler
loads the user through the service, overwrites `Email` and `Avatar` where the
request has a non-empty value, and saves the record. -/
def UserHandler.UpdateProfile (h : UserHandler) (ctxUserID : Option Nat)
    (bound : Except String UpdateProfileRequest) (db : DB) : Result Response × DB :=
  match bound with
  | .error e => (.ok { status := 400, body := [("error", e)] }, db)
  | .ok req =>
    match h.userService, ctxUserID with
    | none, _ => (.panic, db)
    | _, none => (.panic, db)
    | some userService, some userID =>
      match userService.GetByID db userID with
      | .panic => (.panic, db)
      | .error _ => (.ok { status := 404, body := [("error", "User not found")] }, db)
      | .ok user =>
        let user1 := if req.Email ≠ "" then { user with Email := req.Email } else user
        let user2 := if req.Avatar ≠ "" then { user1 with Avatar := req.Avatar } else user1
        match userService.Update db user2 with
        | (.panic, db1) => (.panic, db1)
        | (.error _, db1) =>
          (.ok { status := 500, body := [("error", "Failed to update profile")] }, db1)
        | (.ok _, db1) =>
          (.ok { status := 200, body := [("message", "Profile updated successfully")],
                 user := some user2 }, db1)

/-- The stored password hash of the live user with the given key. -/
def storedPassword (db : DB) (id : Nat) : Option String :=
  (db.users.find? (fun u => u.ID == id && u.DeletedAt.isNone)).map (fun u => u.Password)

/-- A registered user with a bcrypt hash. -/
def sampleUser : User :=
  { ID := 1, Username := "alice", Email := "alice@example.org",
    Password := "$2a$10$N9qo8uLOickgx2ZMRZoMye", Role := "user", Avatar := "",
    DeletedAt := none }

/-- The sample store with the sample user registered. -/
def dbWithUser : DB := { sampleDB with users := [sampleUser] }

/-- A user handler wired as the server wires it. -/
def sampleUserHandler : UserHandler :=
  { userService := some (NewUserService (some {})) }

/-- A build handler over the sample build service. -/
def sampleBuildHandler : BuildHandler := { buildService := some sampleBuildService }

/-! ## The progress loops, one `Decode` call at a time -/

/-- The state of a `json.Decoder` on the build stream: the events it has not
yet delivered, and whether it has met a syntax or read error, which it then
returns on every later call. -/
structure docker.Decoder where
  pending : List docker.DecodeEvent
  stuck : Bool
deriving DecidableEq, Repr

/-- The outcome of one `Decode` call: a value, `io.EOF`, or another error. -/
inductive docker.Decoded (α : Type) where
  | value (a : α)
  | eof
  | failed
deriving DecidableEq, Repr

/-- One `decoder.Decode(&progress)` call on the build stream. -/
def docker.Decoder.Decode (dec : docker.Decoder) :
    docker.Decoded docker.BuildProgress × docker.Decoder :=
  if dec.stuck then (.failed, dec)
  else
    match dec.pending with
    | [] => (.eof, dec)
    | .message p :: rest => (.value p, { dec with pending := rest })
    | .skipped :: rest => (.failed, { dec with pending := rest })
    | .broken :: _ => (.failed, { dec with stuck := true })

/-- The `for` loop of `BuildImage`, run for at most `fuel` iterations: `none`
when it has not returned by then, else the returned error (`none` for nil). -/
def docker.buildSteps : Nat → docker.Decoder → Option (Option String)
  | 0, _ => none
  | fuel + 1, dec =>
    match dec.Decode with
    | (.eof, _) => some none
    | (.failed, dec1) => docker.buildSteps fuel dec1
    | (.value progress, dec1) =>
      if progress.Error ≠ "" then some (some ("build failed: " ++ progress.Error))
      else docker.buildSteps fuel dec1

/-- The `for` loop of `BuildImageWithLogs`, run for at most `fuel` iterations
from the logs collected so far. -/
def docker.logsSteps : Nat → String → docker.Decoder → Option (String × Option String)
  | 0, _, _ => none
  | fuel + 1, logs, dec =>
    match dec.Decode with
    | (.eof, _) => some (logs, none)
    | (.failed, dec1) => docker.logsSteps fuel logs dec1
    | (.value progress, dec1) =>
      if progress.Error ≠ "" then some (logs, some ("build failed: " ++ progress.Error))
      else docker.logsSteps fuel (if progress.Stream ≠ "" then logs ++ progress.Stream else logs)
        dec1

/-- The state of the `json.Decoder` on the push stream. -/
structure docker.PushDecoder where
  pending : List docker.PushEvent
  stuck : Bool
deriving DecidableEq, Repr

/-- One `decoder.Decode(&progress)` call on the push stream. -/
def docker.PushDecoder.Decode (dec : docker.PushDecoder) :
    docker.Decoded docker.PushProgress × docker.PushDecoder :=
  if dec.stuck then (.failed, dec)
  else
    match dec.pending with
    | [] => (.eof, dec)
    | .message p :: rest => (.value p, { dec with pending := rest })
    | .skipped :: rest => (.failed, { dec with pending := rest })
    | .broken :: _ => (.failed, { dec with stuck := true })

/-- The `for` loop of `PushImage`, run for at most `fuel` iterations. -/
def docker.pushSteps : Nat → docker.PushDecoder → Option (Option String)
  | 0, _ => none
  | fuel + 1, dec =>
    match dec.Decode with
    | (.eof, _) => some none
    | (.failed, dec1) => docker.pushSteps fuel dec1
    | (.value progress, dec1) =>
      match progress.failure with
      | some errorDetail => some (some ("push failed: " ++ errorDetail))
      | none => docker.pushSteps fuel dec1

/-- The progress loop of `PushImage` over the events still to come. -/
def docker.pushLoop : List docker.PushEvent → Run (Option String)
  | [] => .returns none
  | .message p :: rest =>
    match p.failure with
    | some errorDetail => .returns (some ("push failed: " ++ errorDetail))
    | none => docker.pushLoop rest
  | .skipped :: rest => docker.pushLoop rest
  | .broken :: _ => .hangs

/-- Method `DockerService.PushImage`: validates the two required fields, starts
the push with the registry credentials and reads the progress stream. Encoding
the credentials (`encodeAuthToBase64`) marshals a struct of two strings and
does not fail. -/
def docker.DockerService.PushImage (_s : docker.DockerService)
    (imageName imageTag username password : String) (d : docker.Daemon) :
    Run (Option String) × docker.Daemon :=
  if imageName = "" then (.returns (some "image name is required"), d)
  else if imageTag = "" then (.returns (some "image tag is required"), d)
  else
    let fullImageName := imageName ++ ":" ++ imageTag
    let d1 := { d with calls := d.calls ++
      [docker.ExternalCall.imagePush fullImageName username password] }
    match d.pushError with
    | some e => (.returns (some ("failed to push image: " ++ e)), d1)
    | none => (docker.pushLoop d.pushBody, d1)

/-- A daemon whose build and push streams hold one complete message followed
by bytes that are not JSON. -/
def garbledDaemon : docker.Daemon :=
  { tarError := none, buildError := none,
    body := [.message { Stream := "Step 1/2\n", Error := "", Status := "", Progress := "" },
             .broken],
    calls := [],
    pushBody := [.message { failure := none, status := some "Preparing" }, .broken] }

/-- Build options for the image `shop:20240517-103007`. -/
def taggedOptions : docker.BuildOptions :=
  { untaggedOptions with ImageTag := "20240517-103007" }

/-- The options the two build methods accept: the three required fields are
non-empty. -/
def docker.BuildOptions.accepted (opts : docker.BuildOptions) : Prop :=
  opts.ContextDir ≠ "" ∧ opts.ImageName ≠ "" ∧ opts.ImageTag ≠ ""

instance (opts : docker.BuildOptions) : Decidable opts.accepted := by
  unfold docker.BuildOptions.accepted; infer_instance

/-- The log text the specification promises for a sequence of decoded
messages: the `Stream` fields, in order, of the messages before the first one
with a non-empty `Error`. -/
def docker.streamsBeforeFailure (msgs : List docker.BuildProgress) : String :=
  ((msgs.takeWhile (fun p => p.Error == "")).map (fun p => p.Stream)).foldr
    (fun stream text => stream ++ text) ""

/-- The first message with a non-empty `Error` field. -/
def docker.firstFailure (msgs : List docker.BuildProgress) : Option docker.BuildProgress :=
  msgs.find? (fun p => p.Error != "")

/-- A daemon whose build stream is the given messages, all decoded. -/
def docker.daemonWith (msgs : List docker.BuildProgress) : docker.Daemon :=
  { tarError := none, buildError := none, body := msgs.map docker.DecodeEvent.message,
    calls := [] }

/-- Three messages of a build: a step, a status line without text, and the
failure of the step, followed by a line that is not reached. -/
def failingBuildMessages : List docker.BuildProgress :=
  [{ Stream := "Step 1/2 : FROM alpine\n", Error := "", Status := "", Progress := "" },
   { Stream := "", Error := "", Status := "Pulling", Progress := "" },
   { Stream := "Step 2/2 : RUN make\n", Error := "", Status := "", Progress := "" },
   { Stream := "", Error := "exit code 2", Status := "", Progress := "" },
   { Stream := "unreached\n", Error := "", Status := "", Progress := "" }]

/-! ## Pod logs (`pkg/k8s/service.go`) -/

/-- One `Read` on the pod log stream: the bytes it put into the buffer, as
text, and the error it returned with them (`none` for nil). -/
structure k8s.LogRead where
  data : String
  err : Option String
deriving DecidableEq, Repr

/-- The read loop of `GetPodLogs` over the reads still to come, from the text
collected so far; after the last listed read the stream answers with no bytes
and `io.EOF`. -/
def k8s.readLoop (result : String) : List k8s.LogRead → String
  | [] => result
  | r :: rest =>
    match r.err with
    | some _ => result
    | none => k8s.readLoop (result ++ r.data) rest

/-- Method `K8sService.GetPodLogs`. The argument `stream` is the cluster's
answer to `req.Stream(ctx)` for a namespace, pod and container: an error, or
the reads the stream will return. -/
def k8s.K8sService.GetPodLogs (_s : k8s.K8sService) (ns podName containerName : String)
    (stream : String → String → String → Except String (List k8s.LogRead)) : Result String :=
  if ns = "" then .error "namespace is required"
  else if podName = "" then .error "pod name is required"
  else
    let container := if containerName = "" then podName else containerName
    match stream ns podName container with
    | .error e => .error ("failed to get pod logs: " ++ e)
    | .ok reads => .ok (k8s.readLoop "" reads)

/-- All bytes a sequence of reads delivered, in order. -/
def k8s.delivered (reads : List k8s.LogRead) : String :=
  (reads.map (fun r => r.data)).foldr (fun chunk text => chunk ++ text) ""

/-- A log stream of two lines whose second read also reports the end of the
stream, as a reader may. -/
def twoLineStream : List k8s.LogRead :=
  [{ data := "line 1\n", err := none }, { data := "line 2\n", err := some "EOF" }]

/-! ## Lemmas on the store -/

theorem le_foldr_max (ids : List Nat) : ∀ x ∈ ids, x ≤ ids.foldr max 0 := by
  induction ids with
  | nil => intro x hx; simp at hx
  | cons a l ih =>
    intro x hx
    simp only [List.mem_cons] at hx
    simp only [List.foldr_cons]
    rcases hx with rfl | hx
    · exact Nat.le_max_left _ _
    · exact Nat.le_trans (ih x hx) (Nat.le_max_right _ _)

theorem lt_nextID (ids : List Nat) : ∀ x ∈ ids, x < nextID ids := by
  intro x hx
  have := le_foldr_max ids x hx
  unfold nextID
  omega

theorem nextID_pos (ids : List Nat) : nextID ids ≠ 0 := by
  unfold nextID; omega

theorem find?_append_fresh {α : Type} (p : α → Bool) (l : List α) (a : α)
    (hl : ∀ x ∈ l, p x = false) (ha : p a = true) : (l ++ [a]).find? p = some a := by
  induction l with
  | nil => simp [List.find?, ha]
  | cons b l ih =>
    have hb : p b = false := hl b (List.mem_cons_self _ _)
    have hl2 : ∀ x ∈ l, p x = false := fun x hx => hl x (List.mem_cons_of_mem _ hx)
    simp [List.find?, hb, ih hl2]

theorem find?_append_old {α : Type} (p : α → Bool) (l : List α) (a x : α)
    (hx : l.find? p = some x) : (l ++ [a]).find? p = some x := by
  simp [List.find?_append, hx]

theorem find?_append_none {α : Type} (p : α → Bool) (l : List α) (a : α)
    (hx : l.find? p = none) (ha : p a = false) : (l ++ [a]).find? p = none := by
  simp [List.find?_append, hx, List.find?, ha]

/-- Rewriting the rows selected by `q` leaves the first row selected by `p`
as it was rewritten, when rewriting keeps `p`. -/
theorem find?_map_rewrite {α : Type} (p q : α → Bool) (f : α → α) (l : List α) (x : α)
    (hx : l.find? p = some x) (hf : ∀ y, p (if q y then f y else y) = p y) :
    (l.map (fun y => if q y then f y else y)).find? p = some (if q x then f x else x) := by
  induction l with
  | nil => simp at hx
  | cons b l ih =>
    simp only [List.map_cons, List.find?_cons] at hx ⊢
    rw [hf b]
    cases hb : p b with
    | true => simp only [hb] at hx; cases hx; rfl
    | false => simp only [hb] at hx; exact ih hx

/-! ## Lemmas on the repositories -/

theorem BuildRepository_GetByID_online (r : BuildRepository) (db : DB) (id : Nat) (b : Build)
    (h : r.GetByID db id = .ok b) : db.online = true := by
  unfold BuildRepository.GetByID at h
  cases hon : db.online with
  | true => rfl
  | false => simp [hon] at h

theorem BuildRepository_GetByID_find (r : BuildRepository) (db : DB) (id : Nat) (b : Build)
    (h : r.GetByID db id = .ok b) :
    db.builds.find? (fun x => x.ID == id && x.DeletedAt.isNone) = some b := by
  unfold BuildRepository.GetByID at h
  cases hon : db.online with
  | false => simp [hon] at h
  | true =>
    simp only [hon, if_true] at h
    cases hf : db.builds.find? (fun x => x.ID == id && x.DeletedAt.isNone) with
    | none => simp [hf] at h
    | some x => simp only [hf, Result.ok.injEq] at h; rw [h]

theorem BuildRepository_GetByID_of_find (r : BuildRepository) (db : DB) (id : Nat) (b : Build)
    (hon : db.online = true)
    (h : db.builds.find? (fun x => x.ID == id && x.DeletedAt.isNone) = some b) :
    r.GetByID db id = .ok b := by
  unfold BuildRepository.GetByID
  simp [hon, h]

theorem BuildRepository_GetByID_spec (r : BuildRepository) (db : DB) (id : Nat) (b : Build)
    (h : r.GetByID db id = .ok b) : b ∈ db.builds ∧ b.ID = id ∧ b.DeletedAt = none := by
  have hf := BuildRepository_GetByID_find r db id b h
  have hp := List.find?_some hf
  have hm := List.mem_of_find?_eq_some hf
  simp only [Bool.and_eq_true, beq_iff_eq, Option.isNone_iff_eq_none] at hp
  exact ⟨hm, hp.1, hp.2⟩

theorem PipelineRepository_GetByID_online (r : PipelineRepository) (db : DB) (id : Nat)
    (p : Pipeline) (h : r.GetByID db id = .ok p) : db.online = true := by
  unfold PipelineRepository.GetByID at h
  cases hon : db.online with
  | true => rfl
  | false => simp [hon] at h

theorem DeploymentRepository_GetByID_online (r : DeploymentRepository) (db : DB) (id : Nat)
    (d : Deployment) (h : r.GetByID db id = .ok d) : db.online = true := by
  unfold DeploymentRepository.GetByID at h
  cases hon : db.online with
  | true => rfl
  | false => simp [hon] at h

/-- An insert with key zero on an online store appends the row under a fresh key. -/
theorem BuildRepository_Create_fresh (r : BuildRepository) (db : DB) (build : Build)
    (hon : db.online = true) (h0 : build.ID = 0) :
    r.Create db build =
      (.ok { build with ID := nextID (db.builds.map (fun b => b.ID)) },
       { db with builds := db.builds ++
          [{ build with ID := nextID (db.builds.map (fun b => b.ID)) }] }) := by
  unfold BuildRepository.Create
  have hfresh : db.builds.any
      (fun b => b.ID == nextID (db.builds.map (fun b => b.ID))) = false := by
    rw [List.any_eq_false]
    intro x hx
    have := lt_nextID (db.builds.map (fun b => b.ID)) x.ID (List.mem_map_of_mem _ hx)
    simp only [beq_iff_eq]
    omega
  simp [hon, h0, hfresh]

/-- The row just appended under a fresh key is the one a lookup of that key finds. -/
theorem BuildRepository_GetByID_fresh (r : BuildRepository) (db : DB) (build : Build)
    (hon : db.online = true) (hid : build.ID = nextID (db.builds.map (fun b => b.ID)))
    (hdel : build.DeletedAt = none) :
    r.GetByID { db with builds := db.builds ++ [build] } build.ID = .ok build := by
  apply BuildRepository_GetByID_of_find
  · exact hon
  · apply find?_append_fresh
    · intro x hx
      have := lt_nextID (db.builds.map (fun b => b.ID)) x.ID (List.mem_map_of_mem _ hx)
      have hne : x.ID ≠ build.ID := by omega
      simp [hne]
    · simp [hdel]

/-- Method `BuildService.Create` on an existing pipeline: the new pending build is
appended under a fresh key and returned. -/
theorem BuildService_Create_ok (s : BuildService) (pr : PipelineRepository)
    (br : BuildRepository) (hp : s.pipelineRepo = some pr) (hb : s.buildRepo = some br)
    (db : DB) (pipelineID : Nat) (p : Pipeline) (hpipe : pr.GetByID db pipelineID = .ok p)
    (commitHash branch tag : String) (now : Time) :
    s.Create pipelineID commitHash branch tag now db =
      (.ok (pendingBuild (nextID (db.builds.map (fun b => b.ID))) pipelineID commitHash branch
          tag now),
       { db with builds := db.builds ++
          [pendingBuild (nextID (db.builds.map (fun b => b.ID))) pipelineID commitHash branch
            tag now] }) := by
  have hon := PipelineRepository_GetByID_online pr db pipelineID p hpipe
  unfold BuildService.Create
  simp only [hp, hb, hpipe]
  rw [BuildRepository_Create_fresh br db _ hon rfl]
  simp only
  have := BuildRepository_GetByID_fresh br db
    (pendingBuild (nextID (db.builds.map (fun b : Build => b.ID))) pipelineID commitHash
      branch tag now) hon rfl rfl
  simpa [pendingBuild] using this

/-- Method `BuildService.Create` when the pipeline lookup fails: the fixed error, no write. -/
theorem BuildService_Create_missing (s : BuildService) (pr : PipelineRepository)
    (hp : s.pipelineRepo = some pr) (db : DB) (pipelineID : Nat) (e : String)
    (hpipe : pr.GetByID db pipelineID = .error e)
    (commitHash branch tag : String) (now : Time) :
    s.Create pipelineID commitHash branch tag now db = (.error "pipeline not found", db) := by
  unfold BuildService.Create
  simp only [hp, hpipe]

theorem DeploymentRepository_GetByID_of_find (r : DeploymentRepository) (db : DB) (id : Nat)
    (d : Deployment) (hon : db.online = true)
    (h : db.deployments.find? (fun x => x.ID == id && x.DeletedAt.isNone) = some d) :
    r.GetByID db id = .ok d := by
  unfold DeploymentRepository.GetByID
  simp [hon, h]

/-- An insert with key zero on an online store appends the row under a fresh key. -/
theorem DeploymentRepository_Create_fresh (r : DeploymentRepository) (db : DB)
    (deployment : Deployment) (hon : db.online = true) (h0 : deployment.ID = 0) :
    r.Create db deployment =
      (.ok { deployment with ID := nextID (db.deployments.map (fun d => d.ID)) },
       { db with deployments := db.deployments ++
          [{ deployment with ID := nextID (db.deployments.map (fun d => d.ID)) }] }) := by
  unfold DeploymentRepository.Create
  have hfresh : db.deployments.any
      (fun d => d.ID == nextID (db.deployments.map (fun d => d.ID))) = false := by
    rw [List.any_eq_false]
    intro x hx
    have := lt_nextID (db.deployments.map (fun d => d.ID)) x.ID (List.mem_map_of_mem _ hx)
    simp only [beq_iff_eq]
    omega
  simp [hon, h0, hfresh]

/-- The row just appended under a fresh key is the one a lookup of that key finds. -/
theorem DeploymentRepository_GetByID_fresh (r : DeploymentRepository) (db : DB)
    (deployment : Deployment) (hon : db.online = true)
    (hid : deployment.ID = nextID (db.deployments.map (fun d => d.ID)))
    (hdel : deployment.DeletedAt = none) :
    r.GetByID { db with deployments := db.deployments ++ [deployment] } deployment.ID =
      .ok deployment := by
  apply DeploymentRepository_GetByID_of_find
  · exact hon
  · apply find?_append_fresh
    · intro x hx
      have := lt_nextID (db.deployments.map (fun d => d.ID)) x.ID (List.mem_map_of_mem _ hx)
      have hne : x.ID ≠ deployment.ID := by omega
      simp [hne]
    · simp [hdel]

/-- Method `DeploymentService.Create` on a successful build: the new pending
deployment is appended under a fresh key and returned. -/
theorem DeploymentService_Create_ok (s : DeploymentService) (br : BuildRepository)
    (dr : DeploymentRepository) (hb : s.buildRepo = some br) (hd : s.deploymentRepo = some dr)
    (db : DB) (buildID : Nat) (build : Build) (hbuild : br.GetByID db buildID = .ok build)
    (hst : build.Status = "success") (environment : String) (replicas : Int)
    (ns serviceName ingressHost : String) :
    s.Create buildID environment replicas ns serviceName ingressHost db =
      (.ok (pendingDeployment (nextID (db.deployments.map (fun d => d.ID))) buildID environment
          replicas ns serviceName ingressHost),
       { db with deployments := db.deployments ++
          [pendingDeployment (nextID (db.deployments.map (fun d => d.ID))) buildID environment
            replicas ns serviceName ingressHost] }) := by
  have hon := BuildRepository_GetByID_online br db buildID build hbuild
  unfold DeploymentService.Create
  simp only [hb, hd, hbuild, hst]
  rw [DeploymentRepository_Create_fresh dr db _ hon rfl]
  have := DeploymentRepository_GetByID_fresh dr db
    (pendingDeployment (nextID (db.deployments.map (fun d : Deployment => d.ID))) buildID
      environment replicas ns serviceName ingressHost) hon rfl rfl
  simpa [pendingDeployment] using this

theorem PipelineRepository_GetByID_of_find (r : PipelineRepository) (db : DB) (id : Nat)
    (p : Pipeline) (hon : db.online = true)
    (h : db.pipelines.find? (fun x => x.ID == id && x.DeletedAt.isNone) = some p) :
    r.GetByID db id = .ok p := by
  unfold PipelineRepository.GetByID
  simp [hon, h]

/-- Method `PipelineService.Create` on an existing project: the new pipeline, in
status `"inactive"`, is appended under a fresh key and returned. -/
theorem PipelineService_Create_ok (s : PipelineService) (pr : PipelineRepository)
    (jr : ProjectRepository) (hp : s.pipelineRepo = some pr) (hj : s.projectRepo = some jr)
    (db : DB) (projectID : Nat) (j : Project) (hproj : jr.GetByID db projectID = .ok j)
    (name description config : String) :
    s.Create name description config projectID db =
      (.ok { ID := nextID (db.pipelines.map (fun p => p.ID)), Name := name,
             Description := description, ProjectID := projectID, Config := config,
             Status := "inactive", DeletedAt := none },
       { db with pipelines := db.pipelines ++
          [{ ID := nextID (db.pipelines.map (fun p => p.ID)), Name := name,
             Description := description, ProjectID := projectID, Config := config,
             Status := "inactive", DeletedAt := none }] }) := by
  have hon : db.online = true := by
    unfold ProjectRepository.GetByID at hproj
    cases h : db.online with
    | true => rfl
    | false => simp [h] at hproj
  have hfresh : db.pipelines.any
      (fun p => p.ID == nextID (db.pipelines.map (fun p => p.ID))) = false := by
    rw [List.any_eq_false]
    intro x hx
    have := lt_nextID (db.pipelines.map (fun p => p.ID)) x.ID (List.mem_map_of_mem _ hx)
    simp only [beq_iff_eq]
    omega
  have hget : pr.GetByID { db with pipelines := db.pipelines ++
          [{ ID := nextID (db.pipelines.map (fun p => p.ID)), Name := name,
             Description := description, ProjectID := projectID, Config := config,
             Status := "inactive", DeletedAt := none }] }
        (nextID (db.pipelines.map (fun p => p.ID))) =
      .ok { ID := nextID (db.pipelines.map (fun p => p.ID)), Name := name,
             Description := description, ProjectID := projectID, Config := config,
             Status := "inactive", DeletedAt := none } := by
    apply PipelineRepository_GetByID_of_find
    · exact hon
    · apply find?_append_fresh
      · intro x hx
        have := lt_nextID (db.pipelines.map (fun p => p.ID)) x.ID (List.mem_map_of_mem _ hx)
        have hne : x.ID ≠ nextID (db.pipelines.map (fun p => p.ID)) := by omega
        simp [hne]
      · simp
  unfold PipelineService.Create
  simp only [hp, hj, hproj]
  unfold PipelineRepository.Create
  simp only [hon] at hget
  simp [hon, hfresh, hget]

/-! ## Lemmas on status writes -/

theorem buildStatus_of_GetByID (r : BuildRepository) (db : DB) (id : Nat) (b : Build)
    (h : r.GetByID db id = .ok b) : buildStatus db id = some b.Status := by
  unfold buildStatus
  rw [BuildRepository_GetByID_find r db id b h]
  rfl

theorem buildStatus_find (db : DB) (id : Nat) (st : String) (h : buildStatus db id = some st) :
    ∃ b, db.builds.find? (fun x => x.ID == id && x.DeletedAt.isNone) = some b ∧
      b.Status = st := by
  unfold buildStatus at h
  cases hf : db.builds.find? (fun x => x.ID == id && x.DeletedAt.isNone) with
  | none => simp [hf] at h
  | some b =>
    refine ⟨b, rfl, ?_⟩
    simpa [hf] using h

/-- The column update rewrites the addressed live row and no other. -/
theorem buildStatus_UpdateStatus (r : BuildRepository) (db : DB) (id : Nat) (status : String)
    (hon : db.online = true) (i : Nat) (st : String) (h : buildStatus db i = some st) :
    buildStatus (r.UpdateStatus db id status).2 i = some (if i = id then status else st) := by
  obtain ⟨b, hf, hst⟩ := buildStatus_find db i st h
  have hp := List.find?_some hf
  simp only [Bool.and_eq_true, beq_iff_eq, Option.isNone_iff_eq_none] at hp
  have hmap := find?_map_rewrite (fun x : Build => x.ID == i && x.DeletedAt.isNone)
    (fun x : Build => x.ID == id && x.DeletedAt.isNone)
    (fun x : Build => { x with Status := status }) db.builds b hf
    (by intro y; split <;> rfl)
  unfold BuildRepository.UpdateStatus buildStatus
  simp only [hon, if_true]
  rw [hmap]
  by_cases hi : i = id
  · subst hi
    simp [hp.1, hp.2]
  · have hne : b.ID ≠ id := by rw [hp.1]; exact hi
    simp [hne, hi, hst]

/-- Saving a record whose key is live rewrites that row and no other. -/
theorem buildStatus_Update (r : BuildRepository) (db : DB) (build b0 : Build)
    (hb0 : r.GetByID db build.ID = .ok b0) (hdel : build.DeletedAt = none)
    (i : Nat) (st : String) (h : buildStatus db i = some st) :
    (r.Update db build).1 = .ok () ∧
    buildStatus (r.Update db build).2 i =
      some (if i = build.ID then build.Status else st) := by
  have hon := BuildRepository_GetByID_online r db build.ID b0 hb0
  obtain ⟨hm0, hid0, hdel0⟩ := BuildRepository_GetByID_spec r db build.ID b0 hb0
  obtain ⟨b, hf, hst⟩ := buildStatus_find db i st h
  have hp := List.find?_some hf
  simp only [Bool.and_eq_true, beq_iff_eq, Option.isNone_iff_eq_none] at hp
  have hany : db.builds.any (fun x => x.ID == build.ID && x.DeletedAt.isNone) = true := by
    rw [List.any_eq_true]
    exact ⟨b0, hm0, by simp [hid0, hdel0]⟩
  have hmap := find?_map_rewrite (fun x : Build => x.ID == i && x.DeletedAt.isNone)
    (fun x : Build => x.ID == build.ID && x.DeletedAt.isNone)
    (fun _ : Build => build) db.builds b hf
    (by
      intro y
      by_cases hq : (y.ID == build.ID && y.DeletedAt.isNone) = true
      · simp only [hq, if_true]
        simp only [Bool.and_eq_true, beq_iff_eq, Option.isNone_iff_eq_none] at hq
        simp [hq.1, hq.2, hdel]
      · simp only [hq]
        rfl)
  unfold BuildRepository.Update buildStatus
  simp only [hon, hany, if_true]
  refine ⟨trivial, ?_⟩
  rw [hmap]
  by_cases hi : i = build.ID
  · simp [hp.1, hp.2, hi]
  · have hne : b.ID ≠ build.ID := by rw [hp.1]; exact hi
    simp [hne, hi, hst]

/-- Appending a row leaves the status of every live build as it was. -/
theorem buildStatus_append (db : DB) (row : Build) (i : Nat) (st : String)
    (h : buildStatus db i = some st) :
    buildStatus { db with builds := db.builds ++ [row] } i = some st := by
  obtain ⟨b, hf, hst⟩ := buildStatus_find db i st h
  unfold buildStatus
  simp only
  rw [find?_append_old _ _ _ _ hf]
  simp [hst]

/-! ## Lemmas on the build service -/

theorem BuildService_CancelBuild_status (s : BuildService) (br : BuildRepository)
    (hb : s.buildRepo = some br) (db : DB) (hon : db.online = true) (id i : Nat) (st : String)
    (h : buildStatus db i = some st) :
    buildStatus (s.CancelBuild id db).2 i = some (if i = id then "cancelled" else st) := by
  unfold BuildService.CancelBuild
  simp only [hb]
  exact buildStatus_UpdateStatus br db id "cancelled" hon i st h

theorem BuildService_UpdateStatus_status (s : BuildService) (br : BuildRepository)
    (hb : s.buildRepo = some br) (db : DB) (hon : db.online = true) (id : Nat) (status : String)
    (i : Nat) (st : String) (h : buildStatus db i = some st) :
    buildStatus (s.UpdateStatus id status db).2 i = some (if i = id then status else st) := by
  unfold BuildService.UpdateStatus
  simp only [hb]
  exact buildStatus_UpdateStatus br db id status hon i st h

theorem BuildService_StartBuild_status (s : BuildService) (br : BuildRepository)
    (hb : s.buildRepo = some br) (db : DB) (id : Nat) (now : Time) (i : Nat) (st : String)
    (h : buildStatus db i = some st) :
    buildStatus (s.StartBuild id now db).2 i =
      some (if i = id ∧ (br.GetByID db id).isOk = true then "running" else st) := by
  unfold BuildService.StartBuild
  simp only [hb]
  cases hg : br.GetByID db id with
  | panic => simp [Result.isOk, h]
  | error e => simp [Result.isOk, h]
  | ok b =>
    obtain ⟨_, hid, hdel⟩ := BuildRepository_GetByID_spec br db id b hg
    have hg2 : br.GetByID db ({ b with Status := "running", StartedAt := some now } : Build).ID
        = .ok b := by simpa [hid] using hg
    have := (buildStatus_Update br db { b with Status := "running", StartedAt := some now } b
      hg2 hdel i st h).2
    simpa [Result.isOk, hid] using this

theorem BuildService_CompleteBuild_status (s : BuildService) (br : BuildRepository)
    (hb : s.buildRepo = some br) (db : DB) (id : Nat) (status logs imageName : String)
    (now : Time) (i : Nat) (st : String) (h : buildStatus db i = some st) :
    buildStatus (s.CompleteBuild id status logs imageName now db).2 i =
      some (if i = id ∧ (br.GetByID db id).isOk = true then status else st) := by
  unfold BuildService.CompleteBuild
  simp only [hb]
  cases hg : br.GetByID db id with
  | panic => simp [Result.isOk, h]
  | error e => simp [Result.isOk, h]
  | ok b =>
    obtain ⟨_, hid, hdel⟩ := BuildRepository_GetByID_spec br db id b hg
    have hg2 : br.GetByID db
        ({ b with Status := status, CompletedAt := some now,
                  Logs := logs, ImageName := imageName } : Build).ID = .ok b := by
      simpa [hid] using hg
    have := (buildStatus_Update br db
      { b with Status := status, CompletedAt := some now,
               Logs := logs, ImageName := imageName } b hg2 hdel i st h).2
    simpa [Result.isOk, hid] using this

theorem BuildService_Create_status (s : BuildService) (pr : PipelineRepository)
    (br : BuildRepository) (hp : s.pipelineRepo = some pr) (hb : s.buildRepo = some br)
    (db : DB) (pipelineID : Nat) (commitHash branch tag : String) (now : Time)
    (i : Nat) (st : String) (h : buildStatus db i = some st) :
    buildStatus (s.Create pipelineID commitHash branch tag now db).2 i = some st := by
  cases hg : pr.GetByID db pipelineID with
  | panic =>
    unfold BuildService.Create
    simp only [hp, hg]
    exact h
  | error e =>
    rw [BuildService_Create_missing s pr hp db pipelineID e hg]
    exact h
  | ok p =>
    rw [BuildService_Create_ok s pr br hp hb db pipelineID p hg]
    exact buildStatus_append db _ i st h

theorem buildStatus_online (db : DB) (st : String) (i : Nat) (h : buildStatus db i = some st)
    (r : BuildRepository) : db.online = true → (r.GetByID db i).isOk = true := by
  intro hon
  obtain ⟨b, hf, _⟩ := buildStatus_find db i st h
  rw [BuildRepository_GetByID_of_find r db i b hon hf]
  rfl

theorem activeBuilds_append_pending (db : DB) (row : Build) (pipelineID : Nat)
    (hpid : row.PipelineID = pipelineID) (hst : row.Status = "pending") :
    (activeBuilds { db with builds := db.builds ++ [row] } pipelineID).length =
      (activeBuilds db pipelineID).length + 1 := by
  have hterm : isTerminal "pending" = false := by decide
  unfold activeBuilds
  simp [List.filter_append, List.filter_cons, hpid, hst, hterm]

/-! ## Claims -/

/-- C1: on a DeploymentService whose build repository is set, `Create` for an
existing Build whose status is not `success` returns the error
"build was not successful" and leaves the store, hence the Deployment table,
as it was, for every environment, replicas, namespace, service name and
ingress host. -/
theorem deployment_create_rejects_unsuccessful_build (s : DeploymentService)
    (br : BuildRepository) (hs : s.buildRepo = some br) (db : DB) (buildID : Nat)
    (build : Build) (hbuild : br.GetByID db buildID = .ok build)
    (hst : build.Status ≠ "success") (environment : String) (replicas : Int)
    (ns serviceName ingressHost : String) :
    s.Create buildID environment replicas ns serviceName ingressHost db =
      (.error "build was not successful", db) := by
  unfold DeploymentService.Create
  simp [hs, hbuild, hst]

/-- Witness for C1: `Create` on the failed Build 1 with environment `staging`
and 2 replicas. -/
theorem deployment_create_rejects_unsuccessful_build_witness :
    BuildRepository.GetByID {} (dbWithBuild "failed") 1 = .ok (sampleBuild "failed") ∧
    (sampleBuild "failed").Status ≠ "success" ∧
    sampleDeploymentService.Create 1 "staging" 2 "ns1" "svc1" "" (dbWithBuild "failed") =
      (.error "build was not successful", dbWithBuild "failed") :=
  ⟨by decide, by decide,
   deployment_create_rejects_unsuccessful_build sampleDeploymentService {} rfl
     (dbWithBuild "failed") 1 (sampleBuild "failed") (by decide) (by decide)
     "staging" 2 "ns1" "svc1" ""⟩

/-- C2, counterexample: pipeline 1 already has a pending Build, yet `Create`
for pipeline 1 is accepted and the store then holds two non-terminal Builds of
that pipeline; two `Create` calls in a row reach such a store from an empty
Build table. -/
theorem build_create_admits_second_active_build :
    (activeBuilds (dbWithBuild "pending") 1).length = 1 ∧
    (sampleBuildService.Create 1 "c0ffee" "main" "" sampleTime
      (dbWithBuild "pending")).1.isOk = true ∧
    (activeBuilds (sampleBuildService.Create 1 "c0ffee" "main" "" sampleTime
      (dbWithBuild "pending")).2 1).length = 2 ∧
    (activeBuilds (BuildOp.run sampleBuildService sampleTime
      (BuildOp.run sampleBuildService sampleTime sampleDB
        (BuildOp.create 1 "c0ffee" "main" ""))
      (BuildOp.create 1 "c0ffee" "main" "")) 1).length = 2 := by
  decide

/-- C2, amended: `BuildService.Create` makes no admission check on the Builds
a pipeline already has. For every existing pipeline, whatever Builds it has,
`Create` is accepted, appends exactly one new pending Build and so raises the
number of non-terminal Builds of that pipeline by one. -/
theorem build_create_ignores_active_builds (s : BuildService) (pr : PipelineRepository)
    (br : BuildRepository) (hp : s.pipelineRepo = some pr) (hb : s.buildRepo = some br)
    (db : DB) (pipelineID : Nat) (p : Pipeline) (hpipe : pr.GetByID db pipelineID = .ok p)
    (commitHash branch tag : String) (now : Time) :
    (s.Create pipelineID commitHash branch tag now db).1.isOk = true ∧
    (∃ b, (s.Create pipelineID commitHash branch tag now db).2.builds = db.builds ++ [b] ∧
      b.PipelineID = pipelineID ∧ b.Status = "pending") ∧
    (activeBuilds (s.Create pipelineID commitHash branch tag now db).2 pipelineID).length =
      (activeBuilds db pipelineID).length + 1 := by
  rw [BuildService_Create_ok s pr br hp hb db pipelineID p hpipe]
  refine ⟨rfl, ⟨_, rfl, rfl, rfl⟩, ?_⟩
  exact activeBuilds_append_pending db _ pipelineID rfl rfl

/-- Witness for the amended C2: a pipeline that already has a pending Build. -/
theorem build_create_ignores_active_builds_witness :
    PipelineRepository.GetByID {} (dbWithBuild "pending") 1 = .ok samplePipeline ∧
    (activeBuilds (sampleBuildService.Create 1 "c0ffee" "main" "" sampleTime
      (dbWithBuild "pending")).2 1).length =
      (activeBuilds (dbWithBuild "pending") 1).length + 1 :=
  ⟨by decide,
   (build_create_ignores_active_builds sampleBuildService {} {} rfl rfl
     (dbWithBuild "pending") 1 samplePipeline (by decide) "c0ffee" "main" "" sampleTime).2.2⟩

/-- C3, counterexample: Build 1 is cancelled while `building`; a later
`CompleteBuild` with status `success` replaces the stored `cancelled` by
`success`. -/
theorem complete_after_cancel_overwrites_cancelled :
    buildStatus (sampleBuildService.CancelBuild 1 (dbWithBuild "building")).2 1 =
      some "cancelled" ∧
    buildStatus (sampleBuildService.CompleteBuild 1 "success" "done" "shop" sampleTime
      (sampleBuildService.CancelBuild 1 (dbWithBuild "building")).2).2 1 = some "success" := by
  decide

/-- C3, amended: the status-writing methods do not look at the status they
replace. For every existing Build, whatever its stored status (terminal ones
included), `StartBuild` leaves the stored status `running`, `CancelBuild`
leaves `cancelled`, `CompleteBuild` and `UpdateStatus` leave the status they
were given; in particular `CancelBuild` followed by `CompleteBuild` with
`success` leaves the stored status `success`. -/
theorem build_status_writes_ignore_terminal (s : BuildService) (br : BuildRepository)
    (hb : s.buildRepo = some br) (db : DB) (id : Nat) (b : Build)
    (hbuild : br.GetByID db id = .ok b) :
    (∀ now, buildStatus (s.StartBuild id now db).2 id = some "running") ∧
    buildStatus (s.CancelBuild id db).2 id = some "cancelled" ∧
    (∀ status logs imageName now,
      buildStatus (s.CompleteBuild id status logs imageName now db).2 id = some status) ∧
    (∀ status, buildStatus (s.UpdateStatus id status db).2 id = some status) ∧
    (∀ logs imageName now,
      buildStatus (s.CompleteBuild id "success" logs imageName now (s.CancelBuild id db).2).2 id
        = some "success") := by
  have hon := BuildRepository_GetByID_online br db id b hbuild
  have hst := buildStatus_of_GetByID br db id b hbuild
  have hcancel : buildStatus (s.CancelBuild id db).2 id = some "cancelled" := by
    simpa using BuildService_CancelBuild_status s br hb db hon id id b.Status hst
  have hon2 : (s.CancelBuild id db).2.online = true := by
    unfold BuildService.CancelBuild BuildRepository.UpdateStatus
    simp [hb, hon]
  refine ⟨?_, hcancel, ?_, ?_, ?_⟩
  · intro now
    have := BuildService_StartBuild_status s br hb db id now id b.Status hst
    simpa [hbuild, Result.isOk] using this
  · intro status logs imageName now
    have := BuildService_CompleteBuild_status s br hb db id status logs imageName now id
      b.Status hst
    simpa [hbuild, Result.isOk] using this
  · intro status
    simpa using BuildService_UpdateStatus_status s br hb db hon id status id b.Status hst
  · intro logs imageName now
    have hok := buildStatus_online (s.CancelBuild id db).2 "cancelled" id hcancel br hon2
    have := BuildService_CompleteBuild_status s br hb (s.CancelBuild id db).2 id "success" logs
      imageName now id "cancelled" hcancel
    simpa [hok] using this

/-- Witness for the amended C3: Build 1 stored as `cancelled`. -/
theorem build_status_writes_ignore_terminal_witness :
    BuildRepository.GetByID {} (dbWithBuild "cancelled") 1 = .ok (sampleBuild "cancelled") ∧
    isTerminal (sampleBuild "cancelled").Status = true ∧
    buildStatus (sampleBuildService.CompleteBuild 1 "success" "done" "shop" sampleTime
      (dbWithBuild "cancelled")).2 1 = some "success" :=
  ⟨by decide, by decide,
   (build_status_writes_ignore_terminal sampleBuildService {} rfl (dbWithBuild "cancelled") 1
     (sampleBuild "cancelled") (by decide)).2.2.1 "success" "done" "shop" sampleTime⟩

/-- C4, counterexample: `StartBuild` moves the pending Build 1 to `running`,
which is none of the seven states and no edge from `pending`; `UpdateStatus`
with `pending` moves a Build stored as `success` back to `pending`. -/
theorem start_build_leaves_state_machine :
    buildStatus (dbWithBuild "pending") 1 = some "pending" ∧
    buildStatus (sampleBuildService.StartBuild 1 sampleTime (dbWithBuild "pending")).2 1 =
      some "running" ∧
    "running" ∉ buildStates ∧ buildEdge "pending" "running" = false ∧
    buildStatus (sampleBuildService.UpdateStatus 1 "pending" (dbWithBuild "success")).2 1 =
      some "pending" := by
  decide

/-- C4, amended: no `BuildService` operation checks the pair (status before,
status after). For every operation and every existing Build, the stored status
after the operation is the text the operation writes when the operation
addresses that Build (`running` for `StartBuild`, `cancelled` for
`CancelBuild`, the caller's status for `CompleteBuild` and `UpdateStatus`) and
is unchanged otherwise; `Create` leaves every existing Build's status
unchanged. -/
theorem build_op_status_after (s : BuildService) (pr : PipelineRepository)
    (br : BuildRepository) (hp : s.pipelineRepo = some pr) (hb : s.buildRepo = some br)
    (db : DB) (hon : db.online = true) (now : Time) (op : BuildOp) (id : Nat) (st : String)
    (h : buildStatus db id = some st) :
    buildStatus (op.run s now db) id = some (op.statusAfter id st) := by
  have hok := buildStatus_online db st id h br hon
  cases op with
  | create pipelineID commitHash branch tag =>
    exact BuildService_Create_status s pr br hp hb db pipelineID commitHash branch tag now id st h
  | startBuild target =>
    have := BuildService_StartBuild_status s br hb db target now id st h
    simp only [BuildOp.run, BuildOp.statusAfter, BuildOp.writes]
    rw [this]
    by_cases hi : id = target
    · subst hi; simp [hok]
    · simp [hi]
  | completeBuild target status logs imageName =>
    have := BuildService_CompleteBuild_status s br hb db target status logs imageName now id st h
    simp only [BuildOp.run, BuildOp.statusAfter, BuildOp.writes]
    rw [this]
    by_cases hi : id = target
    · subst hi; simp [hok]
    · simp [hi]
  | cancelBuild target =>
    exact BuildService_CancelBuild_status s br hb db hon target id st h
  | updateStatus target status =>
    exact BuildService_UpdateStatus_status s br hb db hon target status id st h

/-- Witness for the amended C4: `StartBuild` on the pending Build 1. -/
theorem build_op_status_after_witness :
    buildStatus (dbWithBuild "pending") 1 = some "pending" ∧
    buildStatus ((BuildOp.startBuild 1).run sampleBuildService sampleTime
      (dbWithBuild "pending")) 1 = some "running" :=
  ⟨by decide,
   build_op_status_after sampleBuildService {} {} rfl rfl (dbWithBuild "pending") rfl
     sampleTime (BuildOp.startBuild 1) 1 "pending" (by decide)⟩

theorem activeDeployments_append_pending (db : DB) (row : Deployment) (buildID : Nat)
    (environment : String) (hbid : row.BuildID = buildID) (henv : row.Environment = environment)
    (hst : row.Status = "pending") :
    (activeDeployments { db with deployments := db.deployments ++ [row] } buildID
        environment).length =
      (activeDeployments db buildID environment).length + 1 := by
  have hterm : isTerminal "pending" = false := by decide
  unfold activeDeployments
  simp [List.filter_append, List.filter_cons, hbid, henv, hst, hterm]

/-- C5, counterexample: Build 1 already has a pending Deployment in `prod`, yet
`Create` for (Build 1, `prod`) is accepted and the store then holds two
non-terminal Deployments of that pair. -/
theorem deployment_create_admits_second_active_deployment :
    (activeDeployments (dbWithDeployment "pending") 1 "prod").length = 1 ∧
    (sampleDeploymentService.Create 1 "prod" 3 "ns1" "svc1" ""
      (dbWithDeployment "pending")).1.isOk = true ∧
    (activeDeployments (sampleDeploymentService.Create 1 "prod" 3 "ns1" "svc1" ""
      (dbWithDeployment "pending")).2 1 "prod").length = 2 := by
  decide

/-- C5, amended: `DeploymentService.Create` makes no admission check on the
Deployments a (Build, environment) pair already has. For every Build with
status `success` and every environment, whatever Deployments exist, `Create`
is accepted, appends exactly one new pending Deployment and so raises the
number of non-terminal Deployments of that pair by one. -/
theorem deployment_create_ignores_active_deployments (s : DeploymentService)
    (br : BuildRepository) (dr : DeploymentRepository) (hb : s.buildRepo = some br)
    (hd : s.deploymentRepo = some dr) (db : DB) (buildID : Nat) (build : Build)
    (hbuild : br.GetByID db buildID = .ok build) (hst : build.Status = "success")
    (environment : String) (replicas : Int) (ns serviceName ingressHost : String) :
    (s.Create buildID environment replicas ns serviceName ingressHost db).1.isOk = true ∧
    (∃ d, (s.Create buildID environment replicas ns serviceName ingressHost db).2.deployments
        = db.deployments ++ [d] ∧
      d.BuildID = buildID ∧ d.Environment = environment ∧ d.Status = "pending") ∧
    (activeDeployments (s.Create buildID environment replicas ns serviceName ingressHost db).2
        buildID environment).length =
      (activeDeployments db buildID environment).length + 1 := by
  rw [DeploymentService_Create_ok s br dr hb hd db buildID build hbuild hst]
  refine ⟨rfl, ⟨_, rfl, rfl, rfl, rfl⟩, ?_⟩
  exact activeDeployments_append_pending db _ buildID environment rfl rfl rfl

/-- Witness for the amended C5: a pair that already has a pending Deployment. -/
theorem deployment_create_ignores_active_deployments_witness :
    BuildRepository.GetByID {} (dbWithDeployment "pending") 1 = .ok (sampleBuild "success") ∧
    (sampleBuild "success").Status = "success" ∧
    (activeDeployments (sampleDeploymentService.Create 1 "prod" 3 "ns1" "svc1" ""
      (dbWithDeployment "pending")).2 1 "prod").length =
      (activeDeployments (dbWithDeployment "pending") 1 "prod").length + 1 :=
  ⟨by decide, by decide,
   (deployment_create_ignores_active_deployments sampleDeploymentService {} {} rfl rfl
     (dbWithDeployment "pending") 1 (sampleBuild "success") (by decide) (by decide)
     "prod" 3 "ns1" "svc1" "").2.2⟩

/-- C9: on a DeploymentService whose build repository (and deployment
repository) is set, `Create` for a Build with status `success` appends exactly
one Deployment to the store, under a key no earlier Deployment has, and returns
it: its status is `pending`, it has no start or completion time, and its
BuildID, Environment, Replicas, Namespace, ServiceName and IngressHost are the
arguments. -/
theorem deployment_create_stores_pending_deployment (s : DeploymentService)
    (br : BuildRepository) (dr : DeploymentRepository) (hb : s.buildRepo = some br)
    (hd : s.deploymentRepo = some dr) (db : DB) (buildID : Nat) (build : Build)
    (hbuild : br.GetByID db buildID = .ok build) (hst : build.Status = "success")
    (environment : String) (replicas : Int) (ns serviceName ingressHost : String) :
    ∃ d : Deployment,
      s.Create buildID environment replicas ns serviceName ingressHost db =
        (.ok d, { db with deployments := db.deployments ++ [d] }) ∧
      (∀ x ∈ db.deployments, x.ID ≠ d.ID) ∧
      d.Status = "pending" ∧ d.BuildID = buildID ∧ d.Environment = environment ∧
      d.Replicas = replicas ∧ d.Namespace = ns ∧ d.ServiceName = serviceName ∧
      d.IngressHost = ingressHost ∧ d.StartedAt = none ∧ d.CompletedAt = none := by
  refine ⟨pendingDeployment (nextID (db.deployments.map (fun d => d.ID))) buildID environment
    replicas ns serviceName ingressHost, ?_, ?_, rfl, rfl, rfl, rfl, rfl, rfl, rfl, rfl, rfl⟩
  · exact DeploymentService_Create_ok s br dr hb hd db buildID build hbuild hst environment
      replicas ns serviceName ingressHost
  · intro x hx
    have := lt_nextID (db.deployments.map (fun d => d.ID)) x.ID (List.mem_map_of_mem _ hx)
    simp only [pendingDeployment]
    omega

/-- Witness for C9: `Create(1, "prod", 3, "ns1", "svc1", "")` on the successful
Build 1 records namespace `ns1` and 3 replicas. -/
theorem deployment_create_stores_pending_deployment_witness :
    BuildRepository.GetByID {} (dbWithBuild "success") 1 = .ok (sampleBuild "success") ∧
    (sampleBuild "success").Status = "success" ∧
    ∃ d : Deployment,
      sampleDeploymentService.Create 1 "prod" 3 "ns1" "svc1" "" (dbWithBuild "success") =
        (.ok d, { dbWithBuild "success" with
                    deployments := (dbWithBuild "success").deployments ++ [d] }) ∧
      (∀ x ∈ (dbWithBuild "success").deployments, x.ID ≠ d.ID) ∧
      d.Status = "pending" ∧ d.BuildID = 1 ∧ d.Environment = "prod" ∧
      d.Replicas = 3 ∧ d.Namespace = "ns1" ∧ d.ServiceName = "svc1" ∧
      d.IngressHost = "" ∧ d.StartedAt = none ∧ d.CompletedAt = none :=
  ⟨by decide, by decide,
   deployment_create_stores_pending_deployment sampleDeploymentService {} {} rfl rfl
     (dbWithBuild "success") 1 (sampleBuild "success") (by decide) (by decide)
     "prod" 3 "ns1" "svc1" ""⟩

theorem PipelineRepository_GetByID_absent (r : PipelineRepository) (db : DB) (id : Nat)
    (h : ∀ p ∈ db.pipelines, p.ID ≠ id) : ∃ e, r.GetByID db id = .error e := by
  unfold PipelineRepository.GetByID
  cases hon : db.online with
  | false => exact ⟨dbUnavailable, by simp⟩
  | true =>
    have hnone : db.pipelines.find? (fun p => p.ID == id && p.DeletedAt.isNone) = none := by
      rw [List.find?_eq_none]
      intro x hx
      simp [h x hx]
    exact ⟨recordNotFound, by simp [hnone]⟩

/-- C8: `BuildService.Create` returns the error "pipeline not found" and
leaves the store as it was when no pipeline has the given id; when the
pipeline exists it appends exactly one Build to the store, under a key no
earlier Build has, and returns it: its status is `pending`, its PipelineID,
CommitHash, Branch and Tag are the arguments, and it has no StartedAt or
CompletedAt. -/
theorem build_create_result (s : BuildService) (pr : PipelineRepository)
    (br : BuildRepository) (hp : s.pipelineRepo = some pr) (hb : s.buildRepo = some br)
    (db : DB) (pipelineID : Nat) (commitHash branch tag : String) (now : Time) :
    ((∀ p ∈ db.pipelines, p.ID ≠ pipelineID) →
      s.Create pipelineID commitHash branch tag now db = (.error "pipeline not found", db)) ∧
    (∀ p, pr.GetByID db pipelineID = .ok p →
      ∃ b : Build,
        s.Create pipelineID commitHash branch tag now db =
          (.ok b, { db with builds := db.builds ++ [b] }) ∧
        (∀ x ∈ db.builds, x.ID ≠ b.ID) ∧
        b.Status = "pending" ∧ b.PipelineID = pipelineID ∧ b.CommitHash = commitHash ∧
        b.Branch = branch ∧ b.Tag = tag ∧ b.StartedAt = none ∧ b.CompletedAt = none) := by
  constructor
  · intro habsent
    obtain ⟨e, he⟩ := PipelineRepository_GetByID_absent pr db pipelineID habsent
    exact BuildService_Create_missing s pr hp db pipelineID e he commitHash branch tag now
  · intro p hpipe
    refine ⟨pendingBuild (nextID (db.builds.map (fun b => b.ID))) pipelineID commitHash branch
      tag now, ?_, ?_, rfl, rfl, rfl, rfl, rfl, rfl, rfl⟩
    · exact BuildService_Create_ok s pr br hp hb db pipelineID p hpipe commitHash branch tag now
    · intro x hx
      have := lt_nextID (db.builds.map (fun b => b.ID)) x.ID (List.mem_map_of_mem _ hx)
      simp only [pendingBuild]
      omega

/-- Witness for C8: pipeline 7 does not exist, pipeline 1 does. -/
theorem build_create_result_witness :
    sampleBuildService.Create 7 "c0ffee" "main" "v1" sampleTime sampleDB =
      (.error "pipeline not found", sampleDB) ∧
    ∃ b : Build,
      sampleBuildService.Create 1 "c0ffee" "main" "v1" sampleTime sampleDB =
        (.ok b, { sampleDB with builds := sampleDB.builds ++ [b] }) ∧
      (∀ x ∈ sampleDB.builds, x.ID ≠ b.ID) ∧
      b.Status = "pending" ∧ b.PipelineID = 1 ∧ b.CommitHash = "c0ffee" ∧
      b.Branch = "main" ∧ b.Tag = "v1" ∧ b.StartedAt = none ∧ b.CompletedAt = none :=
  ⟨(build_create_result sampleBuildService {} {} rfl rfl sampleDB 7 "c0ffee" "main" "v1"
      sampleTime).1 (by decide),
   (build_create_result sampleBuildService {} {} rfl rfl sampleDB 1 "c0ffee" "main" "v1"
      sampleTime).2 samplePipeline (by decide)⟩

/-- The pipeline just appended under a fresh key is the one a lookup finds. -/
theorem PipelineRepository_GetByID_fresh (r : PipelineRepository) (db : DB)
    (pipeline : Pipeline) (hon : db.online = true)
    (hid : pipeline.ID = nextID (db.pipelines.map (fun p => p.ID)))
    (hdel : pipeline.DeletedAt = none) :
    r.GetByID { db with pipelines := db.pipelines ++ [pipeline] } pipeline.ID =
      .ok pipeline := by
  apply PipelineRepository_GetByID_of_find
  · exact hon
  · apply find?_append_fresh
    · intro x hx
      have := lt_nextID (db.pipelines.map (fun p => p.ID)) x.ID (List.mem_map_of_mem _ hx)
      have hne : x.ID ≠ pipeline.ID := by omega
      simp [hne]
    · simp [hdel]

/-- C10, counterexample: the pipeline `PipelineService.Create` has just stored
has status `inactive`, yet `BuildService.Create` for it is accepted and stores
a Build. -/
theorem build_create_accepted_for_inactive_pipeline :
    ((samplePipelineService.Create "api" "" "" 1 sampleDB).2.pipelines.map
      (fun p => (p.ID, p.Status))) = [(1, "inactive"), (2, "inactive")] ∧
    (sampleBuildService.Create 2 "c0ffee" "main" "v1" sampleTime
      (samplePipelineService.Create "api" "" "" 1 sampleDB).2).1.isOk = true ∧
    ((sampleBuildService.Create 2 "c0ffee" "main" "v1" sampleTime
      (samplePipelineService.Create "api" "" "" 1 sampleDB).2).2.builds.map
      (fun b => (b.PipelineID, b.Status))) = [(2, "pending")] := by
  decide

/-- C10, amended: `BuildService.Create` does not read the pipeline's status.
For every pipeline that `PipelineService.Create` stores (its status is
`inactive`), and whatever the commit, branch and tag, `BuildService.Create`
for that pipeline is accepted and appends one pending Build of it. -/
theorem build_create_ignores_pipeline_status (ps : PipelineService) (bs : BuildService)
    (pr : PipelineRepository) (jr : ProjectRepository) (br : BuildRepository)
    (hpp : ps.pipelineRepo = some pr) (hpj : ps.projectRepo = some jr)
    (hbp : bs.pipelineRepo = some pr) (hbb : bs.buildRepo = some br)
    (db : DB) (projectID : Nat) (j : Project) (hproj : jr.GetByID db projectID = .ok j)
    (name description config commitHash branch tag : String) (now : Time) :
    ∃ (p : Pipeline) (b : Build),
      (ps.Create name description config projectID db).1 = .ok p ∧
      p.Status = "inactive" ∧
      bs.Create p.ID commitHash branch tag now (ps.Create name description config projectID db).2
        = (.ok b, { (ps.Create name description config projectID db).2 with
                      builds := db.builds ++ [b] }) ∧
      b.PipelineID = p.ID ∧ b.Status = "pending" := by
  have hon : db.online = true := by
    unfold ProjectRepository.GetByID at hproj
    cases h : db.online with
    | true => rfl
    | false => simp [h] at hproj
  rw [PipelineService_Create_ok ps pr jr hpp hpj db projectID j hproj name description config]
  refine ⟨_, pendingBuild (nextID (db.builds.map (fun b : Build => b.ID)))
    (nextID (db.pipelines.map (fun p : Pipeline => p.ID))) commitHash branch tag now,
    rfl, rfl, ?_, rfl, rfl⟩
  have hget := PipelineRepository_GetByID_fresh pr db
    { ID := nextID (db.pipelines.map (fun p : Pipeline => p.ID)), Name := name,
      Description := description, ProjectID := projectID, Config := config,
      Status := "inactive", DeletedAt := none } hon rfl rfl
  exact BuildService_Create_ok bs pr br hbp hbb _ _ _ hget commitHash branch tag now

/-- Witness for the amended C10: a new pipeline of project 1. -/
theorem build_create_ignores_pipeline_status_witness :
    ProjectRepository.GetByID {} sampleDB 1 = .ok sampleProject ∧
    ∃ (p : Pipeline) (b : Build),
      (samplePipelineService.Create "api" "" "" 1 sampleDB).1 = .ok p ∧
      p.Status = "inactive" ∧
      sampleBuildService.Create p.ID "c0ffee" "main" "v1" sampleTime
          (samplePipelineService.Create "api" "" "" 1 sampleDB).2
        = (.ok b, { (samplePipelineService.Create "api" "" "" 1 sampleDB).2 with
                      builds := sampleDB.builds ++ [b] }) ∧
      b.PipelineID = p.ID ∧ b.Status = "pending" :=
  ⟨by decide,
   build_create_ignores_pipeline_status samplePipelineService sampleBuildService {} {} {}
     rfl rfl rfl rfl sampleDB 1 sampleProject (by decide) "api" "" "" "c0ffee" "main" "v1"
     sampleTime⟩

/-! ## Rollback -/

/-- With both names given, the adapter's first step is a Get request for the
workload. -/
theorem RollbackDeployment_requests (k : k8s.K8sService) (ns deploymentName : String)
    (nowUnix : Nat) (c : Cluster) (hns : ns ≠ "") (hname : deploymentName ≠ "") :
    ∃ rest, (k.RollbackDeployment ns deploymentName nowUnix c).2.requests =
      c.requests ++ ApiRequest.get ns deploymentName :: rest := by
  unfold k8s.K8sService.RollbackDeployment
  simp only [hns, hname, if_false]
  unfold Cluster.Get
  cases hreach : c.reachable with
  | false => exact ⟨[], by simp⟩
  | true =>
    simp only [if_true]
    cases hfind : c.workloads.find? (fun w => w.Namespace == ns && w.Name == deploymentName) with
    | none => exact ⟨[], by simp⟩
    | some w =>
      simp only
      unfold Cluster.Update
      simp only [hreach, if_true]
      split <;> rename_i heq
      · split at heq <;> simp at heq
      · split at heq
        · simp only [Prod.mk.injEq] at heq
          exact ⟨[ApiRequest.update ns w.Name], by rw [← heq.2]; simp⟩
        · simp only [Prod.mk.injEq] at heq
          exact ⟨[ApiRequest.update ns w.Name], by rw [← heq.2]; simp⟩
      · split at heq
        · simp only [Prod.mk.injEq] at heq
          exact ⟨[ApiRequest.update ns w.Name], by rw [← heq.2]; simp⟩
        · simp at heq

/-- C6, counterexample: Deployment 1 is `pending`, yet `Rollback` returns no
error and the cluster has received a Get and an Update request for its
workload. -/
theorem rollback_of_pending_deployment_reaches_cluster :
    DeploymentRepository.GetByID {} (dbWithDeployment "pending") 1 =
      .ok (sampleDeployment "pending") ∧
    (sampleDeployment "pending").Status ≠ "success" ∧
    (sampleDeploymentService.Rollback 1 1715941807
      { db := dbWithDeployment "pending", cluster := sampleCluster }).1 = .ok () ∧
    (sampleDeploymentService.Rollback 1 1715941807
      { db := dbWithDeployment "pending", cluster := sampleCluster }).2.cluster.requests =
      [ApiRequest.get "ns1" "svc1", ApiRequest.update "ns1" "svc1"] := by
  decide

/-- C6, amended: `DeploymentService.Rollback` does not read the Deployment's
status. It returns the lookup's error and leaves database and cluster as they
were when no Deployment has the id; for every existing Deployment, whatever its
status, it calls the cluster adapter's `RollbackDeployment` with the
Deployment's Namespace and ServiceName and returns that call's outcome, and
when both names are non-empty the cluster receives a Get request for that
workload. -/
theorem rollback_ignores_deployment_status (s : DeploymentService)
    (dr : DeploymentRepository) (ks : K8sService) (hd : s.deploymentRepo = some dr)
    (hk : s.k8sService = some ks) (w : World) (id nowUnix : Nat) :
    (∀ e, dr.GetByID w.db id = .error e → s.Rollback id nowUnix w = (.error e, w)) ∧
    (∀ d, dr.GetByID w.db id = .ok d →
      s.Rollback id nowUnix w =
        ((ks.embedded.RollbackDeployment d.Namespace d.ServiceName nowUnix w.cluster).1,
         { w with cluster :=
            (ks.embedded.RollbackDeployment d.Namespace d.ServiceName nowUnix w.cluster).2 }) ∧
      (d.Namespace ≠ "" → d.ServiceName ≠ "" →
        ∃ rest, (s.Rollback id nowUnix w).2.cluster.requests =
          w.cluster.requests ++ ApiRequest.get d.Namespace d.ServiceName :: rest)) := by
  constructor
  · intro e he
    unfold DeploymentService.Rollback
    simp only [hd, he]
  · intro d hdep
    have heq : s.Rollback id nowUnix w =
        ((ks.embedded.RollbackDeployment d.Namespace d.ServiceName nowUnix w.cluster).1,
         { w with cluster :=
            (ks.embedded.RollbackDeployment d.Namespace d.ServiceName nowUnix w.cluster).2 }) := by
      unfold DeploymentService.Rollback
      simp only [hd, hk, hdep]
    refine ⟨heq, ?_⟩
    intro hns hname
    rw [heq]
    exact RollbackDeployment_requests ks.embedded d.Namespace d.ServiceName nowUnix w.cluster
      hns hname

/-- Witness for the amended C6: Deployment 1 stored as `pending`. -/
theorem rollback_ignores_deployment_status_witness :
    DeploymentRepository.GetByID {} (dbWithDeployment "pending") 1 =
      .ok (sampleDeployment "pending") ∧
    ∃ rest, (sampleDeploymentService.Rollback 1 1715941807
        { db := dbWithDeployment "pending", cluster := sampleCluster }).2.cluster.requests =
      sampleCluster.requests ++ ApiRequest.get "ns1" "svc1" :: rest :=
  ⟨by decide,
   ((rollback_ignores_deployment_status sampleDeploymentService {} { embedded := {} } rfl rfl
      { db := dbWithDeployment "pending", cluster := sampleCluster } 1 1715941807).2
      (sampleDeployment "pending") (by decide)).2 (by decide) (by decide)⟩

/-! ## Image tags -/

theorem digitChar_inj (a b : Nat) (h : digitChar a = digitChar b) : a % 10 = b % 10 := by
  have key : ∀ x < 10, ∀ y < 10, Char.ofNat (48 + x) = Char.ofNat (48 + y) → x = y := by
    decide
  exact key (a % 10) (Nat.mod_lt _ (by decide)) (b % 10) (Nat.mod_lt _ (by decide)) h

theorem appendInt_two_inj (x y : Nat) (hx : x < 100) (hy : y < 100)
    (h : appendInt x 2 = appendInt y 2) : x = y := by
  simp only [appendInt, hx, hy, and_self, if_true, List.cons.injEq, and_true] at h
  have h1 := digitChar_inj _ _ h.1
  have h2 := digitChar_inj _ _ h.2
  omega

theorem appendInt_four_inj (x y : Nat) (hx : x < 10000) (hy : y < 10000)
    (h : appendInt x 4 = appendInt y 4) : x = y := by
  have h42 : ¬ (4 = 2) := by decide
  simp only [appendInt, hx, hy, h42, false_and, and_self, if_true, if_false, List.cons.injEq,
    and_true] at h
  have h1 := digitChar_inj _ _ h.1
  have h2 := digitChar_inj _ _ h.2.1
  have h3 := digitChar_inj _ _ h.2.2.1
  have h4 := digitChar_inj _ _ h.2.2.2
  omega

theorem appendInt_two_length (x : Nat) (hx : x < 100) : (appendInt x 2).length = 2 := by
  simp [appendInt, hx]

theorem appendInt_four_length (x : Nat) (hx : x < 10000) : (appendInt x 4).length = 4 := by
  simp [appendInt, hx]

/-- On readings of the clock, the layout is injective in the fields it prints. -/
theorem Format_inj (t1 t2 : Time) (h1 : t1.valid) (h2 : t2.valid)
    (h : t1.Format = t2.Format) :
    t1.year = t2.year ∧ t1.month = t2.month ∧ t1.day = t2.day ∧ t1.hour = t2.hour ∧
    t1.minute = t2.minute ∧ t1.second = t2.second := by
  obtain ⟨hy1, _, hm1, _, hd1, hh1, hmi1, hs1, _⟩ := h1
  obtain ⟨hy2, _, hm2, _, hd2, hh2, hmi2, hs2, _⟩ := h2
  unfold Time.Format at h
  have hl := congrArg String.data h
  simp only at hl
  have len2 : ∀ x y : Nat, x < 100 → y < 100 →
      (appendInt x 2).length = (appendInt y 2).length := by
    intro x y hx hy
    rw [appendInt_two_length x hx, appendInt_two_length y hy]
  obtain ⟨hl, hsec⟩ := List.append_inj' hl (len2 _ _ (by omega) (by omega))
  obtain ⟨hl, hmin⟩ := List.append_inj' hl (len2 _ _ (by omega) (by omega))
  obtain ⟨hl, hhour⟩ := List.append_inj' hl (len2 _ _ (by omega) (by omega))
  obtain ⟨hl, _⟩ := List.append_inj' hl rfl
  obtain ⟨hl, hday⟩ := List.append_inj' hl (len2 _ _ (by omega) (by omega))
  obtain ⟨hyear, hmonth⟩ := List.append_inj' hl (len2 _ _ (by omega) (by omega))
  exact ⟨appendInt_four_inj _ _ hy1 hy2 hyear,
    appendInt_two_inj _ _ (by omega) (by omega) hmonth,
    appendInt_two_inj _ _ (by omega) (by omega) hday,
    appendInt_two_inj _ _ (by omega) (by omega) hhour,
    appendInt_two_inj _ _ (by omega) (by omega) hmin,
    appendInt_two_inj _ _ (by omega) (by omega) hsec⟩

/-- The layout reads only the six fields it prints. -/
theorem Format_congr (t1 t2 : Time)
    (h : t1.year = t2.year ∧ t1.month = t2.month ∧ t1.day = t2.day ∧ t1.hour = t2.hour ∧
      t1.minute = t2.minute ∧ t1.second = t2.second) : t1.Format = t2.Format := by
  obtain ⟨a, b, c, d, e, f⟩ := h
  unfold Time.Format
  rw [a, b, c, d, e, f]

/-- A Build that `BuildService.Create` returns carries the formatted clock
reading as its image tag. -/
theorem BuildService_Create_imageTag (s : BuildService) (pipelineID : Nat)
    (commitHash branch tag : String) (now : Time) (db : DB) (b : Build)
    (h : (s.Create pipelineID commitHash branch tag now db).1 = .ok b) :
    b.ImageTag = now.Format := by
  cases hp : s.pipelineRepo with
  | none => simp [BuildService.Create, hp] at h
  | some pr =>
    cases hg : pr.GetByID db pipelineID with
    | panic => simp [BuildService.Create, hp, hg] at h
    | error e => simp [BuildService.Create, hp, hg] at h
    | ok p =>
      cases hb : s.buildRepo with
      | none => simp [BuildService.Create, hp, hg, hb] at h
      | some br =>
        rw [BuildService_Create_ok s pr br hp hb db pipelineID p hg] at h
        simp only [Result.ok.injEq] at h
        rw [← h]
        rfl

/-- C7, counterexample: two Builds of pipeline 1 created back to back within
one second (the clock readings differ by half a second) get different keys and
the same ImageTag. -/
theorem same_second_builds_share_image_tag :
    sampleTime ≠ sampleTimeLater ∧
    ((sampleBuildService.Create 1 "c0ffee" "main" "" sampleTimeLater
      (sampleBuildService.Create 1 "c0ffee" "main" "" sampleTime sampleDB).2).2.builds.map
      (fun b => (b.ID, b.ImageTag))) =
      [(1, "20240517-103007"), (2, "20240517-103007")] := by
  decide

/-- C7, amended: the ImageTag is the creation time printed as date and time of
day to the second, a function of the timestamp alone and not of the Build
identity. Two Builds returned by `BuildService.Create` (same pipeline or not)
have equal ImageTags exactly when their creation times agree in year, month,
day, hour, minute and second; Builds created within the same second share the
tag. -/
theorem image_tag_depends_on_second_only (s1 s2 : BuildService) (p1 p2 : Nat)
    (c1 c2 r1 r2 g1 g2 : String) (t1 t2 : Time) (db1 db2 : DB) (b1 b2 : Build)
    (hv1 : t1.valid) (hv2 : t2.valid)
    (h1 : (s1.Create p1 c1 r1 g1 t1 db1).1 = .ok b1)
    (h2 : (s2.Create p2 c2 r2 g2 t2 db2).1 = .ok b2) :
    b1.ImageTag = b2.ImageTag ↔
      (t1.year = t2.year ∧ t1.month = t2.month ∧ t1.day = t2.day ∧ t1.hour = t2.hour ∧
        t1.minute = t2.minute ∧ t1.second = t2.second) := by
  rw [BuildService_Create_imageTag s1 p1 c1 r1 g1 t1 db1 b1 h1,
    BuildService_Create_imageTag s2 p2 c2 r2 g2 t2 db2 b2 h2]
  exact ⟨Format_inj t1 t2 hv1 hv2, Format_congr t1 t2⟩

/-- Witness for the amended C7: two Builds created in the same second. -/
theorem image_tag_depends_on_second_only_witness :
    sampleTime.valid ∧ sampleTimeLater.valid ∧
    ((pendingBuild 1 1 "c0ffee" "main" "" sampleTime).ImageTag =
        (pendingBuild 2 1 "c0ffee" "main" "" sampleTimeLater).ImageTag ↔
      (sampleTime.year = sampleTimeLater.year ∧ sampleTime.month = sampleTimeLater.month ∧
        sampleTime.day = sampleTimeLater.day ∧ sampleTime.hour = sampleTimeLater.hour ∧
        sampleTime.minute = sampleTimeLater.minute ∧
        sampleTime.second = sampleTimeLater.second)) :=
  ⟨by decide, by decide,
   image_tag_depends_on_second_only sampleBuildService sampleBuildService 1 1
     "c0ffee" "c0ffee" "main" "main" "" "" sampleTime sampleTimeLater sampleDB
     (sampleBuildService.Create 1 "c0ffee" "main" "" sampleTime sampleDB).2
     (pendingBuild 1 1 "c0ffee" "main" "" sampleTime)
     (pendingBuild 2 1 "c0ffee" "main" "" sampleTimeLater)
     (by decide) (by decide) (by decide) (by decide)⟩

/-! ## Rollback and the Deployment record -/

/-- Whatever the service's fields and the adapter's outcome, `Rollback` hands
back the database it was given. -/
theorem DeploymentService_Rollback_db (s : DeploymentService) (id nowUnix : Nat) (w : World) :
    (s.Rollback id nowUnix w).2.db = w.db := by
  unfold DeploymentService.Rollback
  cases s.deploymentRepo with
  | none => rfl
  | some dr =>
    simp only
    cases dr.GetByID w.db id with
    | panic => rfl
    | error e => rfl
    | ok d =>
      simp only
      cases s.k8sService with
      | none => rfl
      | some ks => rfl

theorem deploymentStatus_of_GetByID (r : DeploymentRepository) (db : DB) (id : Nat)
    (d : Deployment) (h : r.GetByID db id = .ok d) : deploymentStatus db id = some d.Status := by
  unfold DeploymentRepository.GetByID at h
  unfold deploymentStatus
  cases hon : db.online with
  | false => simp [hon] at h
  | true =>
    simp only [hon, if_true] at h
    cases hf : db.deployments.find? (fun x => x.ID == id && x.DeletedAt.isNone) with
    | none => simp [hf] at h
    | some x =>
      simp only [hf, Result.ok.injEq] at h
      simp [h]

/-- C11, counterexample: Deployment 1 is in status `success` and the cluster
cannot be reached; `Rollback` returns an error, yet the stored status is
still `success`, not `failed`. When the cluster call succeeds the stored
status is `success` as well, and in neither run is `rolling_back` written. -/
theorem rollback_failure_leaves_status_success :
    deploymentStatus (dbWithDeployment "success") 1 = some "success" ∧
    (sampleDeploymentService.Rollback 1 1715941807
      { db := dbWithDeployment "success", cluster := unreachableCluster }).1.isError = true ∧
    deploymentStatus (sampleDeploymentService.Rollback 1 1715941807
      { db := dbWithDeployment "success", cluster := unreachableCluster }).2.db 1 =
        some "success" ∧
    (sampleDeploymentService.Rollback 1 1715941807
      { db := dbWithDeployment "success", cluster := sampleCluster }).1 = .ok () ∧
    deploymentStatus (sampleDeploymentService.Rollback 1 1715941807
      { db := dbWithDeployment "success", cluster := sampleCluster }).2.db 1 =
        some "success" := by
  decide

/-- C11, amended: `DeploymentService.Rollback` never writes the Deployment's
status. For every existing Deployment (in particular one in status `success`),
the stored status when `Rollback` returns is the status it had before the
call, both when the cluster adapter's rollback succeeded and when it returned
an error; the adapter's outcome is `Rollback`'s return value and nothing else
records it. -/
theorem rollback_keeps_stored_status (s : DeploymentService) (dr : DeploymentRepository)
    (ks : K8sService) (hd : s.deploymentRepo = some dr) (hk : s.k8sService = some ks)
    (w : World) (id nowUnix : Nat) (d : Deployment) (hdep : dr.GetByID w.db id = .ok d) :
    deploymentStatus (s.Rollback id nowUnix w).2.db id = some d.Status ∧
    (s.Rollback id nowUnix w).1 =
      (ks.embedded.RollbackDeployment d.Namespace d.ServiceName nowUnix w.cluster).1 := by
  constructor
  · rw [DeploymentService_Rollback_db]
    exact deploymentStatus_of_GetByID dr w.db id d hdep
  · unfold DeploymentService.Rollback
    simp only [hd, hk, hdep]

/-- Witness for the amended C11: Deployment 1 in status `success`, cluster
unreachable. -/
theorem rollback_keeps_stored_status_witness :
    DeploymentRepository.GetByID {} (dbWithDeployment "success") 1 =
      .ok (sampleDeployment "success") ∧
    deploymentStatus (sampleDeploymentService.Rollback 1 1715941807
      { db := dbWithDeployment "success", cluster := unreachableCluster }).2.db 1 =
        some "success" :=
  ⟨by decide,
   (rollback_keeps_stored_status sampleDeploymentService {} { embedded := {} } rfl rfl
     { db := dbWithDeployment "success", cluster := unreachableCluster } 1 1715941807
     (sampleDeployment "success") (by decide)).1⟩

/-- C12: for every deployment id, every service and every outcome of the
cluster call, the Deployment table after `Rollback` is the table before it:
no record is deleted and no field of any record changes. -/
theorem rollback_preserves_deployment_records (s : DeploymentService) (id nowUnix : Nat)
    (w : World) :
    (s.Rollback id nowUnix w).2.db.deployments = w.db.deployments := by
  rw [DeploymentService_Rollback_db]

/-! ## Lemmas on deployment status writes -/

theorem deploymentStatus_find (db : DB) (id : Nat) (st : String)
    (h : deploymentStatus db id = some st) :
    ∃ d, db.deployments.find? (fun x => x.ID == id && x.DeletedAt.isNone) = some d ∧
      d.Status = st := by
  unfold deploymentStatus at h
  cases hf : db.deployments.find? (fun x => x.ID == id && x.DeletedAt.isNone) with
  | none => simp [hf] at h
  | some d =>
    refine ⟨d, rfl, ?_⟩
    simpa [hf] using h

theorem DeploymentRepository_GetByID_spec (r : DeploymentRepository) (db : DB) (id : Nat)
    (d : Deployment) (h : r.GetByID db id = .ok d) :
    d ∈ db.deployments ∧ d.ID = id ∧ d.DeletedAt = none := by
  unfold DeploymentRepository.GetByID at h
  cases hon : db.online with
  | false => simp [hon] at h
  | true =>
    simp only [hon, if_true] at h
    cases hf : db.deployments.find? (fun x => x.ID == id && x.DeletedAt.isNone) with
    | none => simp [hf] at h
    | some x =>
      simp only [hf, Result.ok.injEq] at h
      subst h
      have hp := List.find?_some hf
      have hm := List.mem_of_find?_eq_some hf
      simp only [Bool.and_eq_true, beq_iff_eq, Option.isNone_iff_eq_none] at hp
      exact ⟨hm, hp.1, hp.2⟩

/-- The column update rewrites the addressed live deployment and no other. -/
theorem deploymentStatus_UpdateStatus (r : DeploymentRepository) (db : DB) (id : Nat)
    (status : String) (hon : db.online = true) (i : Nat) (st : String)
    (h : deploymentStatus db i = some st) :
    deploymentStatus (r.UpdateStatus db id status).2 i =
      some (if i = id then status else st) := by
  obtain ⟨d, hf, hst⟩ := deploymentStatus_find db i st h
  have hp := List.find?_some hf
  simp only [Bool.and_eq_true, beq_iff_eq, Option.isNone_iff_eq_none] at hp
  have hmap := find?_map_rewrite (fun x : Deployment => x.ID == i && x.DeletedAt.isNone)
    (fun x : Deployment => x.ID == id && x.DeletedAt.isNone)
    (fun x : Deployment => { x with Status := status }) db.deployments d hf
    (by intro y; split <;> rfl)
  unfold DeploymentRepository.UpdateStatus deploymentStatus
  simp only [hon, if_true]
  rw [hmap]
  by_cases hi : i = id
  · subst hi
    simp [hp.1, hp.2]
  · have hne : d.ID ≠ id := by rw [hp.1]; exact hi
    simp [hne, hi, hst]

/-- Saving a deployment whose key is live rewrites that row and no other. -/
theorem deploymentStatus_Update (r : DeploymentRepository) (db : DB)
    (deployment d0 : Deployment) (hd0 : r.GetByID db deployment.ID = .ok d0)
    (hdel : deployment.DeletedAt = none) (i : Nat) (st : String)
    (h : deploymentStatus db i = some st) :
    deploymentStatus (r.Update db deployment).2 i =
      some (if i = deployment.ID then deployment.Status else st) := by
  have hon := DeploymentRepository_GetByID_online r db deployment.ID d0 hd0
  obtain ⟨hm0, hid0, hdel0⟩ := DeploymentRepository_GetByID_spec r db deployment.ID d0 hd0
  obtain ⟨d, hf, hst⟩ := deploymentStatus_find db i st h
  have hp := List.find?_some hf
  simp only [Bool.and_eq_true, beq_iff_eq, Option.isNone_iff_eq_none] at hp
  have hany : db.deployments.any
      (fun x => x.ID == deployment.ID && x.DeletedAt.isNone) = true := by
    rw [List.any_eq_true]
    exact ⟨d0, hm0, by simp [hid0, hdel0]⟩
  have hmap := find?_map_rewrite (fun x : Deployment => x.ID == i && x.DeletedAt.isNone)
    (fun x : Deployment => x.ID == deployment.ID && x.DeletedAt.isNone)
    (fun _ : Deployment => deployment) db.deployments d hf
    (by
      intro y
      by_cases hq : (y.ID == deployment.ID && y.DeletedAt.isNone) = true
      · simp only [hq, if_true]
        simp only [Bool.and_eq_true, beq_iff_eq, Option.isNone_iff_eq_none] at hq
        simp [hq.1, hq.2, hdel]
      · simp only [hq]
        rfl)
  unfold DeploymentRepository.Update deploymentStatus
  simp only [hon, hany, if_true]
  rw [hmap]
  by_cases hi : i = deployment.ID
  · simp [hp.1, hp.2, hi]
  · have hne : d.ID ≠ deployment.ID := by rw [hp.1]; exact hi
    simp [hne, hi, hst]

theorem deploymentStatus_online (db : DB) (st : String) (i : Nat)
    (h : deploymentStatus db i = some st) (r : DeploymentRepository) :
    db.online = true → (r.GetByID db i).isOk = true := by
  intro hon
  obtain ⟨d, hf, _⟩ := deploymentStatus_find db i st h
  rw [DeploymentRepository_GetByID_of_find r db i d hon hf]
  rfl

theorem DeploymentService_StartDeployment_status (s : DeploymentService)
    (dr : DeploymentRepository) (hd : s.deploymentRepo = some dr) (db : DB) (id : Nat)
    (now : Time) (i : Nat) (st : String) (h : deploymentStatus db i = some st) :
    deploymentStatus (s.StartDeployment id now db).2 i =
      some (if i = id ∧ (dr.GetByID db id).isOk = true then "running" else st) := by
  unfold DeploymentService.StartDeployment
  simp only [hd]
  cases hg : dr.GetByID db id with
  | panic => simp [Result.isOk, h]
  | error e => simp [Result.isOk, h]
  | ok d =>
    obtain ⟨_, hid, hdel⟩ := DeploymentRepository_GetByID_spec dr db id d hg
    have hg2 : dr.GetByID db
        ({ d with Status := "running", StartedAt := some now } : Deployment).ID = .ok d := by
      simpa [hid] using hg
    have := deploymentStatus_Update dr db { d with Status := "running", StartedAt := some now }
      d hg2 hdel i st h
    simpa [Result.isOk, hid] using this

theorem DeploymentService_CompleteDeployment_status (s : DeploymentService)
    (dr : DeploymentRepository) (hd : s.deploymentRepo = some dr) (db : DB) (id : Nat)
    (status : String) (now : Time) (i : Nat) (st : String)
    (h : deploymentStatus db i = some st) :
    deploymentStatus (s.CompleteDeployment id status now db).2 i =
      some (if i = id ∧ (dr.GetByID db id).isOk = true then status else st) := by
  unfold DeploymentService.CompleteDeployment
  simp only [hd]
  cases hg : dr.GetByID db id with
  | panic => simp [Result.isOk, h]
  | error e => simp [Result.isOk, h]
  | ok d =>
    obtain ⟨_, hid, hdel⟩ := DeploymentRepository_GetByID_spec dr db id d hg
    have hg2 : dr.GetByID db
        ({ d with Status := status, CompletedAt := some now } : Deployment).ID = .ok d := by
      simpa [hid] using hg
    have := deploymentStatus_Update dr db { d with Status := status, CompletedAt := some now }
      d hg2 hdel i st h
    simpa [Result.isOk, hid] using this

/-- C20, counterexample: `CancelDeployment` on Deployment 1 stored as `success`
leaves it `cancelled` (and likewise from `failed`); `StartDeployment` moves a
pending Deployment to `running`, which is no state of the machine. -/
theorem cancel_deployment_overwrites_success :
    deploymentStatus (sampleDeploymentService.CancelDeployment 1
      (dbWithDeployment "success")).2 1 = some "cancelled" ∧
    deploymentStatus (sampleDeploymentService.CancelDeployment 1
      (dbWithDeployment "failed")).2 1 = some "cancelled" ∧
    deploymentEdge "success" "cancelled" = false ∧
    deploymentEdge "failed" "cancelled" = false ∧
    deploymentStatus (sampleDeploymentService.StartDeployment 1 sampleTime
      (dbWithDeployment "pending")).2 1 = some "running" ∧
    "running" ∉ deploymentStates := by
  decide

/-- C20, amended: no `DeploymentService` operation checks the pair (status
before, status after). For every operation and every existing Deployment, the
stored status after the operation is the text the operation writes when it
addresses that Deployment (`running` for `StartDeployment`, `cancelled` for
`CancelDeployment`, the caller's status for `CompleteDeployment` and
`UpdateStatus`) and is unchanged otherwise; in particular `CancelDeployment`
on a Deployment in `success` or `failed` leaves it `cancelled`. -/
theorem deployment_op_status_after (s : DeploymentService) (dr : DeploymentRepository)
    (hd : s.deploymentRepo = some dr) (db : DB) (hon : db.online = true) (now : Time)
    (op : DeploymentOp) (id : Nat) (st : String) (h : deploymentStatus db id = some st) :
    deploymentStatus (op.run s now db) id = some (op.statusAfter id st) := by
  have hok := deploymentStatus_online db st id h dr hon
  cases op with
  | startDeployment target =>
    have := DeploymentService_StartDeployment_status s dr hd db target now id st h
    simp only [DeploymentOp.run, DeploymentOp.statusAfter, DeploymentOp.writes]
    rw [this]
    by_cases hi : id = target
    · subst hi; simp [hok]
    · simp [hi]
  | completeDeployment target status =>
    have := DeploymentService_CompleteDeployment_status s dr hd db target status now id st h
    simp only [DeploymentOp.run, DeploymentOp.statusAfter, DeploymentOp.writes]
    rw [this]
    by_cases hi : id = target
    · subst hi; simp [hok]
    · simp [hi]
  | cancelDeployment target =>
    simp only [DeploymentOp.run, DeploymentOp.statusAfter, DeploymentOp.writes,
      DeploymentService.CancelDeployment, hd]
    exact deploymentStatus_UpdateStatus dr db target "cancelled" hon id st h
  | updateStatus target status =>
    simp only [DeploymentOp.run, DeploymentOp.statusAfter, DeploymentOp.writes,
      DeploymentService.UpdateStatus, hd]
    exact deploymentStatus_UpdateStatus dr db target status hon id st h

/-- Witness for the amended C20: `CancelDeployment` on Deployment 1 stored as
`success`. -/
theorem deployment_op_status_after_witness :
    deploymentStatus (dbWithDeployment "success") 1 = some "success" ∧
    deploymentStatus ((DeploymentOp.cancelDeployment 1).run sampleDeploymentService sampleTime
      (dbWithDeployment "success")) 1 = some "cancelled" :=
  ⟨by decide,
   deployment_op_status_after sampleDeploymentService {} rfl (dbWithDeployment "success") rfl
     sampleTime (DeploymentOp.cancelDeployment 1) 1 "success" (by decide)⟩

/-! ## Build logs -/

/-- The column update of the log rewrites the addressed live row. -/
theorem BuildRepository_UpdateLogs_get (r : BuildRepository) (db : DB) (id : Nat)
    (logs : String) (b : Build) (h : r.GetByID db id = .ok b) :
    r.GetByID (r.UpdateLogs db id logs).2 id = .ok { b with Logs := logs } := by
  have hon := BuildRepository_GetByID_online r db id b h
  have hf := BuildRepository_GetByID_find r db id b h
  obtain ⟨_, hid, hdel⟩ := BuildRepository_GetByID_spec r db id b h
  have hmap := find?_map_rewrite (fun x : Build => x.ID == id && x.DeletedAt.isNone)
    (fun x : Build => x.ID == id && x.DeletedAt.isNone)
    (fun x : Build => { x with Logs := logs }) db.builds b hf
    (by intro y; split <;> rfl)
  apply BuildRepository_GetByID_of_find
  · unfold BuildRepository.UpdateLogs
    simp [hon]
  · unfold BuildRepository.UpdateLogs
    simp only [hon, if_true]
    rw [hmap]
    simp [hid, hdel]

/-- Saving a record whose key is live makes it the row a lookup finds. -/
theorem BuildRepository_Update_get (r : BuildRepository) (db : DB) (build b0 : Build)
    (hb0 : r.GetByID db build.ID = .ok b0) (hdel : build.DeletedAt = none) :
    r.GetByID (r.Update db build).2 build.ID = .ok build := by
  have hon := BuildRepository_GetByID_online r db build.ID b0 hb0
  have hf := BuildRepository_GetByID_find r db build.ID b0 hb0
  obtain ⟨hm0, hid0, hdel0⟩ := BuildRepository_GetByID_spec r db build.ID b0 hb0
  have hany : db.builds.any (fun x => x.ID == build.ID && x.DeletedAt.isNone) = true := by
    rw [List.any_eq_true]
    exact ⟨b0, hm0, by simp [hid0, hdel0]⟩
  have hmap := find?_map_rewrite (fun x : Build => x.ID == build.ID && x.DeletedAt.isNone)
    (fun x : Build => x.ID == build.ID && x.DeletedAt.isNone)
    (fun _ : Build => build) db.builds b0 hf
    (by
      intro y
      cases hq : (y.ID == build.ID && y.DeletedAt.isNone) with
      | true =>
        simp only [Bool.and_eq_true, beq_iff_eq, Option.isNone_iff_eq_none] at hq
        simp [hq.1, hq.2, hdel]
      | false => simp [hq])
  apply BuildRepository_GetByID_of_find
  · unfold BuildRepository.Update
    simp [hon, hany]
  · unfold BuildRepository.Update
    simp only [hon, hany, if_true]
    rw [hmap]
    simp [hid0, hdel0]

theorem buildLogs_of_GetByID (r : BuildRepository) (db : DB) (id : Nat) (b : Build)
    (h : r.GetByID db id = .ok b) : buildLogs db id = some b.Logs := by
  unfold buildLogs
  rw [BuildRepository_GetByID_find r db id b h]
  rfl

/-- C18, counterexample: Build 1 has the log "clone ok, build step 1";
`UpdateLogs` with the text "build step 2" leaves exactly that text, of which
the earlier log is no prefix, and `CompleteBuild` with the log "done" does the
same. -/
theorem update_logs_replaces_stored_log :
    buildLogs dbWithLogs 1 = some "clone ok\nbuild step 1\n" ∧
    buildLogs (sampleBuildService.UpdateLogs 1 "build step 2\n" dbWithLogs).2 1 =
      some "build step 2\n" ∧
    logPrefix "clone ok\nbuild step 1\n" "build step 2\n" = false ∧
    buildLogs (sampleBuildService.CompleteBuild 1 "success" "done" "shop" sampleTime
      dbWithLogs).2 1 = some "done" ∧
    logPrefix "clone ok\nbuild step 1\n" "done" = false := by
  decide

/-- C18, amended: `UpdateLogs` and `CompleteBuild` replace the stored log.
For every existing Build and every text, the log stored after
`UpdateLogs(id, logs)` and after `CompleteBuild(id, status, logs, imageName)`
is exactly `logs`, whatever was stored before and whatever its length: the
earlier log survives only if the caller passes it again, and no byte cap is
applied. -/
theorem build_log_is_replaced (s : BuildService) (br : BuildRepository)
    (hb : s.buildRepo = some br) (db : DB) (id : Nat) (b : Build)
    (hbuild : br.GetByID db id = .ok b) (logs : String) :
    buildLogs (s.UpdateLogs id logs db).2 id = some logs ∧
    (∀ status imageName now,
      buildLogs (s.CompleteBuild id status logs imageName now db).2 id = some logs) := by
  obtain ⟨_, hid, hdel⟩ := BuildRepository_GetByID_spec br db id b hbuild
  constructor
  · unfold BuildService.UpdateLogs
    simp only [hb]
    rw [buildLogs_of_GetByID br _ id _ (BuildRepository_UpdateLogs_get br db id logs b hbuild)]
  · intro status imageName now
    unfold BuildService.CompleteBuild
    simp only [hb, hbuild]
    have hg2 : br.GetByID db
        ({ b with Status := status, CompletedAt := some now,
                  Logs := logs, ImageName := imageName } : Build).ID = .ok b := by
      simpa [hid] using hbuild
    have := BuildRepository_Update_get br db
      { b with Status := status, CompletedAt := some now,
               Logs := logs, ImageName := imageName } b hg2 hdel
    have hlogs := buildLogs_of_GetByID br _ _ _ this
    simpa [hid] using hlogs

/-- Witness for the amended C18: Build 1 with two logged lines. -/
theorem build_log_is_replaced_witness :
    BuildRepository.GetByID {} dbWithLogs 1 =
      .ok { sampleBuild "running" with Logs := "clone ok\nbuild step 1\n" } ∧
    buildLogs (sampleBuildService.UpdateLogs 1 "build step 2\n" dbWithLogs).2 1 =
      some "build step 2\n" :=
  ⟨by decide,
   (build_log_is_replaced sampleBuildService {} rfl dbWithLogs 1
     { sampleBuild "running" with Logs := "clone ok\nbuild step 1\n" } (by decide)
     "build step 2\n").1⟩

/-! ## The Pipeline table is outside every execution write -/

theorem BuildRepository_Create_pipelines (r : BuildRepository) (db : DB) (b : Build) :
    (r.Create db b).2.pipelines = db.pipelines := by
  unfold BuildRepository.Create
  simp only
  split_ifs <;> rfl

theorem BuildRepository_Update_pipelines (r : BuildRepository) (db : DB) (b : Build) :
    (r.Update db b).2.pipelines = db.pipelines := by
  unfold BuildRepository.Update
  simp only
  split_ifs <;> rfl

theorem BuildRepository_UpdateStatus_pipelines (r : BuildRepository) (db : DB) (id : Nat)
    (status : String) : (r.UpdateStatus db id status).2.pipelines = db.pipelines := by
  unfold BuildRepository.UpdateStatus
  split <;> rfl

theorem BuildRepository_UpdateLogs_pipelines (r : BuildRepository) (db : DB) (id : Nat)
    (logs : String) : (r.UpdateLogs db id logs).2.pipelines = db.pipelines := by
  unfold BuildRepository.UpdateLogs
  split <;> rfl

theorem DeploymentRepository_Create_pipelines (r : DeploymentRepository) (db : DB)
    (d : Deployment) : (r.Create db d).2.pipelines = db.pipelines := by
  unfold DeploymentRepository.Create
  simp only
  split_ifs <;> rfl

theorem DeploymentRepository_Update_pipelines (r : DeploymentRepository) (db : DB)
    (d : Deployment) : (r.Update db d).2.pipelines = db.pipelines := by
  unfold DeploymentRepository.Update
  simp only
  split_ifs <;> rfl

theorem DeploymentRepository_UpdateStatus_pipelines (r : DeploymentRepository) (db : DB)
    (id : Nat) (status : String) : (r.UpdateStatus db id status).2.pipelines = db.pipelines := by
  unfold DeploymentRepository.UpdateStatus
  split <;> rfl

theorem BuildService_Create_pipelines (s : BuildService) (pipelineID : Nat)
    (commitHash branch tag : String) (now : Time) (db : DB) :
    (s.Create pipelineID commitHash branch tag now db).2.pipelines = db.pipelines := by
  unfold BuildService.Create
  cases s.pipelineRepo with
  | none => rfl
  | some pr =>
    simp only
    cases pr.GetByID db pipelineID with
    | panic => rfl
    | error e => rfl
    | ok p =>
      simp only
      cases s.buildRepo with
      | none => rfl
      | some br =>
        simp only
        have h := BuildRepository_Create_pipelines br db
          { ID := 0, PipelineID := pipelineID, CommitHash := commitHash, Branch := branch,
            Tag := tag, Status := "pending", Logs := "", ImageName := "",
            ImageTag := now.Format, StartedAt := none, CompletedAt := none, DeletedAt := none }
        revert h
        generalize br.Create db _ = res
        intro h
        obtain ⟨r1, db1⟩ := res
        cases r1 <;> exact h

theorem BuildService_StartBuild_pipelines (s : BuildService) (id : Nat) (now : Time) (db : DB) :
    (s.StartBuild id now db).2.pipelines = db.pipelines := by
  unfold BuildService.StartBuild
  cases s.buildRepo with
  | none => rfl
  | some br =>
    simp only
    cases br.GetByID db id with
    | panic => rfl
    | error e => rfl
    | ok b => exact BuildRepository_Update_pipelines br db _

theorem BuildService_CompleteBuild_pipelines (s : BuildService) (id : Nat)
    (status logs imageName : String) (now : Time) (db : DB) :
    (s.CompleteBuild id status logs imageName now db).2.pipelines = db.pipelines := by
  unfold BuildService.CompleteBuild
  cases s.buildRepo with
  | none => rfl
  | some br =>
    simp only
    cases br.GetByID db id with
    | panic => rfl
    | error e => rfl
    | ok b => exact BuildRepository_Update_pipelines br db _

theorem DeploymentService_Create_pipelines (s : DeploymentService) (buildID : Nat)
    (environment : String) (replicas : Int) (ns serviceName ingressHost : String) (db : DB) :
    (s.Create buildID environment replicas ns serviceName ingressHost db).2.pipelines =
      db.pipelines := by
  unfold DeploymentService.Create
  cases s.buildRepo with
  | none => rfl
  | some br =>
    simp only
    cases br.GetByID db buildID with
    | panic => rfl
    | error e => rfl
    | ok b =>
      simp only
      split
      · rfl
      · cases s.deploymentRepo with
        | none => rfl
        | some dr =>
          simp only
          have h := DeploymentRepository_Create_pipelines dr db
            { ID := 0, BuildID := buildID, Environment := environment, Status := "pending",
              Replicas := replicas, Namespace := ns, ServiceName := serviceName,
              IngressHost := ingressHost, StartedAt := none, CompletedAt := none,
              DeletedAt := none }
          revert h
          generalize dr.Create db _ = res
          intro h
          obtain ⟨r1, db1⟩ := res
          cases r1 <;> exact h

theorem DeploymentService_StartDeployment_pipelines (s : DeploymentService) (id : Nat)
    (now : Time) (db : DB) : (s.StartDeployment id now db).2.pipelines = db.pipelines := by
  unfold DeploymentService.StartDeployment
  cases s.deploymentRepo with
  | none => rfl
  | some dr =>
    simp only
    cases dr.GetByID db id with
    | panic => rfl
    | error e => rfl
    | ok d => exact DeploymentRepository_Update_pipelines dr db _

theorem DeploymentService_CompleteDeployment_pipelines (s : DeploymentService) (id : Nat)
    (status : String) (now : Time) (db : DB) :
    (s.CompleteDeployment id status now db).2.pipelines = db.pipelines := by
  unfold DeploymentService.CompleteDeployment
  cases s.deploymentRepo with
  | none => rfl
  | some dr =>
    simp only
    cases dr.GetByID db id with
    | panic => rfl
    | error e => rfl
    | ok d => exact DeploymentRepository_Update_pipelines dr db _

/-- C19: no execution operation mutates a Pipeline. For every store, every
build and deployment service and every call of `BuildService.Create`,
`StartBuild`, `CompleteBuild`, `CancelBuild`, `UpdateStatus`, `UpdateLogs` and
of `DeploymentService.Create`, `StartDeployment`, `CompleteDeployment`,
`CancelDeployment`, `Rollback`, the Pipeline table after the call is the table
before it, so every Pipeline keeps its name, description, project, config and
status. -/
theorem execution_leaves_pipelines_unchanged (bs : BuildService) (ds : DeploymentService)
    (now : Time) (nowUnix : Nat) (w : World) (op : ExecOp) :
    (op.run bs ds now nowUnix w).db.pipelines = w.db.pipelines := by
  cases op with
  | buildCreate pipelineID commitHash branch tag =>
    exact BuildService_Create_pipelines bs pipelineID commitHash branch tag now w.db
  | startBuild id => exact BuildService_StartBuild_pipelines bs id now w.db
  | completeBuild id status logs imageName =>
    exact BuildService_CompleteBuild_pipelines bs id status logs imageName now w.db
  | cancelBuild id =>
    simp only [ExecOp.run, BuildService.CancelBuild]
    cases bs.buildRepo with
    | none => rfl
    | some br => exact BuildRepository_UpdateStatus_pipelines br w.db id "cancelled"
  | buildUpdateStatus id status =>
    simp only [ExecOp.run, BuildService.UpdateStatus]
    cases bs.buildRepo with
    | none => rfl
    | some br => exact BuildRepository_UpdateStatus_pipelines br w.db id status
  | updateLogs id logs =>
    simp only [ExecOp.run, BuildService.UpdateLogs]
    cases bs.buildRepo with
    | none => rfl
    | some br => exact BuildRepository_UpdateLogs_pipelines br w.db id logs
  | deploymentCreate buildID environment replicas ns serviceName ingressHost =>
    exact DeploymentService_Create_pipelines ds buildID environment replicas ns serviceName
      ingressHost w.db
  | startDeployment id => exact DeploymentService_StartDeployment_pipelines ds id now w.db
  | completeDeployment id status =>
    exact DeploymentService_CompleteDeployment_pipelines ds id status now w.db
  | cancelDeployment id =>
    simp only [ExecOp.run, DeploymentService.CancelDeployment]
    cases ds.deploymentRepo with
    | none => rfl
    | some dr => exact DeploymentRepository_UpdateStatus_pipelines dr w.db id "cancelled"
  | rollback id =>
    simp only [ExecOp.run]
    rw [DeploymentService_Rollback_db]

/-! ## The cluster adapter: rollback and deploy -/

/-- C13, counterexample: `svc1` runs the image of 17 May and its previous
revision holds the image of 16 May; `RollbackDeployment` succeeds and the
workload still runs the image of 17 May. -/
theorem rollback_deployment_keeps_current_image :
    rolledForwardCluster.previousImages "ns1" "svc1" = some ["shop:20240516-091500"] ∧
    rolledForwardCluster.images "ns1" "svc1" = some ["shop:20240517-103007"] ∧
    (k8s.K8sService.RollbackDeployment {} "ns1" "svc1" 1715941807 rolledForwardCluster).1 =
      .ok () ∧
    (k8s.K8sService.RollbackDeployment {} "ns1" "svc1" 1715941807
      rolledForwardCluster).2.images "ns1" "svc1" = some ["shop:20240517-103007"] ∧
    (k8s.K8sService.RollbackDeployment {} "ns1" "svc1" 1715941807
      rolledForwardCluster).2.annotationValue "ns1" "svc1"
        "kubectl.kubernetes.io/restartedAt" = some "1715941807" := by
  decide

/-- After `m[key] = value` the map holds `value` under `key`. -/
theorem setKey_find (m : List (String × String)) (key value : String) :
    ((setKey m key value).find? (fun kv => kv.1 == key)).map (fun kv => kv.2) =
      some value := by
  unfold setKey
  cases hany : m.any (fun kv => kv.1 == key) with
  | true =>
    simp only [if_true]
    induction m with
    | nil => simp at hany
    | cons a l ih =>
      cases ha : (a.1 == key) with
      | true => simp [List.find?, ha]
      | false =>
        have hl : l.any (fun kv => kv.1 == key) = true := by
          simpa [List.any_cons, ha] using hany
        simp only [List.map_cons, ha, Bool.false_eq_true, if_false, List.find?_cons]
        exact ih hl
  | false =>
    have hnone : m.find? (fun kv => kv.1 == key) = none := by
      rw [List.find?_eq_none]
      intro x hx hxk
      have : m.any (fun kv => kv.1 == key) = true := List.any_eq_true.2 ⟨x, hx, hxk⟩
      rw [hany] at this
      exact Bool.noConfusion this
    simp [List.find?_append, hnone]

/-- Assignment `m[key] = value` leaves the value under every other key. -/
theorem setKey_find_other (m : List (String × String)) (key value other : String)
    (hne : other ≠ key) :
    (setKey m key value).find? (fun kv => kv.1 == other) =
      m.find? (fun kv => kv.1 == other) := by
  have hko : (key == other) = false := by
    simpa using fun h : key = other => hne h.symm
  unfold setKey
  cases hany : m.any (fun kv => kv.1 == key) with
  | true =>
    simp only [if_true]
    clear hany
    induction m with
    | nil => rfl
    | cons a l ih =>
      cases ha : (a.1 == key) with
      | true =>
        have hak : a.1 = key := by simpa using ha
        have hao : (a.1 == other) = false := by rw [hak]; exact hko
        simp only [List.map_cons, ha, if_true, List.find?_cons, hko, hao]
        exact ih
      | false =>
        simp only [List.map_cons, ha, Bool.false_eq_true, if_false, List.find?_cons]
        cases hao : (a.1 == other) with
        | true => rfl
        | false => exact ih
  | false =>
    simp [List.find?_append, hko]

/-- The shape of a successful `RollbackDeployment`: the workload was found and
every workload under its namespace and name now is the found one with the
restart annotation stamped; the history is untouched. -/
theorem RollbackDeployment_ok (k : k8s.K8sService) (ns deploymentName : String)
    (nowUnix : Nat) (c : Cluster)
    (hok : (k.RollbackDeployment ns deploymentName nowUnix c).1 = .ok ()) :
    ∃ w, c.workloads.find? (fun x => x.Namespace == ns && x.Name == deploymentName) = some w ∧
      (k.RollbackDeployment ns deploymentName nowUnix c).2.workloads =
        c.workloads.map (fun x =>
          if x.Namespace == ns && x.Name == deploymentName then
            { w with TemplateAnnotations := some (setKey (w.TemplateAnnotations.getD [])
                "kubectl.kubernetes.io/restartedAt" (toString nowUnix)) }
          else x) ∧
      (k.RollbackDeployment ns deploymentName nowUnix c).2.history = c.history := by
  unfold k8s.K8sService.RollbackDeployment at hok ⊢
  by_cases hns : ns = ""
  · simp [hns] at hok
  by_cases hname : deploymentName = ""
  · simp [hns, hname] at hok
  simp only [hns, hname, if_false] at hok ⊢
  unfold Cluster.Get at hok ⊢
  cases hreach : c.reachable with
  | false => simp [hreach] at hok
  | true =>
    simp only [hreach, if_true] at hok ⊢
    cases hfind : c.workloads.find? (fun x => x.Namespace == ns && x.Name == deploymentName) with
    | none => simp [hfind] at hok
    | some w =>
      have hp := List.find?_some hfind
      simp only [Bool.and_eq_true, beq_iff_eq] at hp
      have hex : ∃ x ∈ c.workloads, x.Namespace = ns ∧ x.Name = deploymentName :=
        ⟨w, List.mem_of_find?_eq_some hfind, hp.1, hp.2⟩
      refine ⟨w, rfl, ?_, ?_⟩
      · simp [Cluster.Update, hreach, hp.2, hex]
      · simp [Cluster.Update, hreach, hp.2, hex]

/-- C13, amended: `RollbackDeployment` does not read the revision history. A
successful call leaves the workload's containers, and so every container
image, exactly as they were when the call started; what it changes is the pod
template annotation `kubectl.kubernetes.io/restartedAt`, which it sets to the
current Unix time (a restart of the current revision); every other annotation
of the pod template and the revision history are left as they were. -/
theorem rollback_deployment_restarts_current_revision (k : k8s.K8sService)
    (ns deploymentName : String) (nowUnix : Nat) (c : Cluster)
    (hok : (k.RollbackDeployment ns deploymentName nowUnix c).1 = .ok ()) :
    (c.containers ns deploymentName).isSome = true ∧
    (k.RollbackDeployment ns deploymentName nowUnix c).2.containers ns deploymentName =
      c.containers ns deploymentName ∧
    (k.RollbackDeployment ns deploymentName nowUnix c).2.images ns deploymentName =
      c.images ns deploymentName ∧
    (k.RollbackDeployment ns deploymentName nowUnix c).2.history = c.history ∧
    (k.RollbackDeployment ns deploymentName nowUnix c).2.annotationValue ns deploymentName
      "kubectl.kubernetes.io/restartedAt" = some (toString nowUnix) ∧
    (∀ key : String, key ≠ "kubectl.kubernetes.io/restartedAt" →
      (k.RollbackDeployment ns deploymentName nowUnix c).2.annotationValue ns deploymentName
        key = c.annotationValue ns deploymentName key) := by
  obtain ⟨w, hfind, hwork, hhist⟩ := RollbackDeployment_ok k ns deploymentName nowUnix c hok
  have hp := List.find?_some hfind
  simp only [Bool.and_eq_true, beq_iff_eq] at hp
  have hmap := find?_map_rewrite
    (fun x : Workload => x.Namespace == ns && x.Name == deploymentName)
    (fun x : Workload => x.Namespace == ns && x.Name == deploymentName)
    (fun _ : Workload =>
      { w with TemplateAnnotations := some (setKey (w.TemplateAnnotations.getD [])
          "kubectl.kubernetes.io/restartedAt" (toString nowUnix)) })
    c.workloads w hfind
    (by
      intro y
      cases hq : (y.Namespace == ns && y.Name == deploymentName) with
      | true =>
        simp only [Bool.and_eq_true, beq_iff_eq] at hq
        simp [hp.1, hp.2, hq.1, hq.2]
      | false => simp [hq])
  have hcont : (k.RollbackDeployment ns deploymentName nowUnix c).2.containers ns
      deploymentName = c.containers ns deploymentName := by
    unfold Cluster.containers
    rw [hwork, hmap, hfind]
    simp [hp.1, hp.2]
  refine ⟨?_, hcont, ?_, hhist, ?_, ?_⟩
  · unfold Cluster.containers
    simp [hfind]
  · unfold Cluster.images
    rw [hcont]
  · unfold Cluster.annotationValue
    rw [hwork, hmap]
    simp only [hp.1, hp.2, beq_self_eq_true, Bool.and_self, if_true, Option.getD_some]
    exact setKey_find _ _ _
  · intro key hkey
    unfold Cluster.annotationValue
    rw [hwork, hmap, hfind]
    simp only [hp.1, hp.2, beq_self_eq_true, Bool.and_self, if_true, Option.getD_some]
    rw [setKey_find_other _ _ _ key hkey]

/-- Witness for the amended C13: the rolled-forward cluster keeps its image
and carries the restart stamp. -/
theorem rollback_deployment_restarts_current_revision_witness :
    (k8s.K8sService.RollbackDeployment {} "ns1" "svc1" 1715941807 rolledForwardCluster).1 =
      .ok () ∧
    (k8s.K8sService.RollbackDeployment {} "ns1" "svc1" 1715941807
      rolledForwardCluster).2.images "ns1" "svc1" = rolledForwardCluster.images "ns1" "svc1" ∧
    (k8s.K8sService.RollbackDeployment {} "ns1" "svc1" 1715941807
      rolledForwardCluster).2.annotationValue "ns1" "svc1"
        "kubectl.kubernetes.io/restartedAt" = some "1715941807" :=
  ⟨by decide,
   (rollback_deployment_restarts_current_revision {} "ns1" "svc1" 1715941807
     rolledForwardCluster (by decide)).2.2.1,
   (rollback_deployment_restarts_current_revision {} "ns1" "svc1" 1715941807
     rolledForwardCluster (by decide)).2.2.2.2.1.trans (by decide)⟩

/-- With accepted options, `Deploy` is the Create request for the object built
from them: the cluster afterwards is the cluster after that request. -/
theorem Deploy_submits (k : k8s.K8sService) (opts : k8s.DeploymentOptions) (c : Cluster)
    (hacc : opts.accepted) :
    (k.Deploy opts c).2 = (c.Create opts.Namespace (k8s.deploymentObject opts)).2 ∧
    ((k.Deploy opts c).1.isOk = (c.Create opts.Namespace (k8s.deploymentObject opts)).1.isOk) := by
  obtain ⟨h1, h2, h3, h4⟩ := hacc
  unfold k8s.K8sService.Deploy
  simp only [h1, h2, h3, h4, if_false]
  generalize c.Create opts.Namespace (k8s.deploymentObject opts) = res
  obtain ⟨r, c1⟩ := res
  cases r <;> exact ⟨rfl, rfl⟩

/-- The outcome of `Deploy` with accepted options, by the cluster's answer to
its one Create request: unreachable, object refused by validation, name in
use, or created. -/
theorem Deploy_cases (k : k8s.K8sService) (opts : k8s.DeploymentOptions) (c : Cluster)
    (hacc : opts.accepted) :
    k.Deploy opts c =
      if c.reachable = true then
        if (k8s.deploymentObject opts).admissible = false then
          (.error
            "failed to create deployment: invalid: selector does not match template labels",
           { c with requests := c.requests ++
              [ApiRequest.create opts.Namespace opts.Name] })
        else if c.has opts.Namespace opts.Name = true then
          (.error "failed to create deployment: already exists",
           { c with requests := c.requests ++
              [ApiRequest.create opts.Namespace opts.Name] })
        else
          (.ok (),
           { c with requests := c.requests ++ [ApiRequest.create opts.Namespace opts.Name],
                    workloads := c.workloads ++ [k8s.deploymentObject opts] })
      else
        (.error "failed to create deployment: cluster unreachable",
         { c with requests := c.requests ++ [ApiRequest.create opts.Namespace opts.Name] }) := by
  obtain ⟨h1, h2, h3, h4⟩ := hacc
  have hname : (k8s.deploymentObject opts).Name = opts.Name := rfl
  unfold k8s.K8sService.Deploy Cluster.Create Cluster.has
  simp only [h1, h2, h3, h4, if_false, hname]
  cases hreach : c.reachable with
  | false => simp only [Bool.false_eq_true, if_false]; rfl
  | true =>
    simp only [if_true]
    cases hadm : (k8s.deploymentObject opts).admissible with
    | false => simp only [Bool.not_false, if_true]; rfl
    | true =>
      simp only [Bool.not_true, Bool.false_eq_true, if_false, Bool.true_eq_false]
      cases hhas : c.workloads.any
          (fun x => x.Namespace == opts.Namespace && x.Name == opts.Name) with
      | true => simp only [if_true]; rfl
      | false => simp only [Bool.false_eq_true, if_false]

/-- Every `Deploy` with accepted options sends exactly one request, the Create
for its (namespace, name). -/
theorem Deploy_requests (k : k8s.K8sService) (opts : k8s.DeploymentOptions) (c : Cluster)
    (hacc : opts.accepted) :
    (k.Deploy opts c).2.requests =
      c.requests ++ [ApiRequest.create opts.Namespace opts.Name] := by
  rw [Deploy_cases k opts c hacc]
  split_ifs <;> rfl

/-- A `Deploy` that returns nil found the cluster reachable and the
(namespace, name) free, and added the object it built. -/
theorem Deploy_of_ok (k : k8s.K8sService) (opts : k8s.DeploymentOptions) (c : Cluster)
    (hacc : opts.accepted) (hok : (k.Deploy opts c).1 = .ok ()) :
    c.reachable = true ∧ c.has opts.Namespace opts.Name = false ∧
    (k.Deploy opts c).2.workloads = c.workloads ++ [k8s.deploymentObject opts] := by
  rw [Deploy_cases k opts c hacc] at hok ⊢
  split_ifs at hok ⊢ with hreach hadm hhas
  exact ⟨hreach, by simpa using hhas, rfl⟩

/-- A `Deploy` that does not return nil returns an error that starts with
"failed to create deployment: " and leaves every workload as it was. -/
theorem Deploy_of_failed (k : k8s.K8sService) (opts : k8s.DeploymentOptions) (c : Cluster)
    (hacc : opts.accepted) (hfail : (k.Deploy opts c).1 ≠ .ok ()) :
    (∃ e, (k.Deploy opts c).1 = .error ("failed to create deployment: " ++ e)) ∧
    (k.Deploy opts c).2.workloads = c.workloads := by
  rw [Deploy_cases k opts c hacc] at hfail ⊢
  split_ifs at hfail ⊢ with hreach hadm hhas
  · exact ⟨⟨"invalid: selector does not match template labels", rfl⟩, rfl⟩
  · exact ⟨⟨"already exists", rfl⟩, rfl⟩
  · exact absurd rfl hfail
  · exact ⟨⟨"cluster unreachable", rfl⟩, rfl⟩

/-- `Deploy` with accepted options onto a (namespace, name) in use does not
return nil. -/
theorem Deploy_taken (k : k8s.K8sService) (opts : k8s.DeploymentOptions) (c : Cluster)
    (hacc : opts.accepted) (htaken : c.has opts.Namespace opts.Name = true) :
    (k.Deploy opts c).1 ≠ .ok () := by
  intro hok
  have h := (Deploy_of_ok k opts c hacc hok).2.1
  rw [htaken] at h
  exact Bool.noConfusion h

/-- After a `Deploy` that returned nil, a workload holds its (namespace, name). -/
theorem Deploy_then_taken (k : k8s.K8sService) (opts : k8s.DeploymentOptions) (c : Cluster)
    (hacc : opts.accepted) (hok : (k.Deploy opts c).1 = .ok ()) :
    (k.Deploy opts c).2.has opts.Namespace opts.Name = true := by
  have hname : (k8s.deploymentObject opts).Name = opts.Name := rfl
  have hns : (k8s.deploymentObject opts).Namespace = opts.Namespace := rfl
  unfold Cluster.has
  rw [(Deploy_of_ok k opts c hacc hok).2.2]
  simp [hname, hns]

/-- C15, counterexample: the first `Deploy` of `svc1` succeeds; a second
`Deploy` with the identical options fails, and so does a `Deploy` with a
changed spec (new tag, five replicas), which leaves the workload with its old
image and three replicas. -/
theorem second_deploy_fails :
    (k8s.K8sService.Deploy {} sampleOptions emptyCluster).1 = .ok () ∧
    (k8s.K8sService.Deploy {} sampleOptions
      (k8s.K8sService.Deploy {} sampleOptions emptyCluster).2).1 =
        .error "failed to create deployment: already exists" ∧
    (k8s.K8sService.Deploy {} changedOptions
      (k8s.K8sService.Deploy {} sampleOptions emptyCluster).2).1 =
        .error "failed to create deployment: already exists" ∧
    (k8s.K8sService.Deploy {} changedOptions
      (k8s.K8sService.Deploy {} sampleOptions emptyCluster).2).2.images "ns1" "svc1" =
        some ["shop:20240517-103007"] ∧
    ((k8s.K8sService.Deploy {} changedOptions
      (k8s.K8sService.Deploy {} sampleOptions emptyCluster).2).2.workloads.map
        (fun w => w.Replicas)) = [3] := by
  decide

/-- C15, amended: `Deploy` only creates. For every accepted DeploymentOptions
and every cluster, `Deploy` sends one Create request for the object it builds
and no other request, and it returns nil exactly when the cluster accepts that
Create. When it returns nil, the (namespace, name) was free and the object it
built was added; when it does not, it returns an error that starts with
"failed to create deployment: " and every workload is as it was, which is the
case whenever a workload already has the (namespace, name). Hence after a
`Deploy` that returned nil, a second `Deploy`, with the identical options or
with a changed spec for the same (namespace, name), fails and leaves the
workloads as the first call left them: nothing is updated in place. -/
theorem deploy_only_creates (k : k8s.K8sService) (opts : k8s.DeploymentOptions) (c : Cluster)
    (hacc : opts.accepted) :
    (k.Deploy opts c).2.requests =
      c.requests ++ [ApiRequest.create opts.Namespace opts.Name] ∧
    (k.Deploy opts c).1.isOk = (c.Create opts.Namespace (k8s.deploymentObject opts)).1.isOk ∧
    ((k.Deploy opts c).1 = .ok () →
      c.has opts.Namespace opts.Name = false ∧
      (k.Deploy opts c).2.workloads = c.workloads ++ [k8s.deploymentObject opts]) ∧
    ((k.Deploy opts c).1 ≠ .ok () →
      (∃ e, (k.Deploy opts c).1 = .error ("failed to create deployment: " ++ e)) ∧
      (k.Deploy opts c).2.workloads = c.workloads) ∧
    (c.has opts.Namespace opts.Name = true → (k.Deploy opts c).1 ≠ .ok ()) ∧
    ((k.Deploy opts c).1 = .ok () →
      ∀ opts2 : k8s.DeploymentOptions, opts2.accepted →
        opts2.Namespace = opts.Namespace → opts2.Name = opts.Name →
        (∃ e, (k.Deploy opts2 (k.Deploy opts c).2).1 =
          .error ("failed to create deployment: " ++ e)) ∧
        (k.Deploy opts2 (k.Deploy opts c).2).2.workloads =
          (k.Deploy opts c).2.workloads) := by
  refine ⟨Deploy_requests k opts c hacc, (Deploy_submits k opts c hacc).2, ?_,
    Deploy_of_failed k opts c hacc, Deploy_taken k opts c hacc, ?_⟩
  · intro hok
    exact (Deploy_of_ok k opts c hacc hok).2
  · intro hok opts2 hacc2 hns hname
    have htaken := Deploy_then_taken k opts c hacc hok
    rw [← hns, ← hname] at htaken
    exact Deploy_of_failed k opts2 (k.Deploy opts c).2 hacc2
      (Deploy_taken k opts2 (k.Deploy opts c).2 hacc2 htaken)

/-- Witness for the amended C15: after `svc1` is deployed into an empty
cluster, a `Deploy` with a changed spec fails and leaves the workloads. -/
theorem deploy_only_creates_witness :
    sampleOptions.accepted ∧
    (k8s.K8sService.Deploy {} sampleOptions emptyCluster).1 = .ok () ∧
    (∃ e, (k8s.K8sService.Deploy {} changedOptions
      (k8s.K8sService.Deploy {} sampleOptions emptyCluster).2).1 =
        .error ("failed to create deployment: " ++ e)) ∧
    (k8s.K8sService.Deploy {} changedOptions
      (k8s.K8sService.Deploy {} sampleOptions emptyCluster).2).2.workloads =
      (k8s.K8sService.Deploy {} sampleOptions emptyCluster).2.workloads :=
  ⟨by decide, by decide,
   (deploy_only_creates {} sampleOptions emptyCluster (by decide)).2.2.2.2.2 (by decide)
     changedOptions (by decide) rfl rfl⟩

/-! ## The image builder: validation -/

/-- The two progress loops return the same error and hang on the same streams. -/
theorem buildLoop_eq_logsLoop (body : List docker.DecodeEvent) (logs : String) :
    docker.buildLoop body = (docker.logsLoop logs body).map Prod.snd := by
  induction body generalizing logs with
  | nil => rfl
  | cons ev rest ih =>
    cases ev with
    | message p =>
      by_cases hp : p.Error = ""
      · simp only [docker.buildLoop, docker.logsLoop, hp, ne_eq, not_true_eq_false, if_false]
        exact ih _
      · simp only [docker.buildLoop, docker.logsLoop, hp, ne_eq, not_false_eq_true, if_true]
        rfl
    | skipped =>
      simp only [docker.buildLoop, docker.logsLoop]
      exact ih logs
    | broken => rfl

/-- On every input the two build methods return the same error (or both never
return) and make the same external calls. -/
theorem BuildImage_eq_BuildImageWithLogs (s : docker.DockerService)
    (opts : docker.BuildOptions) (d : docker.Daemon) :
    (s.BuildImage opts d).1 = (s.BuildImageWithLogs opts d).1.map Prod.snd ∧
    (s.BuildImage opts d).2 = (s.BuildImageWithLogs opts d).2 := by
  unfold docker.DockerService.BuildImage docker.DockerService.BuildImageWithLogs
  by_cases h1 : opts.ContextDir = ""
  · simp [h1, Run.map]
  by_cases h2 : opts.ImageName = ""
  · simp [h1, h2, Run.map]
  by_cases h3 : opts.ImageTag = ""
  · simp [h1, h2, h3, Run.map]
  simp only [h1, h2, h3, if_false]
  cases d.tarError with
  | some e => simp [Run.map]
  | none =>
    cases d.buildError with
    | some e => simp [Run.map]
    | none => exact ⟨buildLoop_eq_logsLoop d.body "", rfl⟩

/-- C14: for every BuildOptions in which ContextDir, ImageName or ImageTag is
empty, `BuildImage` and `BuildImageWithLogs` both return an error and leave the
outside world as it was: no external call is made, so no build-context archive
is created and the client's ImageBuild is not invoked. On every input the two
methods return the same error or both return none, after the same external
calls, so they reject exactly the same inputs. -/
theorem build_rejects_empty_fields_before_any_call (s : docker.DockerService)
    (opts : docker.BuildOptions) (d : docker.Daemon)
    (h : opts.ContextDir = "" ∨ opts.ImageName = "" ∨ opts.ImageTag = "") :
    (∃ e, s.BuildImage opts d = (.returns (some e), d)) ∧
    (∃ e, s.BuildImageWithLogs opts d = (.returns ("", some e), d)) ∧
    (∀ (opts2 : docker.BuildOptions) (d2 : docker.Daemon),
      (s.BuildImage opts2 d2).1 = (s.BuildImageWithLogs opts2 d2).1.map Prod.snd ∧
      (s.BuildImage opts2 d2).2 = (s.BuildImageWithLogs opts2 d2).2) := by
  refine ⟨?_, ?_, fun opts2 d2 => BuildImage_eq_BuildImageWithLogs s opts2 d2⟩
  · unfold docker.DockerService.BuildImage
    by_cases h1 : opts.ContextDir = ""
    · exact ⟨"context directory is required", by simp [h1]⟩
    by_cases h2 : opts.ImageName = ""
    · exact ⟨"image name is required", by simp [h1, h2]⟩
    by_cases h3 : opts.ImageTag = ""
    · exact ⟨"image tag is required", by simp [h1, h2, h3]⟩
    · rcases h with h | h | h <;> contradiction
  · unfold docker.DockerService.BuildImageWithLogs
    by_cases h1 : opts.ContextDir = ""
    · exact ⟨"context directory is required", by simp [h1]⟩
    by_cases h2 : opts.ImageName = ""
    · exact ⟨"image name is required", by simp [h1, h2]⟩
    by_cases h3 : opts.ImageTag = ""
    · exact ⟨"image tag is required", by simp [h1, h2, h3]⟩
    · rcases h with h | h | h <;> contradiction

/-- Witness for C14: options with an empty image tag. -/
theorem build_rejects_empty_fields_before_any_call_witness :
    untaggedOptions.ImageTag = "" ∧
    (∃ e, docker.DockerService.BuildImage {} untaggedOptions idleDaemon =
      (.returns (some e), idleDaemon)) ∧
    (∃ e, docker.DockerService.BuildImageWithLogs {} untaggedOptions idleDaemon =
      (.returns ("", some e), idleDaemon)) :=
  ⟨rfl,
   (build_rejects_empty_fields_before_any_call {} untaggedOptions idleDaemon
     (Or.inr (Or.inr rfl))).1,
   (build_rejects_empty_fields_before_any_call {} untaggedOptions idleDaemon
     (Or.inr (Or.inr rfl))).2.1⟩

/-! ## The source adapter: cleanup -/

theorem atOrUnder_self (p : String) : git.atOrUnder p p = true := by
  simp [git.atOrUnder]

/-- A path that had to stay once has to stay again: what pins it is kept. -/
theorem pinned_after_removal (fs : git.FileSystem) (path q : String)
    (h : fs.pinned q = true) :
    (git.FileSystem.mk (fs.paths.filter (fun x => !git.atOrUnder path x || fs.pinned x))
      fs.locked).pinned q = true := by
  unfold git.FileSystem.pinned at h ⊢
  rw [List.any_eq_true] at h ⊢
  obtain ⟨l, hl, hcond⟩ := h
  refine ⟨l, ?_, hcond⟩
  simp only [List.mem_filter]
  refine ⟨hl, ?_⟩
  have hlocked : fs.locked.contains l = true := by
    simp only [Bool.and_eq_true] at hcond
    exact hcond.1
  have hpin : fs.pinned l = true := by
    unfold git.FileSystem.pinned
    rw [List.any_eq_true]
    refine ⟨l, hl, ?_⟩
    rw [Bool.and_eq_true]
    exact ⟨hlocked, atOrUnder_self l⟩
  rw [Bool.or_eq_true]
  exact Or.inr hpin

/-- Removing a tree a second time changes nothing more. -/
theorem RemoveAll_idempotent (path : String) (fs : git.FileSystem) :
    (git.RemoveAll path (git.RemoveAll path fs).2).2 = (git.RemoveAll path fs).2 := by
  unfold git.RemoveAll
  by_cases hp : path = ""
  · simp [hp]
  by_cases hd : git.endsWithDot path = true
  · simp [hp, hd]
  simp only [hp, hd, if_false, Bool.false_eq_true]
  congr 1
  rw [List.filter_eq_self]
  intro q hq
  simp only [List.mem_filter] at hq
  obtain ⟨_, hkeep⟩ := hq
  simp only [Bool.or_eq_true, Bool.not_eq_true'] at hkeep ⊢
  rcases hkeep with hout | hpin
  · exact Or.inl hout
  · exact Or.inr (pinned_after_removal fs path q hpin)

/-- C16, counterexample: the working copy holds a pack index the process
cannot remove; after `Cleanup` of the working-copy path the path itself, its
`.git` directory and the pack index all remain at or under it. -/
theorem cleanup_leaves_unremovable_entries :
    (sampleGitService.Cleanup "/tmp/ys-cloud-repos/shop-4711" lockedCopyFS).paths =
      ["/tmp/ys-cloud-repos", "/tmp/ys-cloud-repos/shop-4711",
       "/tmp/ys-cloud-repos/shop-4711/.git",
       "/tmp/ys-cloud-repos/shop-4711/.git/pack-1.idx"] ∧
    ((sampleGitService.Cleanup "/tmp/ys-cloud-repos/shop-4711" lockedCopyFS).paths.filter
      (fun q => git.atOrUnder "/tmp/ys-cloud-repos/shop-4711" q)).length = 3 ∧
    (git.RemoveAll "/tmp/ys-cloud-repos/shop-4711" lockedCopyFS).1 =
      some "permission denied" := by
  decide

/-- C16, amended: `Cleanup` always returns and is idempotent: for every path
and file system, calling it twice leaves the state one call leaves; `Cleanup`
of a path with nothing at or under it and `Cleanup("")` change nothing; and
after `Cleanup(p)` with non-empty `p` nothing remains at or under `p` whenever
`os.RemoveAll` reported no error. When the removal reports an error, `Cleanup`
only logs it and what could not be removed stays. -/
theorem cleanup_idempotent_and_complete_without_error (s : git.GitService) (p : String)
    (fs : git.FileSystem) :
    s.Cleanup p (s.Cleanup p fs) = s.Cleanup p fs ∧
    ((∀ q ∈ fs.paths, git.atOrUnder p q = false) → s.Cleanup p fs = fs) ∧
    s.Cleanup "" fs = fs ∧
    (p ≠ "" → (git.RemoveAll p fs).1 = none →
      ∀ q ∈ (s.Cleanup p fs).paths, git.atOrUnder p q = false) := by
  refine ⟨?_, ?_, ?_, ?_⟩
  · unfold git.GitService.Cleanup
    by_cases hp : p = ""
    · simp [hp]
    · simp only [ne_eq, hp, not_false_eq_true, if_true]
      exact RemoveAll_idempotent p fs
  · intro hnone
    unfold git.GitService.Cleanup git.RemoveAll
    by_cases hp : p = ""
    · simp [hp]
    by_cases hd : git.endsWithDot p = true
    · simp [hp, hd]
    simp only [ne_eq, hp, not_false_eq_true, if_true, hd, if_false, Bool.false_eq_true]
    have hself : fs.paths.filter (fun q => !git.atOrUnder p q || fs.pinned q) = fs.paths := by
      rw [List.filter_eq_self]
      intro q hq
      simp [hnone q hq]
    rw [hself]
  · simp [git.GitService.Cleanup]
  · intro hp herr q hq
    unfold git.GitService.Cleanup at hq
    unfold git.RemoveAll at herr hq
    by_cases hd : git.endsWithDot p = true
    · simp [hp, hd] at herr
    simp only [ne_eq, hp, not_false_eq_true, if_true, hd, if_false, Bool.false_eq_true] at herr hq
    cases hany : (fs.paths.filter (fun q => !git.atOrUnder p q || fs.pinned q)).any
        (fun q => git.atOrUnder p q) with
    | true => simp [hany] at herr
    | false =>
      rw [List.any_eq_false] at hany
      have := hany q hq
      simpa using this

/-- Witness for the amended C16: a working copy that is removable throughout. -/
theorem cleanup_idempotent_and_complete_without_error_witness :
    (git.RemoveAll "/tmp/ys-cloud-repos/shop-4711" workingCopyFS).1 = none ∧
    ∀ q ∈ (sampleGitService.Cleanup "/tmp/ys-cloud-repos/shop-4711" workingCopyFS).paths,
      git.atOrUnder "/tmp/ys-cloud-repos/shop-4711" q = false :=
  ⟨by decide,
   (cleanup_idempotent_and_complete_without_error sampleGitService
     "/tmp/ys-cloud-repos/shop-4711" workingCopyFS).2.2.2 (by decide) (by decide)⟩

/-! ## The source adapter: working-copy paths -/

/-- A successful `Clone` reports the working-copy path computed from the URL
and the process id. -/
theorem Clone_RepoPath (s : git.GitService) (repoURL branch tag username password : String)
    (pid : Nat) (w : git.GitWorld) (g : git.GitRepo)
    (h : (s.Clone repoURL branch tag username password pid w).1 = .ok g) :
    g.RepoPath = s.repoPath repoURL pid := by
  unfold git.GitService.Clone at h
  simp only at h
  generalize git.PlainClone (s.repoPath repoURL pid) repoURL _ w = res at h
  obtain ⟨r, w1⟩ := res
  cases r with
  | panic => simp at h
  | error e => simp at h
  | ok repo =>
    simp only at h
    generalize s.getCommitHash repo _ = hash at h
    cases hash with
    | panic => simp at h
    | error e => simp at h
    | ok commitHash =>
      simp only [Result.ok.injEq] at h
      rw [← h]

/-- C17, counterexample: process 4711 clones team A's and team B's `shop.git`
for two Builds. Both calls compute the working-copy path
`/tmp/ys-cloud-repos/shop-4711`: with a cleanup in between both succeed and
report that same RepoPath; without it the second call fails and removes the
first Build's working copy. -/
theorem clones_in_one_process_share_path :
    firstClone.1 = .ok { URL := "https://git.example/team-a/shop.git", Branch := "main",
                         Tag := "", Commit := "a1b2c3",
                         RepoPath := "/tmp/ys-cloud-repos/shop-4711" } ∧
    (sampleGitService.Clone "https://git.example/team-b/shop.git" "main" "" "ci" "secret" 4711
      worldAfterCleanup).1 =
        .ok { URL := "https://git.example/team-b/shop.git", Branch := "main", Tag := "",
              Commit := "d4e5f6", RepoPath := "/tmp/ys-cloud-repos/shop-4711" } ∧
    (sampleGitService.Clone "https://git.example/team-b/shop.git" "main" "" "ci" "secret" 4711
      firstClone.2).1 = .error "failed to clone repository: repository already exists" ∧
    (sampleGitService.Clone "https://git.example/team-b/shop.git" "main" "" "ci" "secret" 4711
      firstClone.2).2.fs.paths = ["/tmp/ys-cloud-repos"] := by
  decide

/-- C17, amended: the working-copy path is the service's temp dir joined with
`<name>-<pid>`, where `<name>` is the URL's base name without `.git`; it does
not depend on the Build, the branch, the tag, the credentials or the state of
the world. So two successful `Clone` calls made by one process for URLs with
the same base name, in particular for the same URL, report the same
RepoPath. -/
theorem clone_path_from_name_and_pid (s : git.GitService) (pid : Nat)
    (url1 url2 branch1 branch2 tag1 tag2 user1 user2 pass1 pass2 : String)
    (w1 w2 : git.GitWorld) (g1 g2 : git.GitRepo)
    (h1 : (s.Clone url1 branch1 tag1 user1 pass1 pid w1).1 = .ok g1)
    (h2 : (s.Clone url2 branch2 tag2 user2 pass2 pid w2).1 = .ok g2)
    (hname : git.trimSuffix (git.filepathBase url1) ".git" =
      git.trimSuffix (git.filepathBase url2) ".git") :
    g1.RepoPath = git.filepathJoin s.tempDir
      (git.trimSuffix (git.filepathBase url1) ".git" ++ "-" ++ toString pid) ∧
    g1.RepoPath = g2.RepoPath := by
  have e1 := Clone_RepoPath s url1 branch1 tag1 user1 pass1 pid w1 g1 h1
  have e2 := Clone_RepoPath s url2 branch2 tag2 user2 pass2 pid w2 g2 h2
  refine ⟨e1, ?_⟩
  rw [e1, e2]
  unfold git.GitService.repoPath
  simp only [hname]

/-- Witness for the amended C17: the two `shop.git` clones of process 4711. -/
theorem clone_path_from_name_and_pid_witness :
    git.trimSuffix (git.filepathBase "https://git.example/team-a/shop.git") ".git" =
      git.trimSuffix (git.filepathBase "https://git.example/team-b/shop.git") ".git" ∧
    (git.GitRepo.mk "https://git.example/team-a/shop.git" "main" "" "a1b2c3"
      "/tmp/ys-cloud-repos/shop-4711").RepoPath =
    (git.GitRepo.mk "https://git.example/team-b/shop.git" "main" "" "d4e5f6"
      "/tmp/ys-cloud-repos/shop-4711").RepoPath :=
  ⟨by decide,
   (clone_path_from_name_and_pid sampleGitService 4711
     "https://git.example/team-a/shop.git" "https://git.example/team-b/shop.git"
     "main" "main" "" "" "ci" "ci" "secret" "secret" sampleGitWorld worldAfterCleanup
     (git.GitRepo.mk "https://git.example/team-a/shop.git" "main" "" "a1b2c3"
       "/tmp/ys-cloud-repos/shop-4711")
     (git.GitRepo.mk "https://git.example/team-b/shop.git" "main" "" "d4e5f6"
       "/tmp/ys-cloud-repos/shop-4711")
     (by decide) (by decide) (by decide)).2⟩

/-! ## The object `Deploy` submits -/

/-- C21: for every DeploymentOptions accepted by `Deploy`, the one container of
the object it submits carries exactly `opts.Resources` when that is set, and
otherwise the defaults: requests cpu 100m and memory 128Mi, limits cpu 500m
and memory 512Mi, in which each request is no greater than its limit. -/
theorem deploy_container_resources (k : k8s.K8sService) (opts : k8s.DeploymentOptions)
    (c : Cluster) (hacc : opts.accepted) :
    (k.Deploy opts c).2 = (c.Create opts.Namespace (k8s.deploymentObject opts)).2 ∧
    (∃ cont : Container, (k8s.deploymentObject opts).Containers = [cont] ∧
      (∀ r, opts.Resources = some r → cont.Resources = r) ∧
      (opts.Resources = none →
        cont.Resources.Requests = { cpu := some 100, memory := some (128 * 1024 * 1024) } ∧
        cont.Resources.Limits = { cpu := some 500, memory := some (512 * 1024 * 1024) } ∧
        cont.Resources.consistent = true)) := by
  refine ⟨(Deploy_submits k opts c hacc).1, ?_⟩
  refine ⟨_, rfl, ?_, ?_⟩
  · intro r hr
    simp [hr]
  · intro hnone
    simp only [hnone]
    exact ⟨rfl, rfl, by decide⟩

/-- Witness for C21: the sample options, which set no resources. -/
theorem deploy_container_resources_witness :
    sampleOptions.accepted ∧ sampleOptions.Resources = none ∧
    ((k8s.deploymentObject sampleOptions).Containers.map (fun k => k.Resources)) =
      [{ Requests := { cpu := some 100, memory := some 134217728 },
         Limits := { cpu := some 500, memory := some 536870912 } }] ∧
    (k8s.K8sService.Deploy {} sampleOptions emptyCluster).2 =
      (emptyCluster.Create "ns1" (k8s.deploymentObject sampleOptions)).2 :=
  ⟨by decide, rfl, by decide,
   (deploy_container_resources {} sampleOptions emptyCluster (by decide)).1⟩

/-- C22: for every DeploymentOptions accepted by `Deploy`, the object it
submits has replica count `opts.Replicas` when that is positive and 1
otherwise, its one container exposes the TCP port `opts.Port` when that is
positive and 8080 otherwise, and the liveness and the readiness probe are both
HTTP GETs of the path `/health` on that same port. -/
theorem deploy_replicas_port_probes (k : k8s.K8sService) (opts : k8s.DeploymentOptions)
    (c : Cluster) (hacc : opts.accepted) :
    (k.Deploy opts c).2 = (c.Create opts.Namespace (k8s.deploymentObject opts)).2 ∧
    (k8s.deploymentObject opts).Replicas = (if 0 < opts.Replicas then opts.Replicas else 1) ∧
    (∃ cont : Container, (k8s.deploymentObject opts).Containers = [cont] ∧
      cont.Ports = [{ Port := if 0 < opts.Port then opts.Port else 8080, Protocol := "TCP" }] ∧
      cont.LivenessProbe =
        some { Path := "/health", Port := if 0 < opts.Port then opts.Port else 8080,
               InitialDelaySeconds := 30, PeriodSeconds := 10 } ∧
      cont.ReadinessProbe =
        some { Path := "/health", Port := if 0 < opts.Port then opts.Port else 8080,
               InitialDelaySeconds := 5, PeriodSeconds := 5 }) := by
  have hrep : (if opts.Replicas ≤ 0 then (1 : Int) else opts.Replicas) =
      (if 0 < opts.Replicas then opts.Replicas else 1) := by
    by_cases h : opts.Replicas ≤ 0
    · have h2 : ¬ (0 < opts.Replicas) := by omega
      simp [h, h2]
    · have h2 : 0 < opts.Replicas := by omega
      simp [h, h2]
  have hport : (if opts.Port ≤ 0 then (8080 : Int) else opts.Port) =
      (if 0 < opts.Port then opts.Port else 8080) := by
    by_cases h : opts.Port ≤ 0
    · have h2 : ¬ (0 < opts.Port) := by omega
      simp [h, h2]
    · have h2 : 0 < opts.Port := by omega
      simp [h, h2]
  refine ⟨(Deploy_submits k opts c hacc).1, ?_, ?_⟩
  · simp only [k8s.deploymentObject]
    exact hrep
  · refine ⟨_, rfl, ?_, ?_, ?_⟩ <;> simp only [hport]

/-- Witness for C22: the sample options, with three replicas and no port. -/
theorem deploy_replicas_port_probes_witness :
    sampleOptions.accepted ∧
    (k8s.deploymentObject sampleOptions).Replicas = 3 ∧
    ((k8s.deploymentObject sampleOptions).Containers.map (fun k => k.Ports)) =
      [[{ Port := 8080, Protocol := "TCP" }]] ∧
    (k8s.deploymentObject sampleOptions).Replicas =
      (if 0 < sampleOptions.Replicas then sampleOptions.Replicas else 1) :=
  ⟨by decide, by decide, by decide,
   (deploy_replicas_port_probes {} sampleOptions emptyCluster (by decide)).2.1⟩

/-- C26, the code at the failing input: the caller's label map already names
`app` as `legacy-shop`; `Deploy` passes validation and sends the Create request
for an object whose pod template keeps that label while its selector asks for
`app = svc1`, so the template does not satisfy the selector. With no
caller-supplied labels the two agree. -/
theorem deploy_keeps_caller_app_label :
    relabelledOptions.accepted ∧
    (k8s.K8sService.Deploy {} relabelledOptions emptyCluster).2.requests =
      [ApiRequest.create "ns1" "svc1"] ∧
    labelValue (k8s.deploymentObject relabelledOptions).TemplateLabels "app" =
      some "legacy-shop" ∧
    (k8s.deploymentObject relabelledOptions).Selector = [("app", "svc1")] ∧
    selectorMatches (k8s.deploymentObject relabelledOptions).Selector
      (k8s.deploymentObject relabelledOptions).TemplateLabels = false ∧
    selectorMatches (k8s.deploymentObject sampleOptions).Selector
      (k8s.deploymentObject sampleOptions).TemplateLabels = true := by
  decide

/-! ## Updating a workload in place -/

theorem containerIndex_absent (name : String) (l : List Container)
    (h : ∀ k ∈ l, k.Name ≠ name) : k8s.containerIndex name l = none := by
  induction l with
  | nil => rfl
  | cons k rest ih =>
    have hk : k.Name ≠ name := h k (List.mem_cons_self _ _)
    have hrest := ih (fun x hx => h x (List.mem_cons_of_mem _ hx))
    simp [k8s.containerIndex, hk, hrest]

theorem containerIndex_first (name : String) (pre post : List Container) (k : Container)
    (hpre : ∀ x ∈ pre, x.Name ≠ name) (hk : k.Name = name) :
    k8s.containerIndex name (pre ++ k :: post) = some pre.length := by
  induction pre with
  | nil => simp [k8s.containerIndex, hk]
  | cons x rest ih =>
    have hx : x.Name ≠ name := hpre x (List.mem_cons_self _ _)
    have hrest := ih (fun y hy => hpre y (List.mem_cons_of_mem _ hy))
    simp [k8s.containerIndex, hx, hrest]

theorem modifyAt_first (f : Container → Container) (pre post : List Container)
    (k : Container) :
    k8s.modifyAt f pre.length (pre ++ k :: post) = pre ++ f k :: post := by
  induction pre with
  | nil => rfl
  | cons x rest ih => simp [k8s.modifyAt, ih]

/-- The shape of `UpdateDeployment` when the workload exists but has no
container of the given name: an error after the Get request, nothing written. -/
theorem UpdateDeployment_no_container (k : k8s.K8sService) (opts : k8s.DeploymentOptions)
    (c : Cluster) (hacc : opts.accepted) (hreach : c.reachable = true) (w : Workload)
    (hw : c.workload opts.Namespace opts.Name = some w)
    (hnone : ∀ x ∈ w.Containers, x.Name ≠ opts.Name) :
    k.UpdateDeployment opts c =
      (.error ("container " ++ opts.Name ++ " not found in deployment"),
       { c with requests := c.requests ++ [ApiRequest.get opts.Namespace opts.Name] }) := by
  obtain ⟨h1, h2, h3, h4⟩ := hacc
  unfold Cluster.workload at hw
  unfold k8s.K8sService.UpdateDeployment Cluster.Get
  simp only [h1, h2, h3, h4, if_false, hreach, if_true, hw,
    containerIndex_absent opts.Name w.Containers hnone]

/-- An Update request for a workload whose (namespace, name) is in use on a
reachable cluster stores the object in place of every workload under it. -/
theorem Cluster_Update_found (c : Cluster) (ns : String) (w : Workload)
    (hreach : c.reachable = true)
    (hany : c.workloads.any (fun x => x.Namespace == ns && x.Name == w.Name) = true) :
    c.Update ns w =
      (.ok w, { c with requests := c.requests ++ [ApiRequest.update ns w.Name],
                       workloads := c.workloads.map
                         (fun x => if x.Namespace == ns && x.Name == w.Name then w else x) }) := by
  unfold Cluster.Update
  simp only [hreach, hany, if_true]

/-- The shape of `UpdateDeployment` when the first container of the given name
is `x`: the workload is stored again with that one container rewritten. -/
theorem UpdateDeployment_container (k : k8s.K8sService) (opts : k8s.DeploymentOptions)
    (c : Cluster) (hacc : opts.accepted) (hreach : c.reachable = true) (w : Workload)
    (hw : c.workload opts.Namespace opts.Name = some w)
    (pre post : List Container) (x : Container) (hsplit : w.Containers = pre ++ x :: post)
    (hpre : ∀ y ∈ pre, y.Name ≠ opts.Name) (hx : x.Name = opts.Name) :
    (k.UpdateDeployment opts c).1 = .ok () ∧
    (k.UpdateDeployment opts c).2.workload opts.Namespace opts.Name =
      some { w with Containers := pre ++ k8s.updatedContainer opts x :: post } ∧
    (k.UpdateDeployment opts c).2.requests =
      c.requests ++ [ApiRequest.get opts.Namespace opts.Name,
                     ApiRequest.update opts.Namespace opts.Name] := by
  obtain ⟨h1, h2, h3, h4⟩ := hacc
  unfold Cluster.workload at hw ⊢
  have hp := List.find?_some hw
  simp only [Bool.and_eq_true, beq_iff_eq] at hp
  have hany : c.workloads.any
      (fun y => y.Namespace == opts.Namespace && y.Name == w.Name) = true := by
    rw [List.any_eq_true]
    exact ⟨w, List.mem_of_find?_eq_some hw, by simp [hp.1]⟩
  have hidx : k8s.containerIndex opts.Name w.Containers = some pre.length := by
    rw [hsplit]
    exact containerIndex_first opts.Name pre post x hpre hx
  have hmod : k8s.modifyAt (k8s.updatedContainer opts) pre.length w.Containers =
      pre ++ k8s.updatedContainer opts x :: post := by
    rw [hsplit]
    exact modifyAt_first _ pre post x
  have hmap := find?_map_rewrite
    (fun y : Workload => y.Namespace == opts.Namespace && y.Name == opts.Name)
    (fun y : Workload => y.Namespace == opts.Namespace && y.Name == w.Name)
    (fun _ : Workload =>
      { w with Containers := pre ++ k8s.updatedContainer opts x :: post })
    c.workloads w hw
    (by
      intro y
      cases hq : (y.Namespace == opts.Namespace && y.Name == w.Name) with
      | true =>
        simp only [Bool.and_eq_true, beq_iff_eq] at hq
        simp [hp.1, hp.2, hq.1, hq.2]
      | false => simp [hq])
  have hU := Cluster_Update_found
    { c with requests := c.requests ++ [ApiRequest.get opts.Namespace opts.Name] }
    opts.Namespace { w with Containers := pre ++ k8s.updatedContainer opts x :: post }
    hreach hany
  have hget : c.Get opts.Namespace opts.Name =
      (.ok w, { c with requests := c.requests ++
        [ApiRequest.get opts.Namespace opts.Name] }) := by
    unfold Cluster.Get
    simp only [hreach, if_true, hw]
  unfold k8s.K8sService.UpdateDeployment
  simp only [h1, h2, h3, h4, if_false, hget, hidx, hmod, hU]
  refine ⟨trivial, ?_, ?_⟩
  · simp only [hp.1, hp.2, beq_self_eq_true, Bool.and_self, if_true] at hmap ⊢
    exact hmap
  · simp [hp.2]

/-- Claim C30: for an existing workload on a reachable cluster and options that
`UpdateDeployment` accepts, (1) when no container is named `opts.Name` the call
returns an error, sends only the Get request and leaves the stored workloads as
they were; (2) when `x` is the first container named `opts.Name`, the stored
workload afterwards is the old one with only that container replaced, so the
other containers, the replica count, the labels and the selector are unchanged,
and the replaced container has image `Image:Tag`, the environment and resources
of the options when they are set and its own otherwise, and every other field
as before. -/
theorem update_deployment_frame (k : k8s.K8sService) (opts : k8s.DeploymentOptions)
    (c : Cluster) (hacc : opts.accepted) (hreach : c.reachable = true) (w : Workload)
    (hw : c.workload opts.Namespace opts.Name = some w) :
    ((∀ x ∈ w.Containers, x.Name ≠ opts.Name) →
      (k.UpdateDeployment opts c).1.isError = true ∧
      (k.UpdateDeployment opts c).2.workloads = c.workloads ∧
      (k.UpdateDeployment opts c).2.requests =
        c.requests ++ [ApiRequest.get opts.Namespace opts.Name]) ∧
    (∀ (pre post : List Container) (x : Container),
      w.Containers = pre ++ x :: post → (∀ y ∈ pre, y.Name ≠ opts.Name) →
      x.Name = opts.Name →
      ∃ x1 : Container,
        (k.UpdateDeployment opts c).2.workload opts.Namespace opts.Name =
          some { Namespace := w.Namespace, Name := w.Name, Replicas := w.Replicas,
                 Containers := pre ++ x1 :: post,
                 TemplateAnnotations := w.TemplateAnnotations, Labels := w.Labels,
                 Annotations := w.Annotations, Selector := w.Selector,
                 TemplateLabels := w.TemplateLabels, RestartPolicy := w.RestartPolicy } ∧
        x1.Image = opts.Image ++ ":" ++ opts.Tag ∧
        (∀ env, opts.EnvVars = some env → x1.Env = some env) ∧
        (opts.EnvVars = none → x1.Env = x.Env) ∧
        (∀ r, opts.Resources = some r → x1.Resources = r) ∧
        (opts.Resources = none → x1.Resources = x.Resources) ∧
        x1.Name = x.Name ∧ x1.Ports = x.Ports ∧
        x1.LivenessProbe = x.LivenessProbe ∧ x1.ReadinessProbe = x.ReadinessProbe) := by
  refine ⟨fun hnone => ?_, fun pre post x hsplit hpre hx => ?_⟩
  · rw [UpdateDeployment_no_container k opts c hacc hreach w hw hnone]
    exact ⟨rfl, rfl, rfl⟩
  · refine ⟨k8s.updatedContainer opts x, ?_, rfl, ?_, ?_, ?_, ?_, rfl, rfl, rfl, rfl⟩
    · exact (UpdateDeployment_container k opts c hacc hreach w hw pre post x hsplit hpre hx).2.1
    · intro env he
      simp [k8s.updatedContainer, he]
    · intro he
      simp [k8s.updatedContainer, he]
    · intro r hr
      simp [k8s.updatedContainer, hr]
    · intro hr
      simp [k8s.updatedContainer, hr]

/-- Witness for C30 on a workload with a sidecar first and two containers named
`svc1`: only the middle container receives the new image. -/
theorem update_deployment_frame_witness :
    changedOptions.accepted ∧ sidecarCluster.reachable = true ∧
    sidecarCluster.workload changedOptions.Namespace changedOptions.Name =
      some sidecarWorkload ∧
    ∃ x1 : Container,
      (k8s.K8sService.UpdateDeployment {} changedOptions sidecarCluster).2.workload
          changedOptions.Namespace changedOptions.Name =
        some { Namespace := sidecarWorkload.Namespace, Name := sidecarWorkload.Name,
               Replicas := sidecarWorkload.Replicas,
               Containers := [{ Name := "proxy", Image := "envoy:1.30" }] ++ x1 ::
                 [{ Name := "svc1", Image := "shop:canary" }],
               TemplateAnnotations := sidecarWorkload.TemplateAnnotations,
               Labels := sidecarWorkload.Labels,
               Annotations := sidecarWorkload.Annotations,
               Selector := sidecarWorkload.Selector,
               TemplateLabels := sidecarWorkload.TemplateLabels,
               RestartPolicy := sidecarWorkload.RestartPolicy } ∧
      x1.Image = "shop:20240518-080000" :=
  ⟨by decide, by decide, by decide,
   let h := (update_deployment_frame {} changedOptions sidecarCluster (by decide)
      (by decide) sidecarWorkload (by decide)).2
      [{ Name := "proxy", Image := "envoy:1.30" }]
      [{ Name := "svc1", Image := "shop:canary" }]
      { Name := "svc1", Image := "shop:20240517-103007" }
      (by decide) (by decide) (by decide)
   h.elim (fun x1 hx1 => ⟨x1, hx1.1, hx1.2.1.trans (by decide)⟩)⟩

/-! ## Constructors and handlers -/

/-- Claim C23 (the code falls short of it): the service `NewDeploymentService`
returns has no `buildRepo`, for every pair of arguments, and `Create` on it
reads that field first, so for every input and every store the call ends in
the nil dereference instead of returning a Deployment or an error, and the
store is as before. -/
theorem new_deployment_service_create_panics (deploymentRepo : Option DeploymentRepository)
    (k8sService : Option K8sService) (buildID : Nat) (environment : String)
    (replicas : Int) (ns serviceName ingressHost : String) (db : DB) :
    (NewDeploymentService deploymentRepo k8sService).buildRepo = none ∧
    (NewDeploymentService deploymentRepo k8sService).Create buildID environment replicas
      ns serviceName ingressHost db = (.panic, db) :=
  ⟨rfl, rfl⟩

/-- Claim C27 (the code falls short of it): on a store with no build at all,
`BuildService.CancelBuild 7` returns no error and the cancel endpoint answers
200 with "Build cancelled successfully", the store being unchanged, while
`StartBuild` and `CompleteBuild` return "record not found" for the same id. -/
theorem cancel_missing_build_reports_success :
    sampleDB.builds = [] ∧
    sampleBuildService.CancelBuild 7 sampleDB = (.ok (), sampleDB) ∧
    sampleBuildHandler.CancelBuild "7" sampleDB =
      (.ok { status := 200, body := [("message", "Build cancelled successfully")] },
       sampleDB) ∧
    (sampleBuildService.StartBuild 7 sampleTime sampleDB).1 = .error recordNotFound ∧
    (sampleBuildService.CompleteBuild 7 "success" "" "" sampleTime sampleDB).1 =
      .error recordNotFound := by
  decide

/-- Claim C24 (the code falls short of it): for the registered user 1 and a
request that only sets the avatar, `UpdateProfile` answers 200 and the stored
password hash, a bcrypt hash before the call, is the empty string after it;
the user name, the email and the role are kept. -/
theorem update_profile_clears_password :
    storedPassword dbWithUser 1 = some "$2a$10$N9qo8uLOickgx2ZMRZoMye" ∧
    (sampleUserHandler.UpdateProfile (some 1)
        (.ok { Email := "", Avatar := "cat.png" }) dbWithUser).1 =
      .ok { status := 200, body := [("message", "Profile updated successfully")],
            user := some { sampleUser with Password := "", Avatar := "cat.png" } } ∧
    storedPassword (sampleUserHandler.UpdateProfile (some 1)
        (.ok { Email := "", Avatar := "cat.png" }) dbWithUser).2 1 = some "" ∧
    (sampleUserHandler.UpdateProfile (some 1)
        (.ok { Email := "", Avatar := "cat.png" }) dbWithUser).2.users =
      [{ sampleUser with Password := "", Avatar := "cat.png" }] := by
  decide

/-! ## The progress loops: a decoder that repeats its error -/

theorem buildSteps_stuck (fuel : Nat) (dec : docker.Decoder) (h : dec.stuck = true) :
    docker.buildSteps fuel dec = none := by
  induction fuel with
  | zero => rfl
  | succ n ih => simp [docker.buildSteps, docker.Decoder.Decode, h, ih]

theorem logsSteps_stuck (fuel : Nat) (logs : String) (dec : docker.Decoder)
    (h : dec.stuck = true) : docker.logsSteps fuel logs dec = none := by
  induction fuel with
  | zero => rfl
  | succ n ih => simp [docker.logsSteps, docker.Decoder.Decode, h, ih]

theorem pushSteps_stuck (fuel : Nat) (dec : docker.PushDecoder) (h : dec.stuck = true) :
    docker.pushSteps fuel dec = none := by
  induction fuel with
  | zero => rfl
  | succ n ih => simp [docker.pushSteps, docker.PushDecoder.Decode, h, ih]

theorem buildSteps_broken (fuel : Nat) (rest : List docker.DecodeEvent) :
    docker.buildSteps fuel { pending := .broken :: rest, stuck := false } = none := by
  cases fuel with
  | zero => rfl
  | succ n =>
    simp only [docker.buildSteps, docker.Decoder.Decode, Bool.false_eq_true, if_false]
    exact buildSteps_stuck n _ rfl

theorem logsSteps_broken (fuel : Nat) (logs : String) (rest : List docker.DecodeEvent) :
    docker.logsSteps fuel logs { pending := .broken :: rest, stuck := false } = none := by
  cases fuel with
  | zero => rfl
  | succ n =>
    simp only [docker.logsSteps, docker.Decoder.Decode, Bool.false_eq_true, if_false]
    exact logsSteps_stuck n logs _ rfl

theorem pushSteps_broken (fuel : Nat) (rest : List docker.PushEvent) :
    docker.pushSteps fuel { pending := .broken :: rest, stuck := false } = none := by
  cases fuel with
  | zero => rfl
  | succ n =>
    simp only [docker.pushSteps, docker.PushDecoder.Decode, Bool.false_eq_true, if_false]
    exact pushSteps_stuck n _ rfl

/-- The loop of `BuildImage` as a function of the stream agrees with its
iterations: where the former never returns, no number of iterations returns. -/
theorem buildSteps_of_hangs (events : List docker.DecodeEvent)
    (h : docker.buildLoop events = .hangs) (fuel : Nat) :
    docker.buildSteps fuel { pending := events, stuck := false } = none := by
  induction events generalizing fuel with
  | nil => simp [docker.buildLoop] at h
  | cons e rest ih =>
    cases fuel with
    | zero => rfl
    | succ n =>
      cases e with
      | message p =>
        by_cases hp : p.Error = ""
        · simp only [docker.buildLoop, hp, ne_eq, not_true_eq_false, if_false] at h
          simp only [docker.buildSteps, docker.Decoder.Decode, Bool.false_eq_true, if_false,
            hp, ne_eq, not_true_eq_false]
          exact ih h n
        · simp [docker.buildLoop, hp] at h
      | skipped =>
        simp only [docker.buildLoop] at h
        simp only [docker.buildSteps, docker.Decoder.Decode, Bool.false_eq_true, if_false]
        exact ih h n
      | broken => exact buildSteps_broken (n + 1) rest

/-- Where the loop of `BuildImage` returns as a function of the stream, one
iteration per event and one more for the end of the stream return the same. -/
theorem buildSteps_of_returns (events : List docker.DecodeEvent) (r : Option String)
    (h : docker.buildLoop events = .returns r) :
    docker.buildSteps (events.length + 1) { pending := events, stuck := false } = some r := by
  induction events with
  | nil =>
    simp only [docker.buildLoop, Run.returns.injEq] at h
    simp [docker.buildSteps, docker.Decoder.Decode, h]
  | cons e rest ih =>
    cases e with
    | message p =>
      by_cases hp : p.Error = ""
      · simp only [docker.buildLoop, hp, ne_eq, not_true_eq_false, if_false] at h
        simp only [List.length_cons, docker.buildSteps, docker.Decoder.Decode,
          Bool.false_eq_true, if_false, hp, ne_eq, not_true_eq_false]
        exact ih h
      · simp only [docker.buildLoop, ne_eq, hp, not_false_eq_true, if_true,
          Run.returns.injEq] at h
        simp [docker.buildSteps, docker.Decoder.Decode, hp, h]
    | skipped =>
      simp only [docker.buildLoop] at h
      simp only [List.length_cons, docker.buildSteps, docker.Decoder.Decode,
        Bool.false_eq_true, if_false]
      exact ih h
    | broken => simp [docker.buildLoop] at h

/-- Claim C25 (the code falls short of it): once the decoder has met bytes
that are not JSON, no number of iterations makes the loop of `BuildImage`, of
`BuildImageWithLogs` or of `PushImage` return, whatever follows in the stream
and whatever was logged before; so the three methods never return for an
accepted call on a daemon whose streams hold one message and then such
bytes. -/
theorem decode_loops_spin_on_repeated_error (fuel : Nat) (logs : String)
    (rest : List docker.DecodeEvent) (restPush : List docker.PushEvent) :
    docker.buildSteps fuel { pending := .broken :: rest, stuck := false } = none ∧
    docker.logsSteps fuel logs { pending := .broken :: rest, stuck := false } = none ∧
    docker.pushSteps fuel { pending := .broken :: restPush, stuck := false } = none ∧
    docker.buildSteps fuel { pending := garbledDaemon.body, stuck := false } = none ∧
    docker.logsSteps fuel "" { pending := garbledDaemon.body, stuck := false } = none ∧
    docker.pushSteps fuel { pending := garbledDaemon.pushBody, stuck := false } = none ∧
    (docker.DockerService.BuildImage {} taggedOptions garbledDaemon).1 = .hangs ∧
    (docker.DockerService.BuildImageWithLogs {} taggedOptions garbledDaemon).1 = .hangs ∧
    (docker.DockerService.PushImage {} "shop" "20240517-103007" "ci" "secret"
      garbledDaemon).1 = .hangs := by
  refine ⟨buildSteps_broken fuel rest, logsSteps_broken fuel logs rest,
    pushSteps_broken fuel restPush, ?_, ?_, ?_, by decide, by decide, by decide⟩
  · cases fuel with
    | zero => rfl
    | succ n =>
      simp only [garbledDaemon, docker.buildSteps, docker.Decoder.Decode, Bool.false_eq_true,
        if_false, ne_eq, not_true_eq_false]
      exact buildSteps_broken n []
  · cases fuel with
    | zero => rfl
    | succ n =>
      simp only [garbledDaemon, docker.logsSteps, docker.Decoder.Decode, Bool.false_eq_true,
        if_false, ne_eq, not_true_eq_false]
      exact logsSteps_broken n _ []
  · cases fuel with
    | zero => rfl
    | succ n =>
      simp only [garbledDaemon, docker.pushSteps, docker.PushDecoder.Decode,
        Bool.false_eq_true, if_false]
      exact pushSteps_broken n []

/-! ## Collected build logs -/

/-- The loop of `BuildImageWithLogs` on a stream of decoded messages: it
returns, the logs growing by the `Stream` texts before the first failure. -/
theorem logsLoop_messages (msgs : List docker.BuildProgress) (logs : String) :
    docker.logsLoop logs (msgs.map docker.DecodeEvent.message) =
      .returns (logs ++ docker.streamsBeforeFailure msgs,
        (docker.firstFailure msgs).map (fun p => "build failed: " ++ p.Error)) := by
  induction msgs generalizing logs with
  | nil =>
    simp [docker.logsLoop, docker.streamsBeforeFailure, docker.firstFailure]
  | cons p rest ih =>
    by_cases hp : p.Error = ""
    · have hstream : (if p.Stream ≠ "" then logs ++ p.Stream else logs) = logs ++ p.Stream := by
        by_cases hs : p.Stream = ""
        · simp [hs]
        · simp [hs]
      simp only [List.map_cons, docker.logsLoop, hp, ne_eq, not_true_eq_false, if_false]
      rw [hstream, ih (logs ++ p.Stream)]
      simp [docker.streamsBeforeFailure, docker.firstFailure, hp, String.append_assoc]
    · simp [docker.logsLoop, docker.streamsBeforeFailure, docker.firstFailure, hp]

theorem firstFailure_isSome (msgs : List docker.BuildProgress) :
    (docker.firstFailure msgs).isSome = true ↔ ∃ p ∈ msgs, p.Error ≠ "" := by
  simp [docker.firstFailure, List.find?_isSome]

/-- Claim C29: for accepted options, a daemon that archives and starts the
build without error and a response stream made of the decoded messages `msgs`,
`BuildImageWithLogs` returns; its error is non-nil exactly when some message
has a non-empty `Error` (it is then "build failed: " and the first such
`Error`), and its log text is the concatenation, in order, of the `Stream`
fields of the messages before the first such message, or of all messages when
there is none. -/
theorem build_logs_of_decoded_messages (s : docker.DockerService)
    (opts : docker.BuildOptions) (d : docker.Daemon) (msgs : List docker.BuildProgress)
    (hacc : opts.accepted) (htar : d.tarError = none) (hbuild : d.buildError = none)
    (hbody : d.body = msgs.map docker.DecodeEvent.message) :
    ∃ err : Option String,
      (s.BuildImageWithLogs opts d).1 = .returns (docker.streamsBeforeFailure msgs, err) ∧
      (err.isSome = true ↔ ∃ p ∈ msgs, p.Error ≠ "") ∧
      err = (docker.firstFailure msgs).map (fun p => "build failed: " ++ p.Error) ∧
      ((∀ p ∈ msgs, p.Error = "") →
        docker.streamsBeforeFailure msgs =
          (msgs.map (fun p => p.Stream)).foldr (fun stream text => stream ++ text) "") := by
  obtain ⟨h1, h2, h3⟩ := hacc
  refine ⟨(docker.firstFailure msgs).map (fun p => "build failed: " ++ p.Error), ?_, ?_, rfl, ?_⟩
  · unfold docker.DockerService.BuildImageWithLogs
    simp only [h1, h2, h3, if_false, htar, hbuild, hbody, logsLoop_messages msgs "",
      String.empty_append]
  · rw [← firstFailure_isSome]
    cases docker.firstFailure msgs <;> simp
  · intro hall
    have htake : msgs.takeWhile (fun p => p.Error == "") = msgs := by
      rw [List.takeWhile_eq_self_iff]
      intro p hp
      simp [hall p hp]
    simp only [docker.streamsBeforeFailure, htake]

/-- Witness for C29 on a build whose fourth message reports a failure: the
logs are the two `Stream` texts before it, the status line adds nothing and
the line after the failure is not read. -/
theorem build_logs_of_decoded_messages_witness :
    taggedOptions.accepted ∧ (docker.daemonWith failingBuildMessages).tarError = none ∧
    (docker.daemonWith failingBuildMessages).buildError = none ∧
    (docker.daemonWith failingBuildMessages).body =
      failingBuildMessages.map docker.DecodeEvent.message ∧
    ∃ err : Option String,
      (docker.DockerService.BuildImageWithLogs {} taggedOptions
          (docker.daemonWith failingBuildMessages)).1 =
        .returns ("Step 1/2 : FROM alpine\nStep 2/2 : RUN make\n", err) ∧
      err = some "build failed: exit code 2" :=
  ⟨by decide, rfl, rfl, rfl,
   (build_logs_of_decoded_messages {} taggedOptions (docker.daemonWith failingBuildMessages)
      failingBuildMessages (by decide) rfl rfl rfl).elim
    (fun err h => ⟨err,
      h.1.trans (congrArg (fun text => Run.returns (text, err)) (by decide)),
      h.2.2.1.trans (by decide)⟩)⟩

/-! ## Pod logs -/

/-- Claim C28 (the code falls short of it): on a log stream whose second read
delivers "line 2" together with the end of the stream, `GetPodLogs` returns
only "line 1", while the stream delivered both lines. -/
theorem pod_logs_drop_read_with_error :
    k8s.K8sService.GetPodLogs {} "ns1" "svc1-7c9d" "" (fun _ _ _ => .ok twoLineStream) =
      .ok "line 1\n" ∧
    k8s.delivered twoLineStream = "line 1\nline 2\n" ∧
    k8s.K8sService.GetPodLogs {} "ns1" "svc1-7c9d" "" (fun _ _ _ => .ok twoLineStream) ≠
      .ok (k8s.delivered twoLineStream) := by
  decide

end YsCloud
